import Mathlib

/-!
# llm-studio BFF: sessions, role checks and OAuth completion

A shallow embedding of the application layer of the service
(`internal/application/{rbac,llmadmin,llmtoken,auth}`), of the domain types it
uses (`internal/domain`) and of the relational user repository
(`internal/infrastructure/persistence`).

Conventions of the embedding:

* a Go result `(v, err)` is a pair `(v, e)` with `e : Option GoError`
  (`none` is `nil`); a function returning only `error` returns `Option GoError`;
* a port (a Go interface) is a record of functions over a state of the outside
  world `σ`; every call made through a port is appended to the trace of the
  `World`, together with the error it returned;
* an interface value that the code compares with `nil` is an `Option`;
* `context.Context` carries no data used by the code and is left out.
-/

set_option autoImplicit false

/-! ## Go strings -/

namespace strings

/-- Runes for which `unicode.IsSpace` holds (the White_Space property). -/
def isSpace (c : Char) : Bool :=
  (9 ≤ c.toNat && c.toNat ≤ 13) || c.toNat == 0x20 || c.toNat == 0x85 || c.toNat == 0xA0
    || c.toNat == 0x1680 || (0x2000 ≤ c.toNat && c.toNat ≤ 0x200A)
    || c.toNat == 0x2028 || c.toNat == 0x2029 || c.toNat == 0x202F
    || c.toNat == 0x205F || c.toNat == 0x3000

/-- Runes left after dropping leading and trailing white space. -/
def trimRunes (cs : List Char) : List Char :=
  ((cs.dropWhile isSpace).reverse.dropWhile isSpace).reverse

/-- Go `strings.TrimSpace`. -/
def TrimSpace (s : String) : String :=
  String.mk (trimRunes s.data)

/-- Go `unicode.ToLower` on one rune: the ASCII letters are mapped by the code
of the standard library itself, the runes above ASCII by the case tables of the
Unicode standard, which are the argument `table`. -/
def toLowerRune (table : Char → Char) (c : Char) : Char :=
  if c.toNat < 128 then
    (if 65 ≤ c.toNat ∧ c.toNat ≤ 90 then Char.ofNat (c.toNat + 32) else c)
  else table c

/-- Go `strings.ToLower`. -/
def ToLower (table : Char → Char) (s : String) : String :=
  String.mk (s.data.map (toLowerRune table))

/-- Go `len(s)`: the number of bytes of the UTF-8 encoding. -/
def len (s : String) : Nat :=
  s.utf8ByteSize

end strings

/-! ## Errors -/

/-- Go `error` values. -/
inductive GoError where
  /-- A package-level error variable, named by its qualified name. -/
  | pkgVar (name : String)
  /-- An error made by `errors.New` at the place where it is returned. -/
  | errorsNew (msg : String)
  /-- An error made outside the application layer (database, store, RPC). -/
  | foreign (msg : String)
  deriving DecidableEq, Repr

/-! ## Domain types (`internal/domain`) -/

namespace domain

abbrev Role := String

abbrev RoleSuperAdmin : Role := "super_admin"
abbrev RoleAdmin : Role := "admin"
abbrev RoleUser : Role := "user"

/-- Go `domain.ParseRole`. -/
def ParseRole (table : Char → Char) (s : String) : Role × Bool :=
  let r : Role := strings.ToLower table (strings.TrimSpace s)
  if r = RoleSuperAdmin then (RoleSuperAdmin, true)
  else if r = RoleAdmin then (RoleAdmin, true)
  else if r = RoleUser then (RoleUser, true)
  else ("", false)

structure Token where
  Value : String
  ExpiresAt : Int
  deriving DecidableEq, Repr

structure TokenPair where
  AccessToken : Token
  RefreshToken : Token
  TokenType : String
  deriving DecidableEq, Repr

structure Session where
  UserID : String
  Token : TokenPair
  deriving DecidableEq, Repr

def Token.zero : Token := ⟨"", 0⟩
def TokenPair.zero : TokenPair := ⟨Token.zero, Token.zero, ""⟩
def Session.zero : Session := ⟨"", TokenPair.zero⟩

structure OAuthConnection where
  Provider : String
  ProviderUserID : String
  deriving DecidableEq, Repr

structure LoginInfo where
  UserID : String
  Email : String
  GithubID : Option String
  PasswordEnabled : Bool
  OAuthConnections : List OAuthConnection
  deriving DecidableEq, Repr

def LoginInfo.zero : LoginInfo := ⟨"", "", none, false, []⟩

structure Me where
  UserID : String
  Role : Role
  Email : String
  GithubID : Option String
  Nickname : String
  deriving DecidableEq, Repr

def Me.zero : Me := ⟨"", "", "", none, ""⟩

/-- The view of a user on the user-management page; a `time.Time` is modelled
by an integer timestamp. -/
structure AdminUser where
  ID : String
  Role : Role
  Email : String
  GithubID : Option String
  PasswordEnabled : Bool
  CreatedAt : Int
  UpdatedAt : Int
  deriving DecidableEq, Repr

abbrev LLMProviderType := String

abbrev LLMProviderUnspecified : LLMProviderType := ""
abbrev LLMProviderDashscope : LLMProviderType := "dashscope"
abbrev LLMProviderOpenRouter : LLMProviderType := "openrouter"

structure LLMProviderConfig where
  Provider : LLMProviderType
  BaseURL : String
  APIKey : String
  TimeoutSeconds : Int
  deriving DecidableEq, Repr

structure LLMProviderConfigView where
  Provider : LLMProviderType
  BaseURL : String
  TimeoutSeconds : Int
  APIKeyPresent : Bool
  deriving DecidableEq, Repr

abbrev LLMModelCapability := String

structure LLMModelConfig where
  Provider : LLMProviderType
  Capabilities : List LLMModelCapability
  UpstreamModel : String
  deriving DecidableEq, Repr

structure LLMModelSpec where
  ID : String
  Provider : LLMProviderType
  Capabilities : List LLMModelCapability
  UpstreamModel : String
  deriving DecidableEq, Repr

end domain

/-! ## Port calls and the world -/

/-- The calls the application layer makes through its ports. -/
inductive Call where
  | sessionsGet (sessionID : String)
  | sessionsSave (sessionID : String) (session : domain.Session) (ttl : Int)
  | sessionsDelete (sessionID : String)
  | usersEnsureExists (userID : String)
  | usersSaveLoginInfo (info : domain.LoginInfo)
  | usersGetRole (userID : String)
  | usersSetRole (userID : String) (role : domain.Role)
  | usersListUsers (limit : Int) (offset : Int)
  | usersGetMe (userID : String)
  | usersSetNickname (userID : String) (nickname : String)
  | adminUpsertProviderConfig (cfg : domain.LLMProviderConfig)
  | adminDeleteProviderConfig (provider : domain.LLMProviderType)
  | adminListProviderConfigs
  | adminUpsertModel (cfg : domain.LLMModelConfig)
  | adminDeleteModel (id : String)
  | adminListModels
  | gatewayGetAuthorizationURL (provider : String) (redirectURL : String)
  | gatewayLoginByOAuth (code : String) (state : String)
  | gatewayGetCurrentUserLoginInfo (accessToken : String)
  | uidsExtractUserID (accessToken : String)
  | issuerIssueToken (subject : String) (ttlSeconds : Int) (allowedModelIDs : List String)
  | randRead (n : Nat)
  deriving DecidableEq, Repr

/-- One entry of the trace: the call and the error it returned. -/
structure Event where
  call : Call
  err : Option GoError
  deriving DecidableEq, Repr

/-- The state of the outside world together with the trace of port calls. -/
structure World (σ : Type) where
  state : σ
  trace : List Event

namespace World

variable {σ α : Type}

/-- A call of a port method that returns `(value, error)`. -/
def call (w : World σ) (c : Call) (f : σ → (α × Option GoError) × σ) :
    (α × Option GoError) × World σ :=
  ((f w.state).1, ⟨(f w.state).2, w.trace ++ [⟨c, (f w.state).1.2⟩]⟩)

/-- A call of a port method that returns only `error`. -/
def callE (w : World σ) (c : Call) (f : σ → Option GoError × σ) :
    Option GoError × World σ :=
  ((f w.state).1, ⟨(f w.state).2, w.trace ++ [⟨c, (f w.state).1⟩]⟩)

/-- The events recorded in `w` after the point `w0` of the same run. -/
def since (w0 w : World σ) : List Event :=
  w.trace.drop w0.trace.length

end World

/-- The calls made on the user repository. -/
def Call.isUsers : Call → Bool
  | .usersEnsureExists _ => true
  | .usersSaveLoginInfo _ => true
  | .usersGetRole _ => true
  | .usersSetRole _ _ => true
  | .usersListUsers _ _ => true
  | .usersGetMe _ => true
  | .usersSetNickname _ _ => true
  | _ => false

/-- The calls made on the `LLMGatewayAdmin` port. -/
def Call.isAdmin : Call → Bool
  | .adminUpsertProviderConfig _ => true
  | .adminDeleteProviderConfig _ => true
  | .adminListProviderConfigs => true
  | .adminUpsertModel _ => true
  | .adminDeleteModel _ => true
  | .adminListModels => true
  | _ => false

/-- The calls made on the session store. -/
def Call.isSessions : Call → Bool
  | .sessionsGet _ => true
  | .sessionsSave _ _ _ => true
  | .sessionsDelete _ => true
  | _ => false

/-- The calls of `UserRepository.SetRole`. -/
def Call.isSetRole : Call → Bool
  | .usersSetRole _ _ => true
  | _ => false

/-- The calls of `SessionStore.Save`. -/
def Call.isSave : Call → Bool
  | .sessionsSave _ _ _ => true
  | _ => false

/-- The calls of `UserRepository.SetNickname`. -/
def Call.isSetNickname : Call → Bool
  | .usersSetNickname _ _ => true
  | _ => false

/-! ## `internal/application/rbac` -/

namespace rbac

def ErrUnauthenticated : GoError := .pkgVar "rbac.ErrUnauthenticated"
def ErrForbidden : GoError := .pkgVar "rbac.ErrForbidden"
def ErrInvalidRole : GoError := .pkgVar "rbac.ErrInvalidRole"
def ErrInvalidNickname : GoError := .pkgVar "rbac.ErrInvalidNickname"

structure SessionStore (σ : Type) where
  Get : String → σ → (domain.Session × Option GoError) × σ

structure UserRepository (σ : Type) where
  GetRole : String → σ → (domain.Role × Option GoError) × σ
  SetRole : String → domain.Role → σ → Option GoError × σ
  ListUsers : Int → Int → σ → (List domain.AdminUser × Option GoError) × σ
  GetMe : String → σ → (domain.Me × Option GoError) × σ
  SetNickname : String → String → σ → Option GoError × σ

structure Usecase (σ : Type) where
  sessions : SessionStore σ
  users : UserRepository σ

variable {σ : Type}

/-- Go `(*Usecase).Me`. -/
def Me (u : Usecase σ) (sessionID : String) (w : World σ) :
    (domain.Me × Option GoError) × World σ :=
  if sessionID = "" then ((domain.Me.zero, some ErrUnauthenticated), w)
  else
    let r := w.call (.sessionsGet sessionID) (u.sessions.Get sessionID)
    match r.1.2 with
    | some _ => ((domain.Me.zero, some ErrUnauthenticated), r.2)
    | none => r.2.call (.usersGetMe r.1.1.UserID) (u.users.GetMe r.1.1.UserID)

/-- Go `(*Usecase).UpdateMyNickname`. -/
def UpdateMyNickname (u : Usecase σ) (sessionID : String) (nickname : String) (w : World σ) :
    (domain.Me × Option GoError) × World σ :=
  if sessionID = "" then ((domain.Me.zero, some ErrUnauthenticated), w)
  else
    let r := w.call (.sessionsGet sessionID) (u.sessions.Get sessionID)
    match r.1.2 with
    | some _ => ((domain.Me.zero, some ErrUnauthenticated), r.2)
    | none =>
      let nickname := strings.TrimSpace nickname
      if strings.len nickname > 32 then ((domain.Me.zero, some ErrInvalidNickname), r.2)
      else
        let r2 := r.2.callE (.usersSetNickname r.1.1.UserID nickname)
          (u.users.SetNickname r.1.1.UserID nickname)
        match r2.1 with
        | some err => ((domain.Me.zero, some err), r2.2)
        | none => r2.2.call (.usersGetMe r.1.1.UserID) (u.users.GetMe r.1.1.UserID)

/-- Go `(*Usecase).ListUsers`. -/
def ListUsers (u : Usecase σ) (sessionID : String) (limit : Int) (offset : Int) (w : World σ) :
    (List domain.AdminUser × Option GoError) × World σ :=
  if sessionID = "" then (([], some ErrUnauthenticated), w)
  else
    let r := w.call (.sessionsGet sessionID) (u.sessions.Get sessionID)
    match r.1.2 with
    | some _ => (([], some ErrUnauthenticated), r.2)
    | none =>
      let r2 := r.2.call (.usersGetRole r.1.1.UserID) (u.users.GetRole r.1.1.UserID)
      match r2.1.2 with
      | some err => (([], some err), r2.2)
      | none =>
        if r2.1.1 ≠ domain.RoleSuperAdmin ∧ r2.1.1 ≠ domain.RoleAdmin then
          (([], some ErrForbidden), r2.2)
        else r2.2.call (.usersListUsers limit offset) (u.users.ListUsers limit offset)

/-- Go `(*Usecase).SetUserRole`. -/
def SetUserRole (u : Usecase σ) (actorSessionID : String) (targetUserID : String)
    (role : domain.Role) (w : World σ) : Option GoError × World σ :=
  if actorSessionID = "" then (some ErrUnauthenticated, w)
  else
    let r := w.call (.sessionsGet actorSessionID) (u.sessions.Get actorSessionID)
    match r.1.2 with
    | some _ => (some ErrUnauthenticated, r.2)
    | none =>
      let r2 := r.2.call (.usersGetRole r.1.1.UserID) (u.users.GetRole r.1.1.UserID)
      match r2.1.2 with
      | some err => (some err, r2.2)
      | none =>
        if r2.1.1 ≠ domain.RoleSuperAdmin then (some ErrForbidden, r2.2)
        else if role ≠ domain.RoleAdmin ∧ role ≠ domain.RoleUser then (some ErrInvalidRole, r2.2)
        else
          let r3 := r2.2.call (.usersGetRole targetUserID) (u.users.GetRole targetUserID)
          if r3.1.2 = none ∧ r3.1.1 = domain.RoleSuperAdmin then (some ErrForbidden, r3.2)
          else r3.2.callE (.usersSetRole targetUserID role) (u.users.SetRole targetUserID role)

end rbac

/-! ## `internal/application/llmadmin` -/

namespace llmadmin

def ErrUnauthenticated : GoError := .pkgVar "llmadmin.ErrUnauthenticated"
def ErrForbidden : GoError := .pkgVar "llmadmin.ErrForbidden"
def ErrInvalidProvider : GoError := .pkgVar "llmadmin.ErrInvalidProvider"
def ErrProviderNotConfigured : GoError := .pkgVar "llmadmin.ErrProviderNotConfigured"
def ErrInvalidModelID : GoError := .pkgVar "llmadmin.ErrInvalidModelID"
def ErrInvalidUpstreamModel : GoError := .pkgVar "llmadmin.ErrInvalidUpstreamModel"

structure SessionStore (σ : Type) where
  Get : String → σ → (domain.Session × Option GoError) × σ

structure UserRepository (σ : Type) where
  GetRole : String → σ → (domain.Role × Option GoError) × σ

structure LLMGatewayAdmin (σ : Type) where
  UpsertProviderConfig : domain.LLMProviderConfig → σ → Option GoError × σ
  DeleteProviderConfig : domain.LLMProviderType → σ → Option GoError × σ
  ListProviderConfigs : σ → (List domain.LLMProviderConfigView × Option GoError) × σ
  UpsertModel : domain.LLMModelConfig → σ → (String × Option GoError) × σ
  DeleteModel : String → σ → Option GoError × σ
  ListModels : σ → (List domain.LLMModelSpec × Option GoError) × σ

structure Usecase (σ : Type) where
  sessions : SessionStore σ
  users : UserRepository σ
  admin : LLMGatewayAdmin σ

variable {σ : Type}

/-- Go `(*Usecase).authorize`. -/
def authorize (u : Usecase σ) (sessionID : String) (w : World σ) : Option GoError × World σ :=
  if sessionID = "" then (some ErrUnauthenticated, w)
  else
    let r := w.call (.sessionsGet sessionID) (u.sessions.Get sessionID)
    match r.1.2 with
    | some _ => (some ErrUnauthenticated, r.2)
    | none =>
      let r2 := r.2.call (.usersGetRole r.1.1.UserID) (u.users.GetRole r.1.1.UserID)
      match r2.1.2 with
      | some err => (some err, r2.2)
      | none =>
        if r2.1.1 ≠ domain.RoleSuperAdmin ∧ r2.1.1 ≠ domain.RoleAdmin then
          (some ErrForbidden, r2.2)
        else (none, r2.2)

/-- Go `(*Usecase).ListProviderConfigs`. -/
def ListProviderConfigs (u : Usecase σ) (sessionID : String) (w : World σ) :
    (List domain.LLMProviderConfigView × Option GoError) × World σ :=
  let a := authorize u sessionID w
  match a.1 with
  | some err => (([], some err), a.2)
  | none => a.2.call .adminListProviderConfigs u.admin.ListProviderConfigs

/-- Go `(*Usecase).UpsertProviderConfig`. -/
def UpsertProviderConfig (u : Usecase σ) (sessionID : String) (cfg : domain.LLMProviderConfig)
    (w : World σ) : Option GoError × World σ :=
  let a := authorize u sessionID w
  match a.1 with
  | some err => (some err, a.2)
  | none =>
    if cfg.Provider = domain.LLMProviderUnspecified then (some ErrInvalidProvider, a.2)
    else
      let cfg := { cfg with BaseURL := strings.TrimSpace cfg.BaseURL }
      let cfg := { cfg with APIKey := strings.TrimSpace cfg.APIKey }
      a.2.callE (.adminUpsertProviderConfig cfg) (u.admin.UpsertProviderConfig cfg)

/-- Go `(*Usecase).DeleteProviderConfig`. -/
def DeleteProviderConfig (u : Usecase σ) (sessionID : String)
    (provider : domain.LLMProviderType) (w : World σ) : Option GoError × World σ :=
  let a := authorize u sessionID w
  match a.1 with
  | some err => (some err, a.2)
  | none =>
    if provider = domain.LLMProviderUnspecified then (some ErrInvalidProvider, a.2)
    else a.2.callE (.adminDeleteProviderConfig provider) (u.admin.DeleteProviderConfig provider)

/-- Go `(*Usecase).ListModels`. -/
def ListModels (u : Usecase σ) (sessionID : String) (w : World σ) :
    (List domain.LLMModelSpec × Option GoError) × World σ :=
  let a := authorize u sessionID w
  match a.1 with
  | some err => (([], some err), a.2)
  | none => a.2.call .adminListModels u.admin.ListModels

/-- Go `(*Usecase).UpsertModel`. -/
def UpsertModel (u : Usecase σ) (sessionID : String) (cfg : domain.LLMModelConfig)
    (w : World σ) : (String × Option GoError) × World σ :=
  let a := authorize u sessionID w
  match a.1 with
  | some err => (("", some err), a.2)
  | none =>
    if cfg.Provider = domain.LLMProviderUnspecified then (("", some ErrInvalidProvider), a.2)
    else
      let r := a.2.call .adminListProviderConfigs u.admin.ListProviderConfigs
      match r.1.2 with
      | some err => (("", some err), r.2)
      | none =>
        let configured := r.1.1.any (fun pc => decide (pc.Provider = cfg.Provider))
        if ¬ configured then (("", some ErrProviderNotConfigured), r.2)
        else
          let cfg := { cfg with UpstreamModel := strings.TrimSpace cfg.UpstreamModel }
          if cfg.UpstreamModel = "" then (("", some ErrInvalidUpstreamModel), r.2)
          else r.2.call (.adminUpsertModel cfg) (u.admin.UpsertModel cfg)

/-- Go `(*Usecase).DeleteModel`. -/
def DeleteModel (u : Usecase σ) (sessionID : String) (id : String) (w : World σ) :
    Option GoError × World σ :=
  let a := authorize u sessionID w
  match a.1 with
  | some err => (some err, a.2)
  | none =>
    let id := strings.TrimSpace id
    if id = "" then (some ErrInvalidModelID, a.2)
    else a.2.callE (.adminDeleteModel id) (u.admin.DeleteModel id)

end llmadmin

/-! ## `internal/application/llmtoken` -/

namespace llmtoken

def ErrUnauthenticated : GoError := .pkgVar "llmtoken.ErrUnauthenticated"

structure SessionStore (σ : Type) where
  Get : String → σ → (domain.Session × Option GoError) × σ

structure TokenIssuer (σ : Type) where
  IssueToken : String → Int → List String → σ → ((String × Int) × Option GoError) × σ

/-- The use case; its two ports are interface values that may be `nil`. -/
structure Usecase (σ : Type) where
  sessions : Option (SessionStore σ)
  issuer : Option (TokenIssuer σ)
  ttlSeconds : Int
  allowedModelIDs : List String

variable {σ : Type}

/-- Go `llmtoken.New`. -/
def New (sessions : Option (SessionStore σ)) (issuer : Option (TokenIssuer σ))
    (ttlSeconds : Int) (allowedModelIDs : List String) : Usecase σ :=
  { sessions := sessions, issuer := issuer, ttlSeconds := ttlSeconds,
    allowedModelIDs := allowedModelIDs }

/-- Go `(*Usecase).IssueToken`; the receiver is a pointer that may be `nil`. -/
def IssueToken (u : Option (Usecase σ)) (sessionID : String) (w : World σ) :
    ((String × Int) × Option GoError) × World σ :=
  if sessionID = "" then ((("", 0), some ErrUnauthenticated), w)
  else
    match u with
    | none => ((("", 0), some (.errorsNew "token issuer not configured")), w)
    | some uc =>
      match uc.sessions, uc.issuer with
      | some sessions, some issuer =>
        let r := w.call (.sessionsGet sessionID) (sessions.Get sessionID)
        match r.1.2 with
        | some _ => ((("", 0), some ErrUnauthenticated), r.2)
        | none =>
          r.2.call (.issuerIssueToken r.1.1.UserID uc.ttlSeconds uc.allowedModelIDs)
            (issuer.IssueToken r.1.1.UserID uc.ttlSeconds uc.allowedModelIDs)
      | _, _ => ((("", 0), some (.errorsNew "token issuer not configured")), w)

end llmtoken

/-! ## Go `encoding/base64` and `crypto/rand` -/

namespace base64

/-- The URL-safe alphabet of RFC 4648. -/
def encodeURL : List Char :=
  "ABCDEFGHIJKLMNOPQRSTUVWXYZabcdefghijklmnopqrstuvwxyz0123456789-_".data

/-- The character for the low six bits of `v`. -/
def digit (v : Nat) : Char :=
  encodeURL.getD (v % 64) 'A'

/-- The unpadded encoding of a sequence of bytes, three bytes to four characters. -/
def encodeRaw : List Nat → List Char
  | a :: b :: c :: rest =>
    let v := (a % 256) * 65536 + (b % 256) * 256 + c % 256
    digit (v / 262144) :: digit (v / 4096) :: digit (v / 64) :: digit v :: encodeRaw rest
  | [a, b] =>
    let v := (a % 256) * 65536 + (b % 256) * 256
    [digit (v / 262144), digit (v / 4096), digit (v / 64)]
  | [a] =>
    let v := (a % 256) * 65536
    [digit (v / 262144), digit (v / 4096)]
  | [] => []

/-- Go `base64.RawURLEncoding.EncodeToString`. -/
def RawURLEncoding.EncodeToString (b : List Nat) : String :=
  String.mk (encodeRaw b)

end base64

/-- The process-wide random source `crypto/rand`: `Read n` gives the bytes
written to the front of a buffer of `n` bytes, and the error. -/
structure RandReader (σ : Type) where
  Read : Nat → σ → (List Nat × Option GoError) × σ

/-- The buffer `make([]byte, n)` after the bytes `written` were stored at its front. -/
def fillBuffer (n : Nat) (written : List Nat) : List Nat :=
  (written.map (· % 256) ++ List.replicate n 0).take n

/-! ## `internal/application/auth` -/

namespace auth

structure OAuthGateway (σ : Type) where
  GetAuthorizationURL : String → String → σ → ((String × String) × Option GoError) × σ
  LoginByOAuth : String → String → σ → (domain.TokenPair × Option GoError) × σ
  GetCurrentUserLoginInfo : String → σ → (domain.LoginInfo × Option GoError) × σ

structure UIDExtractor (σ : Type) where
  ExtractUserID : String → σ → (String × Option GoError) × σ

structure SessionStore (σ : Type) where
  Save : String → domain.Session → Int → σ → Option GoError × σ
  Delete : String → σ → Option GoError × σ

structure UserRepository (σ : Type) where
  EnsureExists : String → σ → Option GoError × σ
  SaveLoginInfo : domain.LoginInfo → σ → Option GoError × σ
  GetRole : String → σ → (domain.Role × Option GoError) × σ
  SetRole : String → domain.Role → σ → Option GoError × σ

/-- The use case. The session store, the extractor and the user repository are
interface values that the code compares with `nil`; the map
`superAdminEmailSet` is the list of its keys, without repetition. -/
structure Usecase (σ : Type) where
  gateway : OAuthGateway σ
  sessions : Option (SessionStore σ)
  uids : Option (UIDExtractor σ)
  users : Option (UserRepository σ)
  superAdminEmailSet : List String

variable {σ : Type}

/-- Go `auth.New`. -/
def New (table : Char → Char) (gateway : OAuthGateway σ) (sessions : Option (SessionStore σ))
    (uids : Option (UIDExtractor σ)) (users : Option (UserRepository σ))
    (superAdminEmails : List String) : Usecase σ :=
  { gateway := gateway, sessions := sessions, uids := uids, users := users,
    superAdminEmailSet := superAdminEmails.foldl
      (fun set e =>
        let e := strings.ToLower table (strings.TrimSpace e)
        if e = "" then set else if e ∈ set then set else set ++ [e]) [] }

/-- Go `(*Usecase).StartOAuth`. -/
def StartOAuth (u : Usecase σ) (provider : String) (redirectURL : String) (w : World σ) :
    ((String × String) × Option GoError) × World σ :=
  w.call (.gatewayGetAuthorizationURL provider redirectURL)
    (u.gateway.GetAuthorizationURL provider redirectURL)

/-- Go `(*Usecase).isSuperAdminByLoginInfo`. -/
def isSuperAdminByLoginInfo (table : Char → Char) (u : Usecase σ) (info : domain.LoginInfo) :
    Bool :=
  if u.superAdminEmailSet.length = 0 then false
  else
    let email := strings.ToLower table (strings.TrimSpace info.Email)
    if email = "" then false
    else decide (email ∈ u.superAdminEmailSet)

/-- Go `newSessionID`. -/
def newSessionID (rand : RandReader σ) (w : World σ) : (String × Option GoError) × World σ :=
  let r := w.call (.randRead 32) (rand.Read 32)
  match r.1.2 with
  | some err => (("", some err), r.2)
  | none => ((base64.RawURLEncoding.EncodeToString (fillBuffer 32 r.1.1), none), r.2)

/-- The last part of `CompleteOAuthToSession` (from `newSessionID` on): a fresh
session id is made and the session is saved under it. -/
def CompleteOAuthToSession.saveSession (rand : RandReader σ) (u : Usecase σ)
    (tokens : domain.TokenPair) (ttl : Int) (userID : String) (w : World σ) :
    ((String × String) × Option GoError) × World σ :=
  let n := newSessionID rand w
  match n.1.2 with
  | some err => ((("", ""), some err), n.2)
  | none =>
    match u.sessions with
    | none => ((("", ""), some (.errorsNew "session store is not configured")), n.2)
    | some sessions =>
      let sv := n.2.callE (.sessionsSave n.1.1 ⟨userID, tokens⟩ ttl)
        (sessions.Save n.1.1 ⟨userID, tokens⟩ ttl)
      match sv.1 with
      | some err => ((("", ""), some err), sv.2)
      | none => (((n.1.1, userID), none), sv.2)

/-- The part of `CompleteOAuthToSession` after the user id is resolved (from the
check of `u.users` on): the user record, the login info, the promotion to
super admin, and then the session. -/
def CompleteOAuthToSession.withUser (table : Char → Char) (rand : RandReader σ) (u : Usecase σ)
    (tokens : domain.TokenPair) (ttl : Int) (userID : String) (loginInfo : domain.LoginInfo)
    (w : World σ) : ((String × String) × Option GoError) × World σ :=
  match u.users with
  | none => ((("", ""), some (.errorsNew "user repository is not configured")), w)
  | some users =>
    let e := w.callE (.usersEnsureExists userID) (users.EnsureExists userID)
    match e.1 with
    | some err => ((("", ""), some err), e.2)
    | none =>
      if loginInfo.UserID ≠ "" then
        let s := e.2.callE (.usersSaveLoginInfo loginInfo) (users.SaveLoginInfo loginInfo)
        match s.1 with
        | some err => ((("", ""), some err), s.2)
        | none =>
          if isSuperAdminByLoginInfo table u loginInfo then
            let t := s.2.callE (.usersSetRole userID domain.RoleSuperAdmin)
              (users.SetRole userID domain.RoleSuperAdmin)
            match t.1 with
            | some err => ((("", ""), some err), t.2)
            | none => CompleteOAuthToSession.saveSession rand u tokens ttl userID t.2
          else CompleteOAuthToSession.saveSession rand u tokens ttl userID s.2
      else CompleteOAuthToSession.saveSession rand u tokens ttl userID e.2

/-- Go `(*Usecase).CompleteOAuthToSession`; the result is
`((sessionID, userID), err)`. -/
def CompleteOAuthToSession (table : Char → Char) (rand : RandReader σ) (u : Usecase σ)
    (code : String) (state : String) (ttl : Int) (w : World σ) :
    ((String × String) × Option GoError) × World σ :=
  let r := w.call (.gatewayLoginByOAuth code state) (u.gateway.LoginByOAuth code state)
  match r.1.2 with
  | some err => ((("", ""), some err), r.2)
  | none =>
    let tokens := r.1.1
    let li := r.2.call (.gatewayGetCurrentUserLoginInfo tokens.AccessToken.Value)
      (u.gateway.GetCurrentUserLoginInfo tokens.AccessToken.Value)
    if li.1.2 = none ∧ li.1.1.UserID ≠ "" then
      CompleteOAuthToSession.withUser table rand u tokens ttl li.1.1.UserID li.1.1 li.2
    else
      match u.uids with
      | none => ((("", ""), some (.errorsNew "uid extractor is not configured")), li.2)
      | some uids =>
        let x := li.2.call (.uidsExtractUserID tokens.AccessToken.Value)
          (uids.ExtractUserID tokens.AccessToken.Value)
        match x.1.2 with
        | some err => ((("", ""), some err), x.2)
        | none =>
          if x.1.1 = "" then ((("", ""), some (.errorsNew "empty user id")), x.2)
          else
            CompleteOAuthToSession.withUser table rand u tokens ttl x.1.1
              domain.LoginInfo.zero x.2

/-- The calls `CompleteOAuthToSession` can make once the user id is resolved
(a description of the trace, used to state what the operation does). -/
def laterCall (tokens : domain.TokenPair) (ttl : Int) (userID : String)
    (loginInfo : domain.LoginInfo) (c : Call) : Prop :=
  c = .usersEnsureExists userID ∨ c = .usersSaveLoginInfo loginInfo ∨
    c = .usersSetRole userID domain.RoleSuperAdmin ∨ c = .randRead 32 ∨
    ∃ sessionID, c = .sessionsSave sessionID ⟨userID, tokens⟩ ttl

/-- The two ways a run of `CompleteOAuthToSession` can end, seen from the world
`w0` in which it started (a description of the trace, used to state what the
operation does). Either it failed before any call of `Save`, with empty ids; or
`Save` is its last call, made once, after `EnsureExists userID` had succeeded and
after calls of which only the login-info lookup may have returned an error, and
the result is the ids on success of `Save` and otherwise empty ids with the error
of `Save`. -/
def Ended {σ : Type} (tokens : domain.TokenPair) (ttl : Int) (w0 : World σ)
    (res : ((String × String) × Option GoError) × World σ) : Prop :=
  (∃ err, res.1 = (("", ""), some err) ∧
    ∀ e ∈ World.since w0 res.2, e.call.isSave = false) ∨
  (∃ pre sessionID userID sv,
    World.since w0 res.2 = pre ++ [⟨.sessionsSave sessionID ⟨userID, tokens⟩ ttl, sv⟩] ∧
    (∀ e ∈ pre, e.call.isSave = false ∧
      (e.err ≠ none → ∃ tok, e.call = .gatewayGetCurrentUserLoginInfo tok)) ∧
    (⟨.usersEnsureExists userID, none⟩ : Event) ∈ pre ∧
    res.1 = match sv with
      | none => ((sessionID, userID), none)
      | some err => (("", ""), some err))

end auth

/-! ## `internal/infrastructure/persistence` -/

namespace persistence

/-- Go `gorm.ErrRecordNotFound`. -/
def ErrRecordNotFound : GoError := .pkgVar "gorm.ErrRecordNotFound"

/-- A row of the table `user_models` (primary key `ID`). -/
structure UserModel where
  ID : String
  Role : String
  Nickname : String
  CreatedAt : Int
  UpdatedAt : Int
  deriving DecidableEq, Repr

/-- A row of the table `login_info_models` (primary key `UserID`). The text
column `OAuthConnectionsJSON` holds the JSON encoding of the list of
connections and is read by no query; the row keeps the list that it encodes.
The two time stamps of this table are read by no query either and are left out. -/
structure LoginInfoModel where
  UserID : String
  Email : String
  GithubID : Option String
  PasswordEnabled : Bool
  OAuthConnections : List domain.OAuthConnection
  deriving DecidableEq, Repr

/-- The database behind `*gorm.DB`: the two tables, the reading of the clock
that the ORM stamps rows with, and the outcomes of the statements to come. An
outcome `some msg` is a statement that the driver fails with that message (a
lost connection, a timeout, a conflict with another writer); such a statement
changes no row. Once the list is used up a statement fails only for what the
rows say. -/
structure DB where
  user_models : List UserModel
  login_info_models : List LoginInfoModel
  now : Int
  faults : List (Option String)
  deriving DecidableEq, Repr

/-- The outcome of the next statement, and the database with that outcome used up. -/
def DB.next (db : DB) : Option GoError × DB :=
  match db.faults with
  | [] => (none, db)
  | f :: rest => (f.map GoError.foreign, { db with faults := rest })

/-- The database with the same rows and no failing statement to come. -/
def DB.calm (db : DB) : DB :=
  { db with faults := [] }

/-- The row of `user_models` with the given primary key. -/
def DB.findUser (db : DB) (userID : String) : Option UserModel :=
  db.user_models.find? (fun r => decide (r.ID = userID))

/-- The row of `login_info_models` with the given primary key. -/
def DB.findLoginInfo (db : DB) (userID : String) : Option LoginInfoModel :=
  db.login_info_models.find? (fun r => decide (r.UserID = userID))

/-- Go `(*UserRepository).EnsureExists`. `FirstOrCreate` selects the row of the
primary key of the given record and inserts the record when it selects none. For
the zero key, the empty string, the ORM puts no condition on the key, and the
statement selects a row whenever the table has one (which row plays no part,
the row is dropped). -/
def EnsureExists (userID : String) (db : DB) : Option GoError × DB :=
  let q := db.next
  match q.1 with
  | some err => (some err, q.2)
  | none =>
    let found := if userID = "" then q.2.user_models.head? else q.2.findUser userID
    match found with
    | some _ => (none, q.2)
    | none =>
      let c := q.2.next
      match c.1 with
      | some err => (some err, c.2)
      | none =>
        let u : UserModel :=
          { ID := userID, Role := domain.RoleUser, Nickname := "",
            CreatedAt := c.2.now, UpdatedAt := c.2.now }
        (none, { c.2 with user_models := c.2.user_models ++ [u] })

/-- Go `(*UserRepository).SaveLoginInfo`. `Save` updates the row of the primary
key and, when the update touched no row, inserts the record; for the zero key it
inserts at once, which fails when the table has a row of that key. -/
def SaveLoginInfo (info : domain.LoginInfo) (db : DB) : Option GoError × DB :=
  let m : LoginInfoModel :=
    { UserID := info.UserID, Email := info.Email, GithubID := info.GithubID,
      PasswordEnabled := info.PasswordEnabled, OAuthConnections := info.OAuthConnections }
  let q := db.next
  match q.1 with
  | some err => (some err, q.2)
  | none =>
    if info.UserID = "" then
      match q.2.findLoginInfo info.UserID with
      | some _ => (some (.foreign "UNIQUE constraint failed"), q.2)
      | none => (none, { q.2 with login_info_models := q.2.login_info_models ++ [m] })
    else
      match q.2.findLoginInfo info.UserID with
      | some _ =>
        let rows := q.2.login_info_models.map (fun r => if r.UserID = info.UserID then m else r)
        (none, { q.2 with login_info_models := rows })
      | none =>
        let c := q.2.next
        match c.1 with
        | some err => (some err, c.2)
        | none => (none, { c.2 with login_info_models := c.2.login_info_models ++ [m] })

/-- Go `(*UserRepository).GetRole`. -/
def GetRole (table : Char → Char) (userID : String) (db : DB) :
    (domain.Role × Option GoError) × DB :=
  let q := db.next
  match q.1 with
  | some err => (("", some err), q.2)
  | none =>
    match q.2.findUser userID with
    | none => (("", some ErrRecordNotFound), q.2)
    | some u =>
      let p := domain.ParseRole table u.Role
      if ¬ p.2 then ((domain.RoleUser, none), q.2) else ((p.1, none), q.2)

/-- Go `(*UserRepository).SetRole`. -/
def SetRole (userID : String) (role : domain.Role) (db : DB) : Option GoError × DB :=
  let e := EnsureExists userID db
  match e.1 with
  | some err => (some err, e.2)
  | none =>
    let q := e.2.next
    match q.1 with
    | some err => (some err, q.2)
    | none =>
      let rows := q.2.user_models.map
        (fun r => if r.ID = userID then { r with Role := role, UpdatedAt := q.2.now } else r)
      (none, { q.2 with user_models := rows })

/-- Go `(*UserRepository).GetMe`: the user row left-joined with its login info;
`Scan` leaves the zero row when no user row matches. -/
def GetMe (table : Char → Char) (userID : String) (db : DB) :
    (domain.Me × Option GoError) × DB :=
  let q := db.next
  match q.1 with
  | some err => ((domain.Me.zero, some err), q.2)
  | none =>
    let row : String × String × String × String × Option String :=
      match q.2.findUser userID with
      | none => ("", "", "", "", none)
      | some u =>
        match q.2.findLoginInfo u.ID with
        | none => (u.ID, u.Role, u.Nickname, "", none)
        | some li => (u.ID, u.Role, u.Nickname, li.Email, li.GithubID)
    let p := domain.ParseRole table row.2.1
    let role := if ¬ p.2 then domain.RoleUser else p.1
    (({ UserID := row.1, Role := role, Email := row.2.2.2.1, GithubID := row.2.2.2.2,
        Nickname := row.2.2.1 }, none), q.2)

/-- Go `(*UserRepository).SetNickname`. -/
def SetNickname (userID : String) (nickname : String) (db : DB) : Option GoError × DB :=
  let e := EnsureExists userID db
  match e.1 with
  | some err => (some err, e.2)
  | none =>
    let q := e.2.next
    match q.1 with
    | some err => (some err, q.2)
    | none =>
      let rows := q.2.user_models.map
        (fun r => if r.ID = userID then { r with Nickname := nickname, UpdatedAt := q.2.now }
          else r)
      (none, { q.2 with user_models := rows })

/-- The element that the loop of `ListUsers` appends for a user row and the row
of `login_info_models` that the left join puts next to it, if there is one. -/
def ListUsers.convert (table : Char → Char) (r : UserModel) (li : Option LoginInfoModel) :
    domain.AdminUser :=
  let p := domain.ParseRole table r.Role
  let role := if ¬ p.2 then domain.RoleUser else p.1
  match li with
  | none =>
    { ID := r.ID, Role := role, Email := "", GithubID := none, PasswordEnabled := false,
      CreatedAt := r.CreatedAt, UpdatedAt := r.UpdatedAt }
  | some li =>
    { ID := r.ID, Role := role, Email := li.Email, GithubID := li.GithubID,
      PasswordEnabled := li.PasswordEnabled,
      CreatedAt := r.CreatedAt, UpdatedAt := r.UpdatedAt }

/-- Go `(*UserRepository).ListUsers`: the user rows, newest first (rows of equal
creation time in table order), each left-joined with its login info. -/
def ListUsers (table : Char → Char) (limit : Int) (offset : Int) (db : DB) :
    (List domain.AdminUser × Option GoError) × DB :=
  let limit := if limit ≤ 0 then 50 else limit
  let offset := if offset < 0 then 0 else offset
  let q := db.next
  match q.1 with
  | some err => (([], some err), q.2)
  | none =>
    let sorted := q.2.user_models.insertionSort (fun a b => a.CreatedAt ≥ b.CreatedAt)
    let rows := (sorted.drop offset.toNat).take limit.toNat
    let out := rows.map (fun r => ListUsers.convert table r (q.2.findLoginInfo r.ID))
    ((out, none), q.2)

/-- A method of the repository run on the database component of a world state
`S × DB`; the other component is the state of the remaining ports. -/
def onDB {S α : Type} (f : DB → α × DB) (s : S × DB) : α × (S × DB) :=
  ((f s.2).1, (s.1, (f s.2).2))

/-- A method of another port run on the component of the world state that is
not the database. -/
def offDB {S α : Type} (f : S → α × S) (s : S × DB) : α × (S × DB) :=
  ((f s.1).1, ((f s.1).2, s.2))

/-- The repository as the `UserRepository` port of package `rbac`. -/
def rbacUsers (S : Type) (table : Char → Char) : rbac.UserRepository (S × DB) where
  GetRole := fun userID => onDB (GetRole table userID)
  SetRole := fun userID role => onDB (SetRole userID role)
  ListUsers := fun limit offset => onDB (ListUsers table limit offset)
  GetMe := fun userID => onDB (GetMe table userID)
  SetNickname := fun userID nickname => onDB (SetNickname userID nickname)

/-- The repository as the `UserRepository` port of package `auth`. -/
def authUsers (S : Type) (table : Char → Char) : auth.UserRepository (S × DB) where
  EnsureExists := fun userID => onDB (EnsureExists userID)
  SaveLoginInfo := fun info => onDB (SaveLoginInfo info)
  GetRole := fun userID => onDB (GetRole table userID)
  SetRole := fun userID role => onDB (SetRole userID role)

/-- A gateway over the state `S` as a port of a world with the database. -/
def liftGateway {S : Type} (g : auth.OAuthGateway S) : auth.OAuthGateway (S × DB) where
  GetAuthorizationURL := fun provider redirectURL =>
    offDB (g.GetAuthorizationURL provider redirectURL)
  LoginByOAuth := fun code state => offDB (g.LoginByOAuth code state)
  GetCurrentUserLoginInfo := fun accessToken => offDB (g.GetCurrentUserLoginInfo accessToken)

/-- A session store over the state `S` as a port of a world with the database. -/
def liftSessions {S : Type} (s : auth.SessionStore S) : auth.SessionStore (S × DB) where
  Save := fun sessionID session ttl => offDB (s.Save sessionID session ttl)
  Delete := fun sessionID => offDB (s.Delete sessionID)

/-- An extractor over the state `S` as a port of a world with the database. -/
def liftUIDs {S : Type} (x : auth.UIDExtractor S) : auth.UIDExtractor (S × DB) where
  ExtractUserID := fun accessToken => offDB (x.ExtractUserID accessToken)

/-- A random source over the state `S` in a world with the database. -/
def liftRand {S : Type} (rand : RandReader S) : RandReader (S × DB) where
  Read := fun n => offDB (rand.Read n)

/-- The `auth` use case as `main` wires it: built by `auth.New` over the
relational user repository; the other ports act on the state `S`. -/
def authUsecase (S : Type) (table : Char → Char) (gateway : auth.OAuthGateway S)
    (sessions : Option (auth.SessionStore S)) (uids : Option (auth.UIDExtractor S))
    (superAdminEmails : List String) : auth.Usecase (S × DB) :=
  auth.New table (liftGateway gateway) (sessions.map liftSessions) (uids.map liftUIDs)
    (some (authUsers S table)) superAdminEmails

end persistence

/-! ## A small deployment, used to run the operations on concrete inputs -/

namespace fixture

open persistence

/-- The token pair the identity gateway hands out. -/
def tokens : domain.TokenPair := ⟨⟨"at-1", 100⟩, ⟨"rt-1", 200⟩, "Bearer"⟩

/-- The sessions held by the store: session id and user id. -/
def sessionTable : List (String × String) :=
  [("s-root", "root"), ("s-ann", "ann"), ("s-bob", "bob"), ("s-ghost", "ghost")]

/-- A session store over the fixed table; a missing key is an error. -/
def getSession (sessionID : String) (s : Unit) : (domain.Session × Option GoError) × Unit :=
  match sessionTable.lookup sessionID with
  | some uid => ((⟨uid, tokens⟩, none), s)
  | none => ((domain.Session.zero, some (.foreign "redis: nil")), s)

/-- The user table: two super admins, an admin and a user. -/
def db0 : DB :=
  { user_models :=
      [⟨"root", "super_admin", "", 1, 1⟩, ⟨"boss", "super_admin", "", 2, 2⟩,
       ⟨"ann", "admin", "", 3, 3⟩, ⟨"bob", "user", "", 4, 4⟩],
    login_info_models := [],
    now := 9,
    faults := [] }

/-- The initial world: the user table and an empty trace. -/
def world0 : World (Unit × DB) := ⟨((), db0), []⟩

/-- The `rbac` use case over the session table and the user table. -/
def rbacUsecase : rbac.Usecase (Unit × DB) :=
  { sessions := ⟨fun sessionID => offDB (getSession sessionID)⟩,
    users := rbacUsers Unit id }

/-- An admin port with one provider config and no model. -/
def adminPort : llmadmin.LLMGatewayAdmin (Unit × DB) :=
  { UpsertProviderConfig := fun _ s => (none, s),
    DeleteProviderConfig := fun _ s => (none, s),
    ListProviderConfigs := fun s => (([⟨"dashscope", "https://d", 30, true⟩], none), s),
    UpsertModel := fun _ s => (("m-1", none), s),
    DeleteModel := fun _ s => (none, s),
    ListModels := fun s => (([], none), s) }

/-- The `llmadmin` use case over the same session and user tables. -/
def llmadminUsecase : llmadmin.Usecase (Unit × DB) :=
  { sessions := ⟨fun sessionID => offDB (getSession sessionID)⟩,
    users := ⟨fun userID => onDB (GetRole id userID)⟩,
    admin := adminPort }

/-- A token issuer that signs nothing: the token names its subject. -/
def issuer : llmtoken.TokenIssuer (Unit × DB) :=
  ⟨fun subject ttlSeconds _ s => ((("tok-" ++ subject, ttlSeconds), none), s)⟩

/-- The `llmtoken` use case over the same session table. -/
def llmtokenUsecase : llmtoken.Usecase (Unit × DB) :=
  llmtoken.New (some ⟨fun sessionID => offDB (getSession sessionID)⟩) (some issuer) 600 ["m-1"]

/-- The state of the identity side: nothing but a unit. An identity gateway that
accepts the code `good` and reports the login info of `carol`. -/
def gateway : auth.OAuthGateway Unit :=
  { GetAuthorizationURL := fun _ _ s => ((("https://idp/authorize", "st-1"), none), s),
    LoginByOAuth := fun code _ s =>
      if code = "good" then ((tokens, none), s)
      else ((domain.TokenPair.zero, some (.foreign "invalid code")), s),
    GetCurrentUserLoginInfo := fun _ s =>
      ((⟨"carol", " Carol@Example.com ", none, false, []⟩, none), s) }

/-- An identity gateway whose login-info lookup fails. -/
def gatewayNoInfo : auth.OAuthGateway Unit :=
  { gateway with
    GetCurrentUserLoginInfo := fun _ s =>
      ((domain.LoginInfo.zero, some (.foreign "unavailable")), s) }

/-- A session store that accepts every write. -/
def sessionStore : auth.SessionStore Unit :=
  { Save := fun _ _ _ s => (none, s), Delete := fun _ s => (none, s) }

/-- An extractor that reads the user id `dave` from every token. -/
def extractor : auth.UIDExtractor Unit :=
  ⟨fun _ s => (("dave", none), s)⟩

/-- A random source that writes 32 bytes, all equal to 7. -/
def rand : RandReader Unit :=
  ⟨fun n s => ((List.replicate n 7, none), s)⟩

/-- The `auth` use case with the allow-list `carol@example.com`. -/
def authUsecase : auth.Usecase (Unit × DB) :=
  persistence.authUsecase Unit id gateway (some sessionStore) (some extractor)
    ["carol@example.com"]

/-- The `auth` use case with an empty allow-list. -/
def authUsecaseOpen : auth.Usecase (Unit × DB) :=
  persistence.authUsecase Unit id gateway (some sessionStore) (some extractor) []

/-- The `auth` use case whose gateway gives no login info. -/
def authUsecaseFallback : auth.Usecase (Unit × DB) :=
  persistence.authUsecase Unit id gatewayNoInfo (some sessionStore) (some extractor)
    ["carol@example.com"]

end fixture

/-! ## More of Go `strings` and `strconv` -/

namespace strings

/-- Go `strings.HasPrefix`. -/
def HasPrefix (s : String) (pre : String) : Bool :=
  pre.data.isPrefixOf s.data

/-- Go `strings.TrimPrefix`. -/
def TrimPrefix (s : String) (pre : String) : String :=
  if HasPrefix s pre then String.mk (s.data.drop pre.data.length) else s

/-- Whether the runes `sub` occur in `cs` as a contiguous block. -/
def containsRunes (sub : List Char) : List Char → Bool
  | [] => sub.isEmpty
  | c :: cs => sub.isPrefixOf (c :: cs) || containsRunes sub cs

/-- Go `strings.Contains`. -/
def Contains (s : String) (sub : String) : Bool :=
  containsRunes sub.data s.data

/-- The runes of `cs` with every non-overlapping occurrence of the non-empty
block `old` replaced by `new`, from the left; `skip` runes of a matched block are
still to be dropped. -/
def replaceRunes (old new : List Char) : Nat → List Char → List Char
  | _, [] => []
  | skip + 1, _ :: cs => replaceRunes old new skip cs
  | 0, c :: cs =>
    if old.isPrefixOf (c :: cs) then new ++ replaceRunes old new (old.length - 1) cs
    else c :: replaceRunes old new 0 cs

/-- Go `strings.ReplaceAll`; for an empty `old` the text `new` is put at the
start and after every rune. -/
def ReplaceAll (s : String) (old : String) (new : String) : String :=
  if old.data = [] then String.mk (new.data ++ (s.data.map (fun c => c :: new.data)).flatten)
  else String.mk (replaceRunes old.data new.data 0 s.data)

end strings

namespace strconv

/-- Go `strconv.ErrSyntax` and `strconv.ErrRange`, as the errors of `Atoi`. -/
def ErrSyntax : GoError := .pkgVar "strconv.ErrSyntax"
def ErrRange : GoError := .pkgVar "strconv.ErrRange"

/-- The decimal digits `0` to `9`. -/
def isDigit (c : Char) : Bool :=
  48 ≤ c.toNat && c.toNat ≤ 57

/-- The number written by a list of decimal digits. -/
def digitsValue (ds : List Char) : Nat :=
  ds.foldl (fun n c => n * 10 + (c.toNat - 48)) 0

/-- Go `strconv.Atoi` for the 64-bit `int`: an optional sign and then one or
more decimal digits; a number outside the range of `int` is an error. -/
def Atoi (s : String) : Int × Option GoError :=
  match s.data with
  | [] => (0, some ErrSyntax)
  | c :: cs =>
    let neg := c == '-'
    let ds := if c == '-' || c == '+' then cs else c :: cs
    if ds = [] then (0, some ErrSyntax)
    else if ¬ ds.all isDigit then (0, some ErrSyntax)
    else
      let un := digitsValue ds
      if ¬ neg ∧ un ≥ 2 ^ 63 then (2 ^ 63 - 1, some ErrRange)
      else if neg ∧ un > 2 ^ 63 then (-(2 ^ 63), some ErrRange)
      else if neg then (-(un : Int), none) else ((un : Int), none)

end strconv

namespace domain

/-- Go `domain.ParseLLMProviderType`. -/
def ParseLLMProviderType (table : Char → Char) (s : String) : LLMProviderType × Bool :=
  let s := strings.ToLower table (strings.TrimSpace s)
  let s := strings.TrimPrefix s "provider_type_"
  let s := strings.TrimPrefix s "provider-type-"
  let s := strings.TrimPrefix s "provider_"
  let s := strings.TrimPrefix s "provider-"
  let s := strings.ReplaceAll s "_" ""
  let s := strings.ReplaceAll s "-" ""
  if s = "dashscope" then (LLMProviderDashscope, true)
  else if s = "openrouter" then (LLMProviderOpenRouter, true)
  else (LLMProviderUnspecified, false)

end domain

/-! ## `internal/interfaces/httpapi` -/

namespace httpapi

/-- Go `sanitizeReturnTo`. -/
def sanitizeReturnTo (v : String) : String :=
  let v := strings.TrimSpace v
  if v = "" then ""
  else if strings.Contains v "://" || strings.HasPrefix v "//" then ""
  else if ¬ strings.HasPrefix v "/" then ""
  else v

/-- The limit and the offset that the handler `listUsers` passes to
`rbac.ListUsers`, from the values of the query parameters `limit` and `offset`
(`Query().Get` gives the empty string for a parameter that is absent). -/
def listUsersQuery (limitParam : String) (offsetParam : String) : Int × Int :=
  let limit : Int := 50
  let offset : Int := 0
  let v := strings.TrimSpace limitParam
  let limit := if v ≠ "" then (if (strconv.Atoi v).2 = none then (strconv.Atoi v).1 else limit)
    else limit
  let v := strings.TrimSpace offsetParam
  let offset := if v ≠ "" then (if (strconv.Atoi v).2 = none then (strconv.Atoi v).1 else offset)
    else offset
  (limit, offset)

end httpapi

namespace base64

/-- The six bits that a character of the URL-safe alphabet stands for. -/
def undigit (c : Char) : Nat :=
  encodeURL.indexOf c

/-- The bytes that a text over the URL-safe alphabet stands for, four
characters to three bytes: the inverse of `encodeRaw`, by which the encoding is
shown to be one-to-one. -/
def decodeRaw : List Char → List Nat
  | a :: b :: c :: d :: rest =>
    let v := undigit a * 262144 + undigit b * 4096 + undigit c * 64 + undigit d
    v / 65536 :: v / 256 % 256 :: v % 256 :: decodeRaw rest
  | [a, b, c] =>
    let v := undigit a * 262144 + undigit b * 4096 + undigit c * 64
    [v / 65536, v / 256 % 256]
  | [a, b] =>
    let v := undigit a * 262144 + undigit b * 4096
    [v / 65536]
  | _ => []

end base64

namespace auth

variable {σ : Type}

/-- Go `(*Usecase).Logout`. The result `none` is the run-time panic of the call
through the interface value `u.sessions` when it is nil. -/
def Logout (u : Usecase σ) (sessionID : String) (w : World σ) :
    Option (Option GoError × World σ) :=
  if sessionID = "" then some (none, w)
  else
    match u.sessions with
    | none => none
    | some sessions => some (w.callE (.sessionsDelete sessionID) (sessions.Delete sessionID))

end auth

namespace domain

abbrev LLMCapabilityText : LLMModelCapability := "text"
abbrev LLMCapabilityImages : LLMModelCapability := "images"
abbrev LLMCapabilityAudio : LLMModelCapability := "audio"
abbrev LLMCapabilityVideo : LLMModelCapability := "video"
abbrev LLMCapabilityTools : LLMModelCapability := "tools"
abbrev LLMCapabilityPromptCache : LLMModelCapability := "prompt_cache"
abbrev LLMCapabilityStreaming : LLMModelCapability := "streaming"
abbrev LLMCapabilityReasoning : LLMModelCapability := "reasoning"

end domain

namespace strings

/-- Whether the runes `a` come before the runes `b` in the order of the code points. -/
def lessRunes : List Char → List Char → Bool
  | _, [] => false
  | [], _ :: _ => true
  | a :: as, b :: bs =>
    if a.toNat < b.toNat then true
    else if b.toNat < a.toNat then false
    else lessRunes as bs

/-- Go `a < b` on strings. It compares the bytes, and on UTF-8 text that is the
comparison of the code points. -/
def Less (a : String) (b : String) : Bool :=
  lessRunes a.data b.data

end strings

/-! ## Go `sort` -/

namespace sort

/-- Go `sort.Slice`, as the slice after the call for the slice before it and
the function `less` on its elements. The library fixes neither the algorithm
nor the order of the elements that `less` does not tell apart, so the function
is a parameter of what calls it; the call reads no state besides its arguments. -/
structure Sorter where
  Slice : {α : Type} → (α → α → Bool) → List α → List α

/-- A sorter that inserts the elements one by one, each before the first
element that is not less than it. -/
def insertion : Sorter :=
  ⟨fun less l => l.insertionSort (fun a b => less b a = false)⟩

end sort

/-! ## The generated package `llmgateway/admin/v1` -/

namespace adminv1

/-- The proto enum `ProviderType`: the named values, and `other` for every
other number that a peer may send. -/
inductive ProviderType where
  | PROVIDER_TYPE_UNSPECIFIED
  | PROVIDER_TYPE_DASHSCOPE
  | PROVIDER_TYPE_OPENROUTER
  | other (n : Int)
  deriving DecidableEq, Repr

/-- The proto enum `ModelCapability`: the named values, and `other` for every
other number that a peer may send. -/
inductive ModelCapability where
  | MODEL_CAPABILITY_UNSPECIFIED
  | MODEL_CAPABILITY_TEXT
  | MODEL_CAPABILITY_IMAGES
  | MODEL_CAPABILITY_AUDIO
  | MODEL_CAPABILITY_VIDEO
  | MODEL_CAPABILITY_TOOLS
  | MODEL_CAPABILITY_PROMPT_CACHE
  | MODEL_CAPABILITY_STREAMING
  | MODEL_CAPABILITY_REASONING
  | other (n : Int)
  deriving DecidableEq, Repr

/-- An element of `ListProviderConfigsResponse.Configs`, as its getters read it. -/
structure ProviderConfigView where
  Provider : ProviderType
  BaseUrl : String
  TimeoutSeconds : Int
  ApiKeyPresent : Bool
  deriving DecidableEq, Repr

/-- An element of `ListModelsResponse.Models`, as its getters read it. -/
structure Model where
  Id : String
  Provider : ProviderType
  Capabilities : List ModelCapability
  UpstreamModel : String
  deriving DecidableEq, Repr

/-- The two listing calls of `LLMGatewayAdminServiceClient`; a call gives the
elements of the response and the error. -/
structure LLMGatewayAdminServiceClient (σ : Type) where
  ListProviderConfigs : σ → (List ProviderConfigView × Option GoError) × σ
  ListModels : σ → (List Model × Option GoError) × σ

end adminv1

/-! ## `internal/infrastructure/llmgatewayadmin` -/

namespace llmgatewayadmin

structure Client (σ : Type) where
  pb : adminv1.LLMGatewayAdminServiceClient σ

variable {σ : Type}

/-- Go `providerTypeFromProto`. -/
def providerTypeFromProto (p : adminv1.ProviderType) : domain.LLMProviderType :=
  match p with
  | .PROVIDER_TYPE_DASHSCOPE => domain.LLMProviderDashscope
  | .PROVIDER_TYPE_OPENROUTER => domain.LLMProviderOpenRouter
  | _ => domain.LLMProviderUnspecified

/-- Go `capabilityFromProto`. -/
def capabilityFromProto (c : adminv1.ModelCapability) : domain.LLMModelCapability :=
  match c with
  | adminv1.ModelCapability.MODEL_CAPABILITY_TEXT => domain.LLMCapabilityText
  | adminv1.ModelCapability.MODEL_CAPABILITY_IMAGES => domain.LLMCapabilityImages
  | adminv1.ModelCapability.MODEL_CAPABILITY_AUDIO => domain.LLMCapabilityAudio
  | adminv1.ModelCapability.MODEL_CAPABILITY_VIDEO => domain.LLMCapabilityVideo
  | adminv1.ModelCapability.MODEL_CAPABILITY_TOOLS => domain.LLMCapabilityTools
  | adminv1.ModelCapability.MODEL_CAPABILITY_PROMPT_CACHE => domain.LLMCapabilityPromptCache
  | adminv1.ModelCapability.MODEL_CAPABILITY_STREAMING => domain.LLMCapabilityStreaming
  | adminv1.ModelCapability.MODEL_CAPABILITY_REASONING => domain.LLMCapabilityReasoning
  | _ => ""

/-- The element that the loop of `ListProviderConfigs` appends for `pc`. -/
def ListProviderConfigs.convert (pc : adminv1.ProviderConfigView) :
    domain.LLMProviderConfigView :=
  { Provider := providerTypeFromProto pc.Provider, BaseURL := pc.BaseUrl,
    TimeoutSeconds := pc.TimeoutSeconds, APIKeyPresent := pc.ApiKeyPresent }

/-- Go `(*Client).ListProviderConfigs`. -/
def Client.ListProviderConfigs (sorter : sort.Sorter) (c : Client σ) (s : σ) :
    (List domain.LLMProviderConfigView × Option GoError) × σ :=
  let r := c.pb.ListProviderConfigs s
  match r.1.2 with
  | some err => (([], some err), r.2)
  | none =>
    let out := r.1.1.map ListProviderConfigs.convert
    ((sorter.Slice (fun a b => strings.Less a.Provider b.Provider) out, none), r.2)

/-- The element that the loop of `ListModels` appends for `m`. -/
def ListModels.convert (m : adminv1.Model) : domain.LLMModelSpec :=
  let caps := (m.Capabilities.map capabilityFromProto).filter (fun c => c ≠ "")
  { ID := m.Id, Provider := providerTypeFromProto m.Provider, Capabilities := caps,
    UpstreamModel := m.UpstreamModel }

/-- Go `(*Client).ListModels`. -/
def Client.ListModels (sorter : sort.Sorter) (c : Client σ) (s : σ) :
    (List domain.LLMModelSpec × Option GoError) × σ :=
  let r := c.pb.ListModels s
  match r.1.2 with
  | some err => (([], some err), r.2)
  | none =>
    let out := r.1.1.map ListModels.convert
    ((sorter.Slice (fun a b => strings.Less a.ID b.ID) out, none), r.2)

end llmgatewayadmin

namespace fixture

/-- A gateway that lists two provider configs and three models, out of order. -/
def pb : adminv1.LLMGatewayAdminServiceClient Unit :=
  { ListProviderConfigs := fun s =>
      (([⟨.PROVIDER_TYPE_OPENROUTER, "https://o", 20, false⟩,
         ⟨.PROVIDER_TYPE_DASHSCOPE, "https://d", 30, true⟩], none), s),
    ListModels := fun s =>
      (([⟨"m-2", .PROVIDER_TYPE_DASHSCOPE, [.MODEL_CAPABILITY_TEXT, .other 99], "qwen"⟩,
         ⟨"m-3", .PROVIDER_TYPE_OPENROUTER, [], "gpt"⟩,
         ⟨"m-1", .other 7, [.MODEL_CAPABILITY_TOOLS], "x"⟩], none), s) }

end fixture

namespace strconv

/-- The character of the decimal digit `n % 10`. -/
def digitChar (n : Nat) : Char :=
  "0123456789".data.getD (n % 10) '0'

/-- The decimal digits of `n` in front of `acc`; `fuel` bounds the number of digits. -/
def formatNat : Nat → Nat → List Char → List Char
  | 0, _, acc => acc
  | fuel + 1, n, acc =>
    if n < 10 then digitChar n :: acc
    else formatNat fuel (n / 10) (digitChar (n % 10) :: acc)

/-- Go `strconv.FormatInt(i, 10)` for a 64-bit `i`, which has at most 19 digits. -/
def FormatInt (i : Int) : List Char :=
  if i < 0 then '-' :: formatNat 20 i.natAbs [] else formatNat 20 i.toNat []

end strconv

/-! ## Redis, as the client `go-redis` reaches it -/

namespace redis

/-- Go `redis.Nil`, the reply for a key that does not exist. -/
def Nil : GoError := .pkgVar "redis.Nil"

/-- Go `redis.KeepTTL`. -/
def KeepTTL : Int := -1

/-- A key of the server, its value, and the instant in milliseconds at which
the key expires. -/
structure Entry where
  key : String
  value : String
  expireAt : Option Int
  deriving DecidableEq, Repr

/-- The server: its keys and the reading of its clock in milliseconds. A key is
gone once the instant of its expiry has come. The server answers every command. -/
structure Server where
  entries : List Entry
  now : Int
  deriving DecidableEq, Repr

/-- Whether the entry has not expired at the present instant. -/
def Server.live (s : Server) (e : Entry) : Bool :=
  match e.expireAt with
  | none => true
  | some t => decide (s.now < t)

/-- The entry of a key that exists at the present instant. -/
def Server.lookup (s : Server) (key : String) : Option Entry :=
  s.entries.find? (fun e => decide (e.key = key) && s.live e)

/-- The life in milliseconds that `Set` asks for with a positive expiration in
nanoseconds: `PX` and the milliseconds, at least one, when the expiration is
below a second or not a whole number of seconds, and `EX` and the seconds
otherwise. -/
def expiryMillis (expiration : Int) : Int :=
  if expiration < 1000000000 ∨ expiration % 1000000000 ≠ 0 then
    (if expiration < 1000000 then 1 else expiration / 1000000)
  else expiration / 1000000000 * 1000

/-- The instant of expiry that `Set` gives the key: after the life asked for
with a positive expiration, the one the key has with `KeepTTL`, and none otherwise. -/
def Set.expireAt (key : String) (expiration : Int) (s : Server) : Option Int :=
  if expiration > 0 then some (s.now + expiryMillis expiration)
  else if expiration = KeepTTL then
    (match s.lookup key with
     | some e => e.expireAt
     | none => none)
  else none

/-- Go `Set(ctx, key, value, expiration).Err()`. -/
def Set (key : String) (value : String) (expiration : Int) (s : Server) :
    Option GoError × Server :=
  let rest := s.entries.filter (fun e => decide (e.key ≠ key))
  (none, { s with entries := rest ++ [⟨key, value, Set.expireAt key expiration s⟩] })

/-- Go `Get(ctx, key).Bytes()`. -/
def Get (key : String) (s : Server) : (String × Option GoError) × Server :=
  match s.lookup key with
  | some e => ((e.value, none), s)
  | none => (("", some Nil), s)

/-- Go `Del(ctx, key).Err()`. -/
def Del (key : String) (s : Server) : Option GoError × Server :=
  let rest := s.entries.filter (fun e => decide (e.key ≠ key))
  (none, { s with entries := rest })

end redis

/-! ## Go `encoding/json`, for the type `domain.Session` -/

namespace json

/-- The error of `Unmarshal`. -/
def SyntaxError : GoError := .foreign "json: cannot unmarshal"

/-- The lower-case hexadecimal digit of `n % 16`. -/
def hex (n : Nat) : Char :=
  "0123456789abcdef".data.getD (n % 16) '0'

/-- What the encoder writes for one rune of a string, with the escaping of
HTML on. From Go 1.22 on the encoder writes the backspace and the form feed in
the short form; `short` tells which encoder it is. -/
def quoteRune (short : Bool) (c : Char) : List Char :=
  if c = '\\' ∨ c = '"' then ['\\', c]
  else if c = '\n' then ['\\', 'n']
  else if c = '\r' then ['\\', 'r']
  else if c = '\t' then ['\\', 't']
  else if c.toNat = 8 ∧ short = true then ['\\', 'b']
  else if c.toNat = 12 ∧ short = true then ['\\', 'f']
  else if c.toNat < 32 ∨ c = '<' ∨ c = '>' ∨ c = '&' then
    ['\\', 'u', '0', '0', hex (c.toNat / 16), hex c.toNat]
  else if c.toNat = 8232 ∨ c.toNat = 8233 then ['\\', 'u', '2', '0', '2', hex c.toNat]
  else [c]

/-- The string literal that the encoder writes for a string. A `String` is
Unicode text; the replacement of the bytes of a Go string that are not valid
UTF-8 by U+FFFD does not arise on it. -/
def quote (short : Bool) (s : String) : List Char :=
  '"' :: (s.data.flatMap (quoteRune short) ++ ['"'])

/-- The encoding of a `domain.Token`. -/
def marshalToken (short : Bool) (t : domain.Token) : List Char :=
  "\x7b\"Value\":".data ++ quote short t.Value ++ ",\"ExpiresAt\":".data ++
    strconv.FormatInt t.ExpiresAt ++ "\x7d".data

/-- Go `json.Marshal` of a `domain.Session`; the encoding of this type has no
error case. -/
def Marshal (short : Bool) (s : domain.Session) : String × Option GoError :=
  (String.mk ("\x7b\"UserID\":".data ++ quote short s.UserID ++
    ",\"Token\":\x7b\"AccessToken\":".data ++ marshalToken short s.Token.AccessToken ++
    ",\"RefreshToken\":".data ++ marshalToken short s.Token.RefreshToken ++
    ",\"TokenType\":".data ++ quote short s.Token.TokenType ++ "\x7d\x7d".data), none)

/-- The value of a hexadecimal digit. -/
def unhex (c : Char) : Option Nat :=
  if 48 ≤ c.toNat ∧ c.toNat ≤ 57 then some (c.toNat - 48)
  else if 97 ≤ c.toNat ∧ c.toNat ≤ 102 then some (c.toNat - 87)
  else if 65 ≤ c.toNat ∧ c.toNat ≤ 70 then some (c.toNat - 55)
  else none

/-- Go `getu4`: the number written by the four hexadecimal digits of an escape. -/
def getu4 (a : Char) (b : Char) (c : Char) (d : Char) : Option Nat :=
  match unhex a, unhex b, unhex c, unhex d with
  | some x, some y, some z, some w => some (x * 4096 + y * 256 + z * 16 + w)
  | _, _, _, _ => none

/-- The rune of an escape of one letter, for the letters that the scanner admits. -/
def unescape (e : Char) : Option Char :=
  if e = '"' ∨ e = '\\' ∨ e = '/' then some e
  else if e = 'b' then some (Char.ofNat 8)
  else if e = 'f' then some (Char.ofNat 12)
  else if e = 'n' then some '\n'
  else if e = 'r' then some '\r'
  else if e = 't' then some '\t'
  else none

/-- Go `utf16.DecodeRune` on the numbers of two escapes. -/
def decodeSurrogates (r1 : Nat) (r2 : Nat) : Nat :=
  if 55296 ≤ r1 ∧ r1 < 56320 ∧ 56320 ≤ r2 ∧ r2 < 57344 then
    (r1 - 55296) * 1024 + (r2 - 56320) + 65536
  else 65533

/-- The number of the escape that the text starts with, if it starts with one. -/
def nextu4 (cs : List Char) : Option Nat :=
  match cs with
  | b :: u :: l1 :: l2 :: l3 :: l4 :: _ =>
    if b = '\\' ∧ u = 'u' then getu4 l1 l2 l3 l4 else none
  | _ => none

/-- The runes of a string literal after its opening quote, and the text after
its closing quote (the scanner and Go `unquoteBytes`); the first `skip` characters are the second
escape of a pair of surrogates, which is read already. -/
def unquoteBody : Nat → List Char → Option (List Char × List Char)
  | _, [] => none
  | skip + 1, _ :: rest => unquoteBody skip rest
  | 0, c :: rest =>
    if c = '"' then some ([], rest)
    else if c = '\\' then
      match rest with
      | [] => none
      | e :: rest1 =>
        if e = 'u' then
          match rest1 with
          | h1 :: h2 :: h3 :: h4 :: rest2 =>
            match getu4 h1 h2 h3 h4 with
            | none => none
            | some rr =>
              if 55296 ≤ rr ∧ rr < 57344 then
                match nextu4 rest2 with
                | some rr1 =>
                  if decodeSurrogates rr rr1 ≠ 65533 then
                    (unquoteBody 6 rest2).map
                      (fun p => (Char.ofNat (decodeSurrogates rr rr1) :: p.1, p.2))
                  else (unquoteBody 0 rest2).map (fun p => (Char.ofNat 65533 :: p.1, p.2))
                | none => (unquoteBody 0 rest2).map (fun p => (Char.ofNat 65533 :: p.1, p.2))
              else (unquoteBody 0 rest2).map (fun p => (Char.ofNat rr :: p.1, p.2))
          | _ => none
        else
          match unescape e with
          | none => none
          | some ch => (unquoteBody 0 rest1).map (fun p => (ch :: p.1, p.2))
    else if c.toNat < 32 then none
    else (unquoteBody 0 rest).map (fun p => (c :: p.1, p.2))

/-- A string literal at the head of the text: its runes and the text after it. -/
def parseString (cs : List Char) : Option (String × List Char) :=
  match cs with
  | c :: rest =>
    if c = '"' then (unquoteBody 0 rest).map (fun p => (String.mk p.1, p.2)) else none
  | [] => none

/-- A number at the head of the text that fits a field of type `int64`: its
value and the text after it. A number with leading zeros is no JSON, and one
with a fraction or an exponent, or out of range, does not fit the field. -/
def parseInt64 (cs : List Char) : Option (Int × List Char) :=
  let neg := cs.head? = some '-'
  let r := if neg then cs.drop 1 else cs
  let ds := r.takeWhile strconv.isDigit
  let rest := r.dropWhile strconv.isDigit
  if ds = [] then none
  else if 1 < ds.length ∧ ds.head? = some '0' then none
  else if rest.head? = some '.' ∨ rest.head? = some 'e' ∨ rest.head? = some 'E' then none
  else if neg then
    (if strconv.digitsValue ds ≤ 2 ^ 63 then some (-(strconv.digitsValue ds : Int), rest)
     else none)
  else
    (if strconv.digitsValue ds < 2 ^ 63 then some ((strconv.digitsValue ds : Int), rest)
     else none)

/-- The text after the literal `lit`, when the text starts with it. -/
def expect (lit : String) (cs : List Char) : Option (List Char) :=
  if lit.data.isPrefixOf cs then some (cs.drop lit.data.length) else none

/-- A `domain.Token` at the head of the text. -/
def parseToken (cs : List Char) : Option (domain.Token × List Char) :=
  (expect "\x7b\"Value\":" cs).bind (fun cs =>
  (parseString cs).bind (fun v =>
  (expect ",\"ExpiresAt\":" v.2).bind (fun cs =>
  (parseInt64 cs).bind (fun e =>
  (expect "\x7d" e.2).map (fun cs => (⟨v.1, e.1⟩, cs))))))

/-- A `domain.Session` that makes up the whole text. -/
def parseSession (cs : List Char) : Option domain.Session :=
  (expect "\x7b\"UserID\":" cs).bind (fun cs =>
  (parseString cs).bind (fun uid =>
  (expect ",\"Token\":\x7b\"AccessToken\":" uid.2).bind (fun cs =>
  (parseToken cs).bind (fun at1 =>
  (expect ",\"RefreshToken\":" at1.2).bind (fun cs =>
  (parseToken cs).bind (fun rt =>
  (expect ",\"TokenType\":" rt.2).bind (fun cs =>
  (parseString cs).bind (fun tt =>
  (expect "\x7d\x7d" tt.2).bind (fun cs =>
  if cs = [] then some ⟨uid.1, ⟨at1.1, rt.1, tt.1⟩⟩ else none)))))))))

/-- Go `json.Unmarshal` into a `domain.Session`, for the texts that `Marshal`
writes: one object with the members in the order of the fields and no white
space. Any other text is an error here. -/
def Unmarshal (text : String) : domain.Session × Option GoError :=
  match parseSession text.data with
  | some s => (s, none)
  | none => (domain.Session.zero, some SyntaxError)

end json

/-! ## `internal/infrastructure/session` -/

namespace session

/-- The store; `rdb` is the state `redis.Server` that the methods act on, and
`short` tells the encoder of the JSON library (see `json.quoteRune`). -/
structure RedisStore where
  sessionPrefix : String
  short : Bool

/-- Go `(*RedisStore).Save`. -/
def RedisStore.Save (s : RedisStore) (sessionID : String) (sess : domain.Session) (ttl : Int)
    (rdb : redis.Server) : Option GoError × redis.Server :=
  let b := json.Marshal s.short sess
  match b.2 with
  | some err => (some err, rdb)
  | none => redis.Set (s.sessionPrefix ++ sessionID) b.1 ttl rdb

/-- Go `(*RedisStore).Delete`. -/
def RedisStore.Delete (s : RedisStore) (sessionID : String) (rdb : redis.Server) :
    Option GoError × redis.Server :=
  if sessionID = "" then (none, rdb)
  else redis.Del (s.sessionPrefix ++ sessionID) rdb

/-- Go `(*RedisStore).Get`. -/
def RedisStore.Get (s : RedisStore) (sessionID : String) (rdb : redis.Server) :
    (domain.Session × Option GoError) × redis.Server :=
  let g := redis.Get (s.sessionPrefix ++ sessionID) rdb
  match g.1.2 with
  | some err => ((domain.Session.zero, some err), g.2)
  | none =>
    let u := json.Unmarshal g.1.1
    match u.2 with
    | some err => ((domain.Session.zero, some err), g.2)
    | none => ((u.1, none), g.2)

/-- The store as the `SessionStore` port of package `auth`. -/
def RedisStore.authSessions (s : RedisStore) : auth.SessionStore redis.Server where
  Save := fun sessionID sess ttl => s.Save sessionID sess ttl
  Delete := fun sessionID => s.Delete sessionID

end session

namespace fixture

/-- A store with the prefix `sess:`. -/
def redisStore : session.RedisStore := ⟨"sess:", true⟩

/-- A server with no key. -/
def redis0 : redis.Server := ⟨[], 1000⟩

/-- An `auth` use case whose session store is the Redis store. -/
def redisAuthUsecase : auth.Usecase redis.Server :=
  { gateway :=
      { GetAuthorizationURL := fun _ _ s => ((("https://idp/authorize", "st-1"), none), s),
        LoginByOAuth := fun _ _ s => ((tokens, none), s),
        GetCurrentUserLoginInfo := fun _ s =>
          ((domain.LoginInfo.zero, some (.foreign "unavailable")), s) },
    sessions := some redisStore.authSessions,
    uids := none,
    users := none,
    superAdminEmailSet := [] }

/-- A session whose strings hold quotes, control characters and characters
that the encoder escapes. -/
def oddSession : domain.Session :=
  ⟨"u\"1\\<\n>&\t\x08\x0c\x01é /", ⟨⟨"at", -9223372036854775808⟩, ⟨"", 9223372036854775807⟩, "Bearer"⟩⟩

end fixture

namespace fixture

open persistence

/-- The `rbac` use case over a session store whose sessions carry the empty user id. -/
def rbacUsecaseVoid : rbac.Usecase (Unit × DB) :=
  { sessions := ⟨fun _ s => ((⟨"", tokens⟩, none), s)⟩,
    users := rbacUsers Unit id }

/-- A user table of sixty users `u`, `uu`, `uuu`, and so on, each made one tick
after the one before. -/
def dbMany : DB :=
  { user_models := (List.range 60).map
      (fun i => ⟨String.mk (List.replicate (i + 1) 'u'), "user", "", i, i⟩),
    login_info_models := [],
    now := 100,
    faults := [] }

/-- A random source that writes the bytes 0 to `n - 1`. -/
def randCount : RandReader Unit :=
  ⟨fun n s => ((List.range n, none), s)⟩

end fixture

/-! ## Theorems -/

open domain persistence

/-! ### The session gate and the role checks -/

/-! ## Lemmas on the trace -/

theorem World.since_self {σ : Type} (w : World σ) : World.since w w = [] := by
  simp [World.since]

theorem World.since_append {σ : Type} (w : World σ) (s : σ) (es : List Event) :
    World.since w ⟨s, w.trace ++ es⟩ = es := by
  simp [World.since]

/-- The authorisation gate of `llmadmin` on an empty session id or a failed
session lookup. -/
theorem llmadmin.authorize_unauthenticated {σ : Type} (u : llmadmin.Usecase σ)
    (sessionID : String) (w : World σ)
    (h : sessionID = "" ∨ (u.sessions.Get sessionID w.state).1.2 ≠ none) :
    llmadmin.authorize u sessionID w =
      (some llmadmin.ErrUnauthenticated,
        if sessionID = "" then w
        else (w.call (.sessionsGet sessionID) (u.sessions.Get sessionID)).2) := by
  by_cases hs : sessionID = ""
  · simp [llmadmin.authorize, hs]
  · have hg : (u.sessions.Get sessionID w.state).1.2 ≠ none := by
      rcases h with h | h
      · exact absurd h hs
      · exact h
    obtain ⟨e, he⟩ := Option.ne_none_iff_exists'.mp hg
    simp [llmadmin.authorize, hs, World.call, he]

/-- C1: for the four operations of `rbac`, the six operations of `llmadmin` and
`IssueToken` of a configured `llmtoken` use case, whatever the other ports are:
when the session id is empty or `SessionStore.Get` returns an error, the operation
returns the zero value with `ErrUnauthenticated` of its package. The world it leaves
is `w` itself for an empty id (no port is called, the session store included) and
otherwise the world right after the one call of `Get`; so the user repository, the
admin port and the token issuer are not called. -/
theorem session_gate_unauthenticated {σ : Type}
    (get : String → σ → (domain.Session × Option GoError) × σ)
    (sessionID : String) (w : World σ)
    (h : sessionID = "" ∨ (get sessionID w.state).1.2 ≠ none) :
    ∃ w1 : World σ,
      (w1 = if sessionID = "" then w else (w.call (.sessionsGet sessionID) (get sessionID)).2) ∧
      (sessionID = "" → World.since w w1 = []) ∧
      (∀ e ∈ World.since w w1, e.call = .sessionsGet sessionID) ∧
      (∀ users : rbac.UserRepository σ,
        rbac.Me ⟨⟨get⟩, users⟩ sessionID w
            = ((domain.Me.zero, some rbac.ErrUnauthenticated), w1) ∧
        (∀ nickname, rbac.UpdateMyNickname ⟨⟨get⟩, users⟩ sessionID nickname w
            = ((domain.Me.zero, some rbac.ErrUnauthenticated), w1)) ∧
        (∀ limit offset, rbac.ListUsers ⟨⟨get⟩, users⟩ sessionID limit offset w
            = (([], some rbac.ErrUnauthenticated), w1)) ∧
        (∀ target role, rbac.SetUserRole ⟨⟨get⟩, users⟩ sessionID target role w
            = (some rbac.ErrUnauthenticated, w1))) ∧
      (∀ (users : llmadmin.UserRepository σ) (admin : llmadmin.LLMGatewayAdmin σ),
        llmadmin.ListProviderConfigs ⟨⟨get⟩, users, admin⟩ sessionID w
            = (([], some llmadmin.ErrUnauthenticated), w1) ∧
        (∀ cfg, llmadmin.UpsertProviderConfig ⟨⟨get⟩, users, admin⟩ sessionID cfg w
            = (some llmadmin.ErrUnauthenticated, w1)) ∧
        (∀ provider, llmadmin.DeleteProviderConfig ⟨⟨get⟩, users, admin⟩ sessionID provider w
            = (some llmadmin.ErrUnauthenticated, w1)) ∧
        llmadmin.ListModels ⟨⟨get⟩, users, admin⟩ sessionID w
            = (([], some llmadmin.ErrUnauthenticated), w1) ∧
        (∀ cfg, llmadmin.UpsertModel ⟨⟨get⟩, users, admin⟩ sessionID cfg w
            = (("", some llmadmin.ErrUnauthenticated), w1)) ∧
        (∀ id, llmadmin.DeleteModel ⟨⟨get⟩, users, admin⟩ sessionID id w
            = (some llmadmin.ErrUnauthenticated, w1))) ∧
      (∀ (issuer : llmtoken.TokenIssuer σ) (ttlSeconds : Int) (allowedModelIDs : List String),
        llmtoken.IssueToken (some (llmtoken.New (some ⟨get⟩) (some issuer) ttlSeconds
            allowedModelIDs)) sessionID w
          = ((("", 0), some llmtoken.ErrUnauthenticated), w1)) := by
  refine ⟨_, rfl, ?_, ?_, ?_, ?_, ?_⟩
  · intro hs
    simp [hs, World.since]
  · intro e he
    by_cases hs : sessionID = ""
    · simp [hs, World.since] at he
    · simp [hs, World.since, World.call] at he
      simp [he]
  · intro users
    by_cases hs : sessionID = ""
    · simp [rbac.Me, rbac.UpdateMyNickname, rbac.ListUsers, rbac.SetUserRole, hs]
    · have hg : (get sessionID w.state).1.2 ≠ none := h.resolve_left hs
      obtain ⟨e, he⟩ := Option.ne_none_iff_exists'.mp hg
      simp [rbac.Me, rbac.UpdateMyNickname, rbac.ListUsers, rbac.SetUserRole, hs, World.call, he]
  · intro users admin
    have ha := llmadmin.authorize_unauthenticated ⟨⟨get⟩, users, admin⟩ sessionID w h
    simp only at ha
    simp [llmadmin.ListProviderConfigs, llmadmin.UpsertProviderConfig,
      llmadmin.DeleteProviderConfig, llmadmin.ListModels, llmadmin.UpsertModel,
      llmadmin.DeleteModel, ha]
  · intro issuer ttlSeconds allowedModelIDs
    by_cases hs : sessionID = ""
    · simp [llmtoken.IssueToken, hs]
    · have hg : (get sessionID w.state).1.2 ≠ none := h.resolve_left hs
      obtain ⟨e, he⟩ := Option.ne_none_iff_exists'.mp hg
      simp [llmtoken.IssueToken, llmtoken.New, hs, World.call, he]


/-- C2: for a valid session (non-empty id, `Get` without error) whose role lookup
succeeds: when the role is neither `super_admin` nor `admin`, `ListUsers` returns
`ErrForbidden` and its only calls are the session lookup and the role lookup (no
call of `UserRepository.ListUsers`); when the role is `super_admin` or `admin`, it
returns exactly what `UserRepository.ListUsers limit offset` returns. -/
theorem listUsers_role_gate {σ : Type} (u : rbac.Usecase σ) (sessionID : String)
    (limit offset : Int) (w : World σ)
    (hid : sessionID ≠ "")
    (hget : (u.sessions.Get sessionID w.state).1.2 = none)
    (hrole : (u.users.GetRole (u.sessions.Get sessionID w.state).1.1.UserID
      (u.sessions.Get sessionID w.state).2).1.2 = none) :
    let g := w.call (.sessionsGet sessionID) (u.sessions.Get sessionID)
    let r := g.2.call (.usersGetRole g.1.1.UserID) (u.users.GetRole g.1.1.UserID)
    (r.1.1 ≠ RoleSuperAdmin ∧ r.1.1 ≠ RoleAdmin →
      rbac.ListUsers u sessionID limit offset w = (([], some rbac.ErrForbidden), r.2) ∧
      World.since w (rbac.ListUsers u sessionID limit offset w).2
        = [⟨.sessionsGet sessionID, none⟩, ⟨.usersGetRole g.1.1.UserID, none⟩]) ∧
    (r.1.1 = RoleSuperAdmin ∨ r.1.1 = RoleAdmin →
      (rbac.ListUsers u sessionID limit offset w).1
        = (u.users.ListUsers limit offset r.2.state).1 ∧
      rbac.ListUsers u sessionID limit offset w
        = r.2.call (.usersListUsers limit offset) (u.users.ListUsers limit offset)) := by
  intro g r
  have hg : g.1.2 = none := hget
  have hr : r.1.2 = none := hrole
  have hL : rbac.ListUsers u sessionID limit offset w =
      if r.1.1 ≠ RoleSuperAdmin ∧ r.1.1 ≠ RoleAdmin then (([], some rbac.ErrForbidden), r.2)
      else r.2.call (.usersListUsers limit offset) (u.users.ListUsers limit offset) := by
    simp only [rbac.ListUsers, hid, if_false]
    show (match g.1.2 with
      | some _ => _
      | none => match r.1.2 with
        | some err => _
        | none => _) = _
    rw [hg, hr]
  constructor
  · intro hne
    rw [hL, if_pos hne]
    refine ⟨rfl, ?_⟩
    simp [r, g, World.since, World.call, hget, hrole]
  · intro hmem
    have hn : ¬ (r.1.1 ≠ RoleSuperAdmin ∧ r.1.1 ≠ RoleAdmin) := by
      rintro ⟨h1, h2⟩
      rcases hmem with h | h
      · exact h1 h
      · exact h2 h
    rw [hL, if_neg hn]
    exact ⟨rfl, rfl⟩


/-- The gate of `llmadmin` makes no call on the admin port, and it passes only
for a session whose user resolves to `admin` or `super_admin`. -/
theorem llmadmin.authorize_spec {σ : Type} (u : llmadmin.Usecase σ) (sessionID : String)
    (w : World σ) :
    let g := w.call (.sessionsGet sessionID) (u.sessions.Get sessionID)
    let r := g.2.call (.usersGetRole g.1.1.UserID) (u.users.GetRole g.1.1.UserID)
    let a := llmadmin.authorize u sessionID w
    (∀ e ∈ World.since w a.2, e.call.isAdmin = false) ∧
    (a.1 = none →
      (sessionID ≠ "" ∧ g.1.2 = none ∧ r.1.2 = none ∧
        (r.1.1 = RoleSuperAdmin ∨ r.1.1 = RoleAdmin)) ∧ a.2 = r.2) ∧
    (sessionID ≠ "" → g.1.2 = none → r.1.2 = none →
      r.1.1 ≠ RoleSuperAdmin → r.1.1 ≠ RoleAdmin → a = (some llmadmin.ErrForbidden, r.2)) := by
  intro g r a
  by_cases hid : sessionID = ""
  · simp [a, llmadmin.authorize, hid, World.since]
  · rcases hg : g.1.2 with _ | e1
    · rcases hr : r.1.2 with _ | e2
      · have ha : a = if r.1.1 ≠ RoleSuperAdmin ∧ r.1.1 ≠ RoleAdmin then
            (some llmadmin.ErrForbidden, r.2) else (none, r.2) := by
          simp only [a, llmadmin.authorize, hid, if_false]
          show (match g.1.2 with
            | some _ => _
            | none => match r.1.2 with
              | some err => _
              | none => _) = _
          rw [hg, hr]
        by_cases hrole : r.1.1 ≠ RoleSuperAdmin ∧ r.1.1 ≠ RoleAdmin
        · rw [ha, if_pos hrole]
          refine ⟨?_, ?_, ?_⟩
          · simp [r, g, World.since, World.call, Call.isAdmin]
          · simp
          · intros; rfl
        · rw [ha, if_neg hrole]
          refine ⟨?_, ?_, ?_⟩
          · simp [r, g, World.since, World.call, Call.isAdmin]
          · intro _
            refine ⟨⟨hid, rfl, rfl, ?_⟩, rfl⟩
            by_contra hc
            exact hrole ⟨fun h => hc (Or.inl h), fun h => hc (Or.inr h)⟩
          · intro _ _ _ h1 h2
            exact absurd ⟨h1, h2⟩ hrole
      · have ha : a = (some e2, r.2) := by
          simp only [a, llmadmin.authorize, hid, if_false]
          show (match g.1.2 with
            | some _ => _
            | none => match r.1.2 with
              | some err => _
              | none => _) = _
          rw [hg, hr]
        rw [ha]
        refine ⟨?_, ?_, ?_⟩
        · simp [r, g, World.since, World.call, Call.isAdmin]
        · simp
        · intro _ _ h; simp at h
    · have ha : a = (some llmadmin.ErrUnauthenticated, g.2) := by
        simp only [a, llmadmin.authorize, hid, if_false]
        show (match g.1.2 with
          | some _ => _
          | none => _) = _
        rw [hg]
      rw [ha]
      refine ⟨?_, ?_, ?_⟩
      · simp [g, World.since, World.call, Call.isAdmin]
      · simp
      · intro _ h; simp at h


theorem World.call_trace {σ α : Type} (w : World σ) (c : Call)
    (f : σ → (α × Option GoError) × σ) :
    (w.call c f).2.trace = w.trace ++ [⟨c, (f w.state).1.2⟩] := rfl

theorem World.callE_trace {σ : Type} (w : World σ) (c : Call)
    (f : σ → Option GoError × σ) :
    (w.callE c f).2.trace = w.trace ++ [⟨c, (f w.state).1⟩] := rfl

/-- What the six operations do once the gate has answered. -/
theorem llmadmin.after_authorize {σ : Type} (u : llmadmin.Usecase σ) (sessionID : String)
    (cfg : LLMProviderConfig) (provider : LLMProviderType) (mcfg : LLMModelConfig)
    (id : String) (w : World σ) :
    let a := llmadmin.authorize u sessionID w
    (∀ err, a.1 = some err →
      llmadmin.ListProviderConfigs u sessionID w = (([], some err), a.2) ∧
      llmadmin.UpsertProviderConfig u sessionID cfg w = (some err, a.2) ∧
      llmadmin.DeleteProviderConfig u sessionID provider w = (some err, a.2) ∧
      llmadmin.ListModels u sessionID w = (([], some err), a.2) ∧
      llmadmin.UpsertModel u sessionID mcfg w = (("", some err), a.2) ∧
      llmadmin.DeleteModel u sessionID id w = (some err, a.2)) ∧
    (a.1 = none →
      ∀ w1 ∈ [(llmadmin.ListProviderConfigs u sessionID w).2,
          (llmadmin.UpsertProviderConfig u sessionID cfg w).2,
          (llmadmin.DeleteProviderConfig u sessionID provider w).2,
          (llmadmin.ListModels u sessionID w).2,
          (llmadmin.UpsertModel u sessionID mcfg w).2,
          (llmadmin.DeleteModel u sessionID id w).2],
        ∃ rest, w1.trace = a.2.trace ++ rest) := by
  intro a
  constructor
  · intro err ha
    simp only [llmadmin.ListProviderConfigs, llmadmin.UpsertProviderConfig,
      llmadmin.DeleteProviderConfig, llmadmin.ListModels, llmadmin.UpsertModel,
      llmadmin.DeleteModel]
    refine ⟨?_, ?_, ?_, ?_, ?_, ?_⟩ <;>
    · show (match a.1 with
        | some err => _
        | none => _) = _
      rw [ha]
  · intro ha w1 hw1
    simp only [llmadmin.ListProviderConfigs, llmadmin.UpsertProviderConfig,
      llmadmin.DeleteProviderConfig, llmadmin.ListModels, llmadmin.UpsertModel,
      llmadmin.DeleteModel, List.mem_cons, List.mem_singleton, List.not_mem_nil, or_false] at hw1
    rcases hw1 with h | h | h | h | h | h <;> subst h
    · show ∃ rest, (match a.1 with
        | some err => _
        | none => _ : _ × World σ).2.trace = _
      rw [ha]
      exact ⟨_, rfl⟩
    · show ∃ rest, (match a.1 with
        | some err => _
        | none => _ : _ × World σ).2.trace = _
      rw [ha]
      simp only
      split
      · exact ⟨[], by simp⟩
      · exact ⟨_, rfl⟩
    · show ∃ rest, (match a.1 with
        | some err => _
        | none => _ : _ × World σ).2.trace = _
      rw [ha]
      simp only
      split
      · exact ⟨[], by simp⟩
      · exact ⟨_, rfl⟩
    · show ∃ rest, (match a.1 with
        | some err => _
        | none => _ : _ × World σ).2.trace = _
      rw [ha]
      exact ⟨_, rfl⟩
    · show ∃ rest, (match a.1 with
        | some err => _
        | none => _ : _ × World σ).2.trace = _
      rw [ha]
      simp only
      split
      · exact ⟨[], by simp⟩
      · split
        · exact ⟨_, rfl⟩
        · split
          · exact ⟨_, rfl⟩
          · split
            · exact ⟨_, rfl⟩
            · exact ⟨_, by rw [World.call_trace, World.call_trace, List.append_assoc]⟩
    · show ∃ rest, (match a.1 with
        | some err => _
        | none => _ : _ × World σ).2.trace = _
      rw [ha]
      simp only
      split
      · exact ⟨[], by simp⟩
      · exact ⟨_, rfl⟩

/-- C3: a valid session whose role is neither admin nor super_admin gets Forbidden
from each of the six operations without any call on the admin port, and the admin
port is called only after the gate passed with role admin or super_admin. -/
theorem llmadmin_forbidden_and_admin_port_gated {σ : Type} (u : llmadmin.Usecase σ)
    (sessionID : String) (cfg : LLMProviderConfig) (provider : LLMProviderType)
    (mcfg : LLMModelConfig) (id : String) (w : World σ) :
    let g := w.call (.sessionsGet sessionID) (u.sessions.Get sessionID)
    let r := g.2.call (.usersGetRole g.1.1.UserID) (u.users.GetRole g.1.1.UserID)
    let worlds := [(llmadmin.ListProviderConfigs u sessionID w).2,
      (llmadmin.UpsertProviderConfig u sessionID cfg w).2,
      (llmadmin.DeleteProviderConfig u sessionID provider w).2,
      (llmadmin.ListModels u sessionID w).2,
      (llmadmin.UpsertModel u sessionID mcfg w).2,
      (llmadmin.DeleteModel u sessionID id w).2]
    let errors := [(llmadmin.ListProviderConfigs u sessionID w).1.2,
      (llmadmin.UpsertProviderConfig u sessionID cfg w).1,
      (llmadmin.DeleteProviderConfig u sessionID provider w).1,
      (llmadmin.ListModels u sessionID w).1.2,
      (llmadmin.UpsertModel u sessionID mcfg w).1.2,
      (llmadmin.DeleteModel u sessionID id w).1]
    (sessionID ≠ "" → g.1.2 = none → r.1.2 = none →
      r.1.1 ≠ RoleSuperAdmin → r.1.1 ≠ RoleAdmin →
      (∀ err ∈ errors, err = some llmadmin.ErrForbidden) ∧
      (∀ w1 ∈ worlds, World.since w w1
        = [⟨.sessionsGet sessionID, none⟩, ⟨.usersGetRole g.1.1.UserID, none⟩])) ∧
    (∀ w1 ∈ worlds, ∀ e ∈ World.since w w1, e.call.isAdmin = true →
      (sessionID ≠ "" ∧ g.1.2 = none ∧ r.1.2 = none ∧
        (r.1.1 = RoleSuperAdmin ∨ r.1.1 = RoleAdmin)) ∧
      ∃ rest, World.since w w1
        = [⟨.sessionsGet sessionID, none⟩, ⟨.usersGetRole g.1.1.UserID, none⟩] ++ rest) := by
  intro g r worlds errors
  obtain ⟨hnoadmin, hpass, hforbid⟩ := llmadmin.authorize_spec u sessionID w
  obtain ⟨hfail, hok⟩ := llmadmin.after_authorize u sessionID cfg provider mcfg id w
  constructor
  · intro hid hg hr h1 h2
    have ha := hforbid hid hg hr h1 h2
    obtain ⟨e1, e2, e3, e4, e5, e6⟩ := hfail llmadmin.ErrForbidden (by rw [ha])
    have hw : World.since w r.2
        = [⟨.sessionsGet sessionID, none⟩, ⟨.usersGetRole g.1.1.UserID, none⟩] := by
      have hg2 : (u.sessions.Get sessionID w.state).1.2 = none := hg
      have hr2 : (u.users.GetRole (u.sessions.Get sessionID w.state).1.1.UserID
          (u.sessions.Get sessionID w.state).2).1.2 = none := hr
      simp [r, g, World.since, World.call, hg2, hr2]
    constructor
    · intro err herr
      simp only [errors, e1, e2, e3, e4, e5, e6, List.mem_cons, List.mem_singleton,
        List.not_mem_nil, or_false, or_self] at herr
      exact herr
    · intro w1 hw1
      simp only [worlds, e1, e2, e3, e4, e5, e6, ha, List.mem_cons, List.mem_singleton,
        List.not_mem_nil, or_false, or_self] at hw1
      rw [hw1]; exact hw
  · intro w1 hw1 e he hadm
    rcases ha : (llmadmin.authorize u sessionID w).1 with _ | err
    · obtain ⟨hp, ha2⟩ := hpass ha
      refine ⟨hp, ?_⟩
      obtain ⟨rest, hrest⟩ := hok ha w1 hw1
      refine ⟨rest, ?_⟩
      have hg2 : (u.sessions.Get sessionID w.state).1.2 = none := hp.2.1
      have hr2 : (u.users.GetRole (u.sessions.Get sessionID w.state).1.1.UserID
          (u.sessions.Get sessionID w.state).2).1.2 = none := hp.2.2.1
      rw [World.since, hrest, ha2]
      simp [r, g, World.call, hg2, hr2]
    · obtain ⟨e1, e2, e3, e4, e5, e6⟩ := hfail err ha
      simp only [worlds, e1, e2, e3, e4, e5, e6, List.mem_cons, List.mem_singleton,
        List.not_mem_nil, or_false, or_self] at hw1
      rw [hw1] at he
      have := hnoadmin e he
      rw [this] at hadm
      exact absurd hadm (by decide)

/-- The body of `SetUserRole` once the session and the role of the actor are resolved. -/
theorem rbac.setUserRole_resolved {σ : Type} (u : rbac.Usecase σ) (actorSessionID : String)
    (targetUserID : String) (role : Role) (w : World σ)
    (hid : actorSessionID ≠ "")
    (hget : (u.sessions.Get actorSessionID w.state).1.2 = none)
    (hrole : (u.users.GetRole (u.sessions.Get actorSessionID w.state).1.1.UserID
      (u.sessions.Get actorSessionID w.state).2).1.2 = none) :
    let g := w.call (.sessionsGet actorSessionID) (u.sessions.Get actorSessionID)
    let r := g.2.call (.usersGetRole g.1.1.UserID) (u.users.GetRole g.1.1.UserID)
    let t := r.2.call (.usersGetRole targetUserID) (u.users.GetRole targetUserID)
    World.since w r.2
      = [⟨.sessionsGet actorSessionID, none⟩, ⟨.usersGetRole g.1.1.UserID, none⟩] ∧
    rbac.SetUserRole u actorSessionID targetUserID role w =
      if r.1.1 ≠ RoleSuperAdmin then (some rbac.ErrForbidden, r.2)
      else if role ≠ RoleAdmin ∧ role ≠ RoleUser then (some rbac.ErrInvalidRole, r.2)
      else if t.1.2 = none ∧ t.1.1 = RoleSuperAdmin then (some rbac.ErrForbidden, t.2)
      else t.2.callE (.usersSetRole targetUserID role) (u.users.SetRole targetUserID role) := by
  intro g r t
  have hg : g.1.2 = none := hget
  have hr : r.1.2 = none := hrole
  constructor
  · simp [r, g, World.since, World.call, hget, hrole]
  · simp only [rbac.SetUserRole, hid, if_false]
    show (match g.1.2 with
      | some _ => _
      | none => match r.1.2 with
        | some err => _
        | none => _) = _
    rw [hg, hr]

/-- C4: an actor whose resolved role is not super_admin gets Forbidden from
SetUserRole for every target and every requested role, and SetRole is not called. -/
theorem setUserRole_requires_super_admin {σ : Type} (u : rbac.Usecase σ)
    (actorSessionID : String) (targetUserID : String) (role : Role) (w : World σ)
    (hid : actorSessionID ≠ "")
    (hget : (u.sessions.Get actorSessionID w.state).1.2 = none)
    (hrole : (u.users.GetRole (u.sessions.Get actorSessionID w.state).1.1.UserID
      (u.sessions.Get actorSessionID w.state).2).1.2 = none)
    (hactor : (u.users.GetRole (u.sessions.Get actorSessionID w.state).1.1.UserID
      (u.sessions.Get actorSessionID w.state).2).1.1 ≠ RoleSuperAdmin) :
    (rbac.SetUserRole u actorSessionID targetUserID role w).1 = some rbac.ErrForbidden ∧
    World.since w (rbac.SetUserRole u actorSessionID targetUserID role w).2
      = [⟨.sessionsGet actorSessionID, none⟩,
         ⟨.usersGetRole (u.sessions.Get actorSessionID w.state).1.1.UserID, none⟩] ∧
    (∀ e ∈ World.since w (rbac.SetUserRole u actorSessionID targetUserID role w).2,
      e.call.isSetRole = false) := by
  obtain ⟨hs, hbody⟩ := rbac.setUserRole_resolved u actorSessionID targetUserID role w
    hid hget hrole
  have hactor2 : ((w.call (.sessionsGet actorSessionID) (u.sessions.Get actorSessionID)).2.call
      (.usersGetRole (w.call (.sessionsGet actorSessionID)
        (u.sessions.Get actorSessionID)).1.1.UserID)
      (u.users.GetRole (w.call (.sessionsGet actorSessionID)
        (u.sessions.Get actorSessionID)).1.1.UserID)).1.1 ≠ RoleSuperAdmin := hactor
  rw [hbody, if_pos hactor2]
  refine ⟨rfl, hs, ?_⟩
  intro e he
  rw [hs] at he
  rcases List.mem_cons.mp he with h | he2
  · subst h; rfl
  · rcases List.mem_cons.mp he2 with h | he3
    · subst h; rfl
    · exact absurd he3 (List.not_mem_nil _)

/-- C6: a super_admin actor who asks for a role other than admin and user gets
InvalidRole for every target, and SetRole is not called. -/
theorem setUserRole_rejects_other_roles {σ : Type} (u : rbac.Usecase σ)
    (actorSessionID : String) (targetUserID : String) (role : Role) (w : World σ)
    (hid : actorSessionID ≠ "")
    (hget : (u.sessions.Get actorSessionID w.state).1.2 = none)
    (hrole : (u.users.GetRole (u.sessions.Get actorSessionID w.state).1.1.UserID
      (u.sessions.Get actorSessionID w.state).2).1 = (RoleSuperAdmin, none))
    (hadmin : role ≠ RoleAdmin) (huser : role ≠ RoleUser) :
    (rbac.SetUserRole u actorSessionID targetUserID role w).1 = some rbac.ErrInvalidRole ∧
    World.since w (rbac.SetUserRole u actorSessionID targetUserID role w).2
      = [⟨.sessionsGet actorSessionID, none⟩,
         ⟨.usersGetRole (u.sessions.Get actorSessionID w.state).1.1.UserID, none⟩] ∧
    (∀ e ∈ World.since w (rbac.SetUserRole u actorSessionID targetUserID role w).2,
      e.call.isSetRole = false) := by
  have hr2 : (u.users.GetRole (u.sessions.Get actorSessionID w.state).1.1.UserID
      (u.sessions.Get actorSessionID w.state).2).1.2 = none := by rw [hrole]
  obtain ⟨hs, hbody⟩ := rbac.setUserRole_resolved u actorSessionID targetUserID role w
    hid hget hr2
  have hactor2 : ((w.call (.sessionsGet actorSessionID) (u.sessions.Get actorSessionID)).2.call
      (.usersGetRole (w.call (.sessionsGet actorSessionID)
        (u.sessions.Get actorSessionID)).1.1.UserID)
      (u.users.GetRole (w.call (.sessionsGet actorSessionID)
        (u.sessions.Get actorSessionID)).1.1.UserID)).1.1 = RoleSuperAdmin := by
    show (u.users.GetRole (u.sessions.Get actorSessionID w.state).1.1.UserID
      (u.sessions.Get actorSessionID w.state).2).1.1 = RoleSuperAdmin
    rw [hrole]
  rw [hbody, if_neg (not_not.mpr hactor2), if_pos ⟨hadmin, huser⟩]
  refine ⟨rfl, hs, ?_⟩
  intro e he
  rw [hs] at he
  rcases List.mem_cons.mp he with h | he2
  · subst h; rfl
  · rcases List.mem_cons.mp he2 with h | he3
    · subst h; rfl
    · exact absurd he3 (List.not_mem_nil _)

/-- C5 (as stated) fails: a super_admin actor who asks for a role outside admin and
user on a super_admin target gets InvalidRole, not Forbidden; and an actor whose own
role lookup fails gets the error of that lookup. -/
theorem setUserRole_super_admin_target_counterexample :
    ((fixture.getSession "s-root" ()).1.2 = none ∧
      (persistence.GetRole id "root" fixture.db0).1 = (RoleSuperAdmin, none) ∧
      (persistence.GetRole id "boss" fixture.db0).1 = (RoleSuperAdmin, none) ∧
      (rbac.SetUserRole fixture.rbacUsecase "s-root" "boss" "super_admin" fixture.world0).1
        = some rbac.ErrInvalidRole) ∧
    ((fixture.getSession "s-ghost" ()).1.2 = none ∧
      (rbac.SetUserRole fixture.rbacUsecase "s-ghost" "boss" "admin" fixture.world0).1
        = some persistence.ErrRecordNotFound) ∧
    rbac.ErrInvalidRole ≠ rbac.ErrForbidden ∧
    persistence.ErrRecordNotFound ≠ rbac.ErrForbidden := by
  decide

/-- C5 (amended): with a valid session whose role resolves, SetUserRole on a target
whose current role is super_admin always fails and never calls SetRole: with
InvalidRole when the actor is super_admin and the requested role is neither admin
nor user, with Forbidden in every other case. -/
theorem setUserRole_protects_super_admin_target {σ : Type} (u : rbac.Usecase σ)
    (actorSessionID : String) (targetUserID : String) (role : Role) (w : World σ)
    (hid : actorSessionID ≠ "")
    (hget : (u.sessions.Get actorSessionID w.state).1.2 = none)
    (hrole : (u.users.GetRole (u.sessions.Get actorSessionID w.state).1.1.UserID
      (u.sessions.Get actorSessionID w.state).2).1.2 = none)
    (htarget : (u.users.GetRole targetUserID
      (u.users.GetRole (u.sessions.Get actorSessionID w.state).1.1.UserID
        (u.sessions.Get actorSessionID w.state).2).2).1 = (RoleSuperAdmin, none)) :
    (rbac.SetUserRole u actorSessionID targetUserID role w).1 =
      (if (u.users.GetRole (u.sessions.Get actorSessionID w.state).1.1.UserID
            (u.sessions.Get actorSessionID w.state).2).1.1 = RoleSuperAdmin
          ∧ role ≠ RoleAdmin ∧ role ≠ RoleUser
        then some rbac.ErrInvalidRole else some rbac.ErrForbidden) ∧
    (∀ e ∈ World.since w (rbac.SetUserRole u actorSessionID targetUserID role w).2,
      e.call.isSetRole = false) := by
  obtain ⟨hs, hbody⟩ := rbac.setUserRole_resolved u actorSessionID targetUserID role w
    hid hget hrole
  have hsince : ∀ (s : σ) (es : List Event), (∀ e ∈ es, e.call.isSetRole = false) →
      ∀ e ∈ World.since w ⟨s, w.trace ++ es⟩, e.call.isSetRole = false := by
    intro s es h e he
    rw [World.since_append] at he
    exact h e he
  by_cases hactor : (u.users.GetRole (u.sessions.Get actorSessionID w.state).1.1.UserID
      (u.sessions.Get actorSessionID w.state).2).1.1 = RoleSuperAdmin
  · have hactor2 : ((w.call (.sessionsGet actorSessionID)
          (u.sessions.Get actorSessionID)).2.call
        (.usersGetRole (w.call (.sessionsGet actorSessionID)
          (u.sessions.Get actorSessionID)).1.1.UserID)
        (u.users.GetRole (w.call (.sessionsGet actorSessionID)
          (u.sessions.Get actorSessionID)).1.1.UserID)).1.1 = RoleSuperAdmin := hactor
    by_cases hreq : role ≠ RoleAdmin ∧ role ≠ RoleUser
    · rw [hbody, if_neg (not_not.mpr hactor2), if_pos hreq, if_pos ⟨hactor, hreq⟩]
      refine ⟨rfl, ?_⟩
      intro e he
      rw [hs] at he
      rcases List.mem_cons.mp he with h | he2
      · subst h; rfl
      · rcases List.mem_cons.mp he2 with h | he3
        · subst h; rfl
        · exact absurd he3 (List.not_mem_nil _)
    · have ht : ((w.call (.sessionsGet actorSessionID)
            (u.sessions.Get actorSessionID)).2.call
          (.usersGetRole (w.call (.sessionsGet actorSessionID)
            (u.sessions.Get actorSessionID)).1.1.UserID)
          (u.users.GetRole (w.call (.sessionsGet actorSessionID)
            (u.sessions.Get actorSessionID)).1.1.UserID)).2.call
          (.usersGetRole targetUserID) (u.users.GetRole targetUserID) =
          ((RoleSuperAdmin, none), ⟨(u.users.GetRole targetUserID
            (u.users.GetRole (u.sessions.Get actorSessionID w.state).1.1.UserID
              (u.sessions.Get actorSessionID w.state).2).2).2,
            w.trace ++ [⟨.sessionsGet actorSessionID, none⟩,
              ⟨.usersGetRole (u.sessions.Get actorSessionID w.state).1.1.UserID, none⟩,
              ⟨.usersGetRole targetUserID, none⟩]⟩) := by
        simp [World.call, htarget, hget, hrole]
      rw [hbody, if_neg (not_not.mpr hactor2), if_neg hreq, ht,
        if_neg (fun h : _ ∧ role ≠ RoleAdmin ∧ role ≠ RoleUser => hreq h.2)]
      simp only [and_self, if_true, true_and]
      apply hsince
      intro e he
      simp only [List.mem_cons, List.mem_singleton, List.not_mem_nil, or_false] at he
      rcases he with h | h | h <;> subst h <;> rfl
  · have hactor2 : ((w.call (.sessionsGet actorSessionID)
          (u.sessions.Get actorSessionID)).2.call
        (.usersGetRole (w.call (.sessionsGet actorSessionID)
          (u.sessions.Get actorSessionID)).1.1.UserID)
        (u.users.GetRole (w.call (.sessionsGet actorSessionID)
          (u.sessions.Get actorSessionID)).1.1.UserID)).1.1 ≠ RoleSuperAdmin := hactor
    rw [hbody, if_pos hactor2, if_neg (fun h : _ ∧ _ => hactor h.1)]
    refine ⟨rfl, ?_⟩
    intro e he
    rw [hs] at he
    rcases List.mem_cons.mp he with h | he2
    · subst h; rfl
    · rcases List.mem_cons.mp he2 with h | he3
      · subst h; rfl
      · exact absurd he3 (List.not_mem_nil _)

/-! ### The relational user repository -/

namespace persistence

theorem parseRole_admin (table : Char → Char) : ParseRole table RoleAdmin = (RoleAdmin, true) := by
  rfl

theorem parseRole_user (table : Char → Char) : ParseRole table RoleUser = (RoleUser, true) := by
  rfl

theorem parseRole_super_admin (table : Char → Char) :
    ParseRole table RoleSuperAdmin = (RoleSuperAdmin, true) := by
  rfl

/-- A statement changes no row by its outcome alone, and its error is one of the driver. -/
theorem next_spec (db : DB) :
    db.next.2.calm = db.calm ∧
    (db.next.1 = none ∨ ∃ msg, db.next.1 = some (.foreign msg)) := by
  unfold DB.next
  rcases hf : db.faults with _ | ⟨f, rest⟩
  · exact ⟨rfl, Or.inl rfl⟩
  · refine ⟨rfl, ?_⟩
    cases f with
    | none => exact Or.inl rfl
    | some msg => exact Or.inr ⟨msg, rfl⟩

theorem next_calm (db : DB) : db.calm.next = (none, db.calm) := rfl

theorem calm_calm (db : DB) : db.calm.calm = db.calm := rfl

theorem findUser_calm (db : DB) (x : String) : db.calm.findUser x = db.findUser x := rfl

theorem findUser_of_calm (db1 db2 : DB) (h : db1.calm = db2.calm) (x : String) :
    db1.findUser x = db2.findUser x := by
  rw [← findUser_calm db1, h, findUser_calm]

theorem users_of_calm (db1 db2 : DB) (h : db1.calm = db2.calm) :
    db1.user_models = db2.user_models ∧ db1.login_info_models = db2.login_info_models ∧
      db1.now = db2.now := by
  have h1 : db1.calm.user_models = db2.calm.user_models := by rw [h]
  have h2 : db1.calm.login_info_models = db2.calm.login_info_models := by rw [h]
  have h3 : db1.calm.now = db2.calm.now := by rw [h]
  exact ⟨h1, h2, h3⟩

/-- Looking a key up after an update of the rows of one key that keeps the keys. -/
theorem find_map_update (l : List UserModel) (userID target : String)
    (g : UserModel → UserModel) (hg : ∀ r, (g r).ID = r.ID) :
    (l.map (fun r => if r.ID = target then g r else r)).find? (fun r => decide (r.ID = userID))
      = (l.find? (fun r => decide (r.ID = userID))).map
          (fun r => if r.ID = target then g r else r) := by
  induction l with
  | nil => rfl
  | cons a l ih =>
    have hid : (if a.ID = target then g a else a).ID = a.ID := by
      split
      · exact hg a
      · rfl
    rw [List.map_cons, List.find?_cons, List.find?_cons, hid, ih]
    by_cases h : a.ID = userID
    · rw [decide_eq_true h]; rfl
    · rw [decide_eq_false h]

/-- What `EnsureExists` does to the rows: nothing, or, when it reports no error
and the statement of `FirstOrCreate` selected no row, the one new row at the end
of the user table. -/
theorem ensureExists_rows (userID : String) (db : DB) :
    (EnsureExists userID db).2.calm = db.calm ∨
    ((EnsureExists userID db).1 = none ∧
      (if userID = "" then db.user_models.head? else db.findUser userID) = none ∧
      (EnsureExists userID db).2.calm
        = { db.calm with
            user_models := db.user_models ++ [⟨userID, RoleUser, "", db.now, db.now⟩] }) := by
  obtain ⟨hq, -⟩ := next_spec db
  obtain ⟨hq1, hq2, hq3⟩ := users_of_calm _ _ hq
  unfold EnsureExists
  dsimp only
  rcases h1 : db.next.1 with _ | err
  · dsimp only
    have hfound : (if userID = "" then db.next.2.user_models.head? else db.next.2.findUser userID)
        = (if userID = "" then db.user_models.head? else db.findUser userID) := by
      rw [hq1, findUser_of_calm _ _ hq]
    rw [hfound]
    rcases hf : (if userID = "" then db.user_models.head? else db.findUser userID) with _ | r
    · dsimp only
      obtain ⟨hc, -⟩ := next_spec db.next.2
      obtain ⟨hc1, hc2, hc3⟩ := users_of_calm _ _ hc
      rcases h2 : db.next.2.next.1 with _ | err
      · right
        refine ⟨rfl, rfl, ?_⟩
        dsimp only
        show ({ user_models := _, login_info_models := _, now := _, faults := [] } : DB) = _
        rw [hc1, hc2, hc3, hq1, hq2, hq3]
        rfl
      · left
        exact hc.trans hq
    · left
      exact hq
  · left
    exact hq

/-- When `EnsureExists` reports no error the statement of `FirstOrCreate` selected
a row, or the row was inserted. -/
theorem ensureExists_ok (userID : String) (db : DB) (h : (EnsureExists userID db).1 = none) :
    ((if userID = "" then db.user_models.head? else db.findUser userID) ≠ none ∧
      (EnsureExists userID db).2.calm = db.calm) ∨
    ((if userID = "" then db.user_models.head? else db.findUser userID) = none ∧
      (EnsureExists userID db).2.calm
        = { db.calm with
            user_models := db.user_models ++ [⟨userID, RoleUser, "", db.now, db.now⟩] }) := by
  obtain ⟨hq, -⟩ := next_spec db
  obtain ⟨hq1, hq2, hq3⟩ := users_of_calm _ _ hq
  rcases ensureExists_rows userID db with hr | ⟨-, hr1, hr2⟩
  · left
    refine ⟨?_, hr⟩
    intro hnone
    unfold EnsureExists at h
    dsimp only at h
    rcases h1 : db.next.1 with _ | err
    · rw [h1] at h
      dsimp only at h
      have hfound : (if userID = "" then db.next.2.user_models.head?
          else db.next.2.findUser userID) = none := by
        rw [hq1, findUser_of_calm _ _ hq]; exact hnone
      rw [hfound] at h
      dsimp only at h
      rcases h2 : db.next.2.next.1 with _ | err
      · -- the row was inserted, so the rows are not those of `db`
        have hrows := users_of_calm _ _ hr
        unfold EnsureExists at hrows
        dsimp only at hrows
        rw [h1] at hrows
        dsimp only at hrows
        rw [hfound] at hrows
        dsimp only at hrows
        rw [h2] at hrows
        dsimp only at hrows
        obtain ⟨hc, -⟩ := next_spec db.next.2
        obtain ⟨hc1, -, -⟩ := users_of_calm _ _ hc
        have := hrows.1
        rw [hc1, hq1] at this
        simp at this
      · rw [h2] at h
        exact absurd h (by simp)
    · rw [h1] at h
      exact absurd h (by simp)
  · right
    exact ⟨hr1, hr2⟩


/-- The row of a key after `EnsureExists`: the row before it, or the new row when
the key is the one ensured and had no row. -/
theorem ensureExists_find (userID : String) (db : DB) (x : String) :
    (EnsureExists userID db).2.findUser x = db.findUser x ∨
    (x = userID ∧ db.findUser x = none ∧
      (EnsureExists userID db).2.findUser x = some ⟨userID, RoleUser, "", db.now, db.now⟩) := by
  rcases ensureExists_rows userID db with hr | ⟨-, -, hr2⟩
  · left
    exact findUser_of_calm _ _ hr x
  · have hf : (EnsureExists userID db).2.findUser x
        = (db.user_models ++ [(⟨userID, RoleUser, "", db.now, db.now⟩ : UserModel)]).find?
            (fun r => decide (r.ID = x)) := by
      rw [← findUser_calm, hr2]
      rfl
    rcases hx : db.findUser x with _ | r
    · by_cases hxu : x = userID
      · right
        refine ⟨hxu, rfl, ?_⟩
        rw [hf, List.find?_append]
        have : List.find? (fun r => decide (r.ID = x)) db.user_models = none := hx
        rw [this]
        simp [List.find?, hxu]
      · left
        rw [hf, List.find?_append]
        have : List.find? (fun r => decide (r.ID = x)) db.user_models = none := hx
        rw [this]
        simp [List.find?, Ne.symm hxu]
    · left
      rw [hf, List.find?_append]
      have : List.find? (fun r => decide (r.ID = x)) db.user_models = some r := hx
      rw [this]
      rfl

/-- A row that is there before `EnsureExists` is there after it, as it was. -/
theorem ensureExists_keeps (userID : String) (db : DB) (x : String) (r : UserModel)
    (h : db.findUser x = some r) : (EnsureExists userID db).2.findUser x = some r := by
  rcases ensureExists_find userID db x with h1 | ⟨-, h2, -⟩
  · rw [h1, h]
  · rw [h] at h2
    exact absurd h2 (by simp)

/-- After `EnsureExists` of a non-empty key without error the key has a row. -/
theorem ensureExists_find_self (userID : String) (db : DB) (hid : userID ≠ "")
    (hok : (EnsureExists userID db).1 = none) :
    ∃ r, (EnsureExists userID db).2.findUser userID = some r ∧ r.ID = userID ∧
      (db.findUser userID = some r ∨
        (db.findUser userID = none ∧ r = ⟨userID, RoleUser, "", db.now, db.now⟩)) := by
  rcases ensureExists_ok userID db hok with ⟨h1, h2⟩ | ⟨h1, h2⟩
  · rw [if_neg hid] at h1
    obtain ⟨r, hr⟩ := Option.ne_none_iff_exists'.mp h1
    refine ⟨r, ?_, ?_, Or.inl hr⟩
    · rw [findUser_of_calm _ _ h2, hr]
    · have := List.find?_some hr
      simpa using this
  · rw [if_neg hid] at h1
    rcases ensureExists_find userID db userID with h3 | ⟨-, -, h3⟩
    · exfalso
      have hf : (EnsureExists userID db).2.findUser userID
          = (db.user_models ++ [(⟨userID, RoleUser, "", db.now, db.now⟩ : UserModel)]).find?
              (fun r => decide (r.ID = userID)) := by
        rw [← findUser_calm, h2]
        rfl
      rw [hf, List.find?_append] at h3
      have : List.find? (fun r => decide (r.ID = userID)) db.user_models = none := h1
      rw [this, h1] at h3
      simp [List.find?] at h3
    · exact ⟨_, h3, rfl, Or.inr ⟨h1, rfl⟩⟩

/-- The error of `EnsureExists`, when there is one, is an error of the driver. -/
theorem ensureExists_err (userID : String) (db : DB) :
    (EnsureExists userID db).1 = none ∨ ∃ msg, (EnsureExists userID db).1 = some (.foreign msg) := by
  unfold EnsureExists
  dsimp only
  rcases next_spec db with ⟨-, h1 | ⟨msg, h1⟩⟩
  · rw [h1]
    dsimp only
    split
    · exact Or.inl rfl
    · rcases next_spec db.next.2 with ⟨-, h2 | ⟨msg, h2⟩⟩
      · rw [h2]; exact Or.inl rfl
      · rw [h2]; exact Or.inr ⟨msg, rfl⟩
  · rw [h1]; exact Or.inr ⟨msg, rfl⟩

/-- The lookup of a role when no statement fails. -/
theorem getRole_calm (table : Char → Char) (x : String) (db : DB) :
    (GetRole table x db.calm).1 =
      match db.findUser x with
      | none => ("", some ErrRecordNotFound)
      | some u =>
        if ¬ (ParseRole table u.Role).2 then (RoleUser, none)
        else ((ParseRole table u.Role).1, none) := by
  unfold GetRole
  rw [next_calm]
  dsimp only
  rw [findUser_calm]
  rcases db.findUser x with _ | u
  · rfl
  · dsimp only
    split <;> rfl

/-- The lookup of a role: it leaves the rows as they are, and it gives what it
gives when no statement fails unless its statement fails. -/
theorem getRole_spec (table : Char → Char) (x : String) (db : DB) :
    (GetRole table x db).2 = db.next.2 ∧
    ((db.next.1 = none ∧ (GetRole table x db).1 = (GetRole table x db.calm).1) ∨
      (∃ msg, db.next.1 = some (.foreign msg) ∧
        (GetRole table x db).1 = ("", some (.foreign msg)))) := by
  obtain ⟨hq, hk⟩ := next_spec db
  constructor
  · unfold GetRole
    dsimp only
    rcases db.next.1 with _ | err
    · dsimp only
      rcases db.next.2.findUser x with _ | u
      · rfl
      · dsimp only
        split <;> rfl
    · rfl
  · rcases hk with h1 | ⟨msg, h1⟩
    · left
      refine ⟨h1, ?_⟩
      rw [getRole_calm]
      unfold GetRole
      dsimp only
      rw [h1]
      dsimp only
      rw [findUser_of_calm _ _ hq]
      rcases db.findUser x with _ | u
      · rfl
      · dsimp only
        split <;> rfl
    · right
      refine ⟨msg, h1, ?_⟩
      unfold GetRole
      dsimp only
      rw [h1]

theorem getRole_state (table : Char → Char) (x : String) (db : DB) :
    (GetRole table x db).2.calm = db.calm := by
  rw [(getRole_spec table x db).1]
  exact (next_spec db).1

theorem getRole_congr (table : Char → Char) (x : String) (db1 db2 : DB)
    (h : db1.findUser x = db2.findUser x) :
    (GetRole table x db1.calm).1 = (GetRole table x db2.calm).1 := by
  rw [getRole_calm, getRole_calm, h]

/-- The role in the view of `GetMe` when no statement fails: the role of the row,
and `user` when there is no row. -/
theorem getMe_role (table : Char → Char) (x : String) (db : DB) :
    (GetMe table x db.calm).1.1.Role =
      match db.findUser x with
      | none => RoleUser
      | some u =>
        if ¬ (ParseRole table u.Role).2 then RoleUser else (ParseRole table u.Role).1 := by
  unfold GetMe
  rw [next_calm]
  dsimp only
  rw [findUser_calm]
  rcases db.findUser x with _ | u
  · rfl
  · dsimp only
    rcases db.calm.findLoginInfo u.ID with _ | li <;> rfl

/-- The view of `GetMe` of a user whose row is known, when the statement does not fail. -/
theorem getMe_found (table : Char → Char) (x : String) (db : DB) (r : UserModel)
    (h : db.findUser x = some r) (hq : db.next.1 = none) :
    (GetMe table x db).1.2 = none ∧ (GetMe table x db).1.1.UserID = r.ID ∧
      (GetMe table x db).1.1.Nickname = r.Nickname := by
  have hc := (next_spec db).1
  unfold GetMe
  dsimp only
  rw [hq]
  dsimp only
  rw [findUser_of_calm _ _ hc, h]
  dsimp only
  rcases db.next.2.findLoginInfo r.ID with _ | li <;> exact ⟨rfl, rfl, rfl⟩

/-- `GetMe` leaves the rows as they are, and its error is the failure of its statement. -/
theorem getMe_spec (table : Char → Char) (x : String) (db : DB) :
    (GetMe table x db).2 = db.next.2 ∧ (GetMe table x db).1.2 = db.next.1 := by
  unfold GetMe
  dsimp only
  rcases db.next.1 with _ | err
  · exact ⟨rfl, rfl⟩
  · exact ⟨rfl, rfl⟩

theorem saveLoginInfo_users (info : LoginInfo) (db : DB) :
    (SaveLoginInfo info db).2.user_models = db.user_models := by
  have hq := (users_of_calm _ _ (next_spec db).1).1
  unfold SaveLoginInfo
  dsimp only
  rcases db.next.1 with _ | err
  · dsimp only
    split
    · split
      · exact hq
      · exact hq
    · split
      · exact hq
      · have hc := (users_of_calm _ _ (next_spec db.next.2).1).1
        rcases db.next.2.next.1 with _ | err
        · exact hc.trans hq
        · exact hc.trans hq
  · exact hq


/-- What `SetRole` does to the rows: on an error those of `EnsureExists`, and
else those with the role of the key written. -/
theorem setRole_rows (userID : String) (role : Role) (db : DB) :
    ((∃ msg, (SetRole userID role db).1 = some (.foreign msg)) ∧
      (SetRole userID role db).2.calm = (EnsureExists userID db).2.calm) ∨
    ((SetRole userID role db).1 = none ∧ (EnsureExists userID db).1 = none ∧
      (SetRole userID role db).2.calm
        = { (EnsureExists userID db).2.calm with
            user_models := (EnsureExists userID db).2.user_models.map
              (fun r => if r.ID = userID then
                { r with Role := role, UpdatedAt := (EnsureExists userID db).2.now } else r) }) := by
  unfold SetRole
  dsimp only
  rcases ensureExists_err userID db with he | ⟨msg, he⟩
  · rw [he]
    dsimp only
    obtain ⟨hq, hk⟩ := next_spec (EnsureExists userID db).2
    obtain ⟨hq1, hq2, hq3⟩ := users_of_calm _ _ hq
    rcases hk with h1 | ⟨msg, h1⟩
    · rw [h1]
      right
      refine ⟨rfl, rfl, ?_⟩
      dsimp only
      show ({ user_models := _, login_info_models := _, now := _, faults := [] } : DB) = _
      rw [hq1, hq2, hq3]
      rfl
    · rw [h1]
      left
      exact ⟨⟨msg, rfl⟩, hq⟩
  · rw [he]
    left
    exact ⟨⟨msg, rfl⟩, rfl⟩

theorem setRole_find_other (userID : String) (role : Role) (db : DB) (x : String)
    (h : x ≠ userID) : (SetRole userID role db).2.findUser x = db.findUser x := by
  have he : (EnsureExists userID db).2.findUser x = db.findUser x := by
    rcases ensureExists_find userID db x with h1 | ⟨h2, -, -⟩
    · exact h1
    · exact absurd h2 h
  rcases setRole_rows userID role db with ⟨-, hr⟩ | ⟨-, -, hr⟩
  · rw [findUser_of_calm _ _ hr, he]
  · rw [← findUser_calm, hr]
    have key : List.find? (fun r => decide (r.ID = x))
        ((EnsureExists userID db).2.user_models.map
          (fun r => if r.ID = userID then
            { r with Role := role, UpdatedAt := (EnsureExists userID db).2.now } else r))
        = db.findUser x := by
      rw [find_map_update _ x userID
        (fun r => { r with Role := role, UpdatedAt := (EnsureExists userID db).2.now })
        (fun _ => rfl)]
      have he2 : List.find? (fun r => decide (r.ID = x)) (EnsureExists userID db).2.user_models
          = db.findUser x := he
      rw [he2]
      rcases hf : db.findUser x with _ | r
      · rfl
      · have hr : r.ID = x := by simpa using List.find?_some hf
        simp [hr, h]
    exact key

/-- After `SetRole` of a non-empty key without error the row of the key has the role. -/
theorem setRole_find_self (userID : String) (role : Role) (db : DB) (hid : userID ≠ "")
    (hok : (SetRole userID role db).1 = none) :
    ∃ r, (SetRole userID role db).2.findUser userID = some r ∧ r.Role = role ∧
      r.ID = userID := by
  rcases setRole_rows userID role db with ⟨⟨msg, hm⟩, -⟩ | ⟨-, he, hr⟩
  · rw [hm] at hok
    exact absurd hok (by simp)
  · obtain ⟨r, hf, hrid, -⟩ := ensureExists_find_self userID db hid he
    refine ⟨{ r with Role := role, UpdatedAt := (EnsureExists userID db).2.now }, ?_, rfl, hrid⟩
    rw [← findUser_calm, hr]
    simp only [DB.findUser]
    rw [find_map_update _ userID userID
      (fun r => { r with Role := role, UpdatedAt := (EnsureExists userID db).2.now })
      (fun _ => rfl)]
    have hf2 : List.find? (fun r => decide (r.ID = userID)) (EnsureExists userID db).2.user_models
        = some r := hf
    rw [hf2]
    simp [hrid]

/-- The role read after a `SetRole` that reported no error, for one of the three roles. -/
theorem getRole_setRole_self (table : Char → Char) (userID : String) (role : Role) (db : DB)
    (hid : userID ≠ "") (hok : (SetRole userID role db).1 = none)
    (h : role = RoleAdmin ∨ role = RoleUser ∨ role = RoleSuperAdmin) :
    (GetRole table userID (SetRole userID role db).2.calm).1 = (role, none) := by
  obtain ⟨r, hr, hrole, -⟩ := setRole_find_self userID role db hid hok
  rw [getRole_calm, hr]
  dsimp only
  rw [hrole]
  rcases h with h | h | h <;> subst h <;> rfl

/-- What `SetNickname` does to the rows: on an error those of `EnsureExists`, and
else those with the nickname of the key written. -/
theorem setNickname_rows (userID : String) (nickname : String) (db : DB) :
    ((∃ msg, (SetNickname userID nickname db).1 = some (.foreign msg)) ∧
      (SetNickname userID nickname db).2.calm = (EnsureExists userID db).2.calm) ∨
    ((SetNickname userID nickname db).1 = none ∧ (EnsureExists userID db).1 = none ∧
      (SetNickname userID nickname db).2.calm
        = { (EnsureExists userID db).2.calm with
            user_models := (EnsureExists userID db).2.user_models.map
              (fun r => if r.ID = userID then
                { r with Nickname := nickname, UpdatedAt := (EnsureExists userID db).2.now }
                else r) }) := by
  unfold SetNickname
  dsimp only
  rcases ensureExists_err userID db with he | ⟨msg, he⟩
  · rw [he]
    dsimp only
    obtain ⟨hq, hk⟩ := next_spec (EnsureExists userID db).2
    obtain ⟨hq1, hq2, hq3⟩ := users_of_calm _ _ hq
    rcases hk with h1 | ⟨msg, h1⟩
    · rw [h1]
      right
      refine ⟨rfl, rfl, ?_⟩
      dsimp only
      show ({ user_models := _, login_info_models := _, now := _, faults := [] } : DB) = _
      rw [hq1, hq2, hq3]
      rfl
    · rw [h1]
      left
      exact ⟨⟨msg, rfl⟩, hq⟩
  · rw [he]
    left
    exact ⟨⟨msg, rfl⟩, rfl⟩

/-- After `SetNickname` of a non-empty key without error the row of the key has
the nickname. -/
theorem setNickname_find_self (userID : String) (nickname : String) (db : DB)
    (hid : userID ≠ "") (hok : (SetNickname userID nickname db).1 = none) :
    ∃ r, (SetNickname userID nickname db).2.findUser userID = some r ∧
      r.Nickname = nickname ∧ r.ID = userID := by
  rcases setNickname_rows userID nickname db with ⟨⟨msg, hm⟩, -⟩ | ⟨-, he, hr⟩
  · rw [hm] at hok
    exact absurd hok (by simp)
  · obtain ⟨r, hf, hrid, -⟩ := ensureExists_find_self userID db hid he
    refine ⟨{ r with Nickname := nickname, UpdatedAt := (EnsureExists userID db).2.now },
      ?_, rfl, hrid⟩
    rw [← findUser_calm, hr]
    simp only [DB.findUser]
    rw [find_map_update _ userID userID
      (fun r => { r with Nickname := nickname, UpdatedAt := (EnsureExists userID db).2.now })
      (fun _ => rfl)]
    have hf2 : List.find? (fun r => decide (r.ID = userID)) (EnsureExists userID db).2.user_models
        = some r := hf
    rw [hf2]
    simp [hrid]


theorem getRole_ensureExists_found (table : Char → Char) (userID x : String) (db : DB)
    (h : (GetRole table x db.calm).1.2 = none) :
    (GetRole table x (EnsureExists userID db).2.calm).1 = (GetRole table x db.calm).1 := by
  rcases hf : db.findUser x with _ | r
  · rw [getRole_calm, hf] at h
    exact absurd h (by simp)
  · exact getRole_congr table x _ _ ((ensureExists_keeps userID db x r hf).trans hf.symm)

theorem getRole_ensureExists_missing (table : Char → Char) (userID : String) (db : DB)
    (hid : userID ≠ "") (hok : (EnsureExists userID db).1 = none)
    (h : (GetRole table userID db.calm).1.2 ≠ none) :
    (GetRole table userID (EnsureExists userID db).2.calm).1 = (RoleUser, none) := by
  have hf : db.findUser userID = none := by
    rcases hc : db.findUser userID with _ | r
    · rfl
    · exfalso
      apply h
      rw [getRole_calm, hc]
      dsimp only
      split <;> rfl
  obtain ⟨r, hr, -, hcase⟩ := ensureExists_find_self userID db hid hok
  rcases hcase with hc | ⟨-, hc⟩
  · rw [hf] at hc
    exact absurd hc (by simp)
  · rw [getRole_calm, hr, hc]
    rfl

/-- The role in the view of `GetMe` is not changed by `EnsureExists`. -/
theorem getMe_role_ensureExists (table : Char → Char) (userID x : String) (db : DB) :
    (GetMe table x (EnsureExists userID db).2.calm).1.1.Role
      = (GetMe table x db.calm).1.1.Role := by
  rw [getMe_role, getMe_role]
  rcases ensureExists_find userID db x with h | ⟨-, h1, h2⟩
  · rw [h]
  · rw [h1, h2]
    rfl

theorem getMe_role_congr (table : Char → Char) (x : String) (db1 db2 : DB)
    (h : db1.user_models = db2.user_models) :
    (GetMe table x db1.calm).1.1.Role = (GetMe table x db2.calm).1.1.Role := by
  rw [getMe_role, getMe_role]
  unfold DB.findUser
  rw [h]

/-- The view of `GetMe` has the role that the lookup of the role gives. -/
theorem getMe_role_of_getRole (table : Char → Char) (x : String) (db : DB) (ρ : Role)
    (h : (GetRole table x db.calm).1 = (ρ, none)) :
    (GetMe table x db.calm).1.1.Role = ρ := by
  rw [getRole_calm] at h
  rw [getMe_role]
  rcases hf : db.findUser x with _ | u
  · rw [hf] at h
    exact absurd (congrArg Prod.snd h) (by simp)
  · rw [hf] at h
    dsimp only at h ⊢
    by_cases hp : ¬ (ParseRole table u.Role).2 = true
    · rw [if_pos hp] at h ⊢
      exact congrArg Prod.fst h
    · rw [if_neg hp] at h ⊢
      exact congrArg Prod.fst h

theorem saveLoginInfo_err (info : LoginInfo) (db : DB) :
    (SaveLoginInfo info db).1 = none ∨ ∃ e, (SaveLoginInfo info db).1 = some e := by
  rcases (SaveLoginInfo info db).1 with _ | e
  · exact Or.inl rfl
  · exact Or.inr ⟨e, rfl⟩


/-- What `ListUsers` returns: the error of its statement, or the page of the rows. -/
theorem listUsers_page (table : Char → Char) (limit offset : Int) (db : DB) :
    (∀ err, db.next.1 = some err → (ListUsers table limit offset db).1 = ([], some err)) ∧
    (db.next.1 = none →
      (ListUsers table limit offset db).1 =
        ((((db.user_models.insertionSort (fun a b => a.CreatedAt ≥ b.CreatedAt)).drop
            (if offset < 0 then 0 else offset).toNat).take
              (if limit ≤ 0 then 50 else limit).toNat).map
          (fun r => ListUsers.convert table r (db.findLoginInfo r.ID)), none)) ∧
    (ListUsers table limit offset db).2 = db.next.2 := by
  obtain ⟨hq, -⟩ := next_spec db
  obtain ⟨hq1, hq2, -⟩ := users_of_calm _ _ hq
  refine ⟨?_, ?_, ?_⟩
  · intro err h
    unfold ListUsers
    dsimp only
    rw [h]
  · intro h
    unfold ListUsers
    dsimp only
    rw [h]
    dsimp only
    unfold DB.findLoginInfo
    rw [hq1, hq2]
  · unfold ListUsers
    dsimp only
    rcases db.next.1 with _ | err <;> rfl

end persistence

/-- C7 (defect of the code): `SetUserRole` demotes a super admin when the lookup
of the role of the target fails. In the deployment of the fixture `boss` holds
`super_admin`. When the second statement that reaches the database, which is the
lookup of the role of the target, fails with an error of the driver, the call of the
super admin `root` for the target `boss` and the role `admin` returns nil; its trace
shows the failed lookup followed by `SetRole`; and `boss` resolves to `admin`
afterwards. When no statement fails the same call is refused with `ErrForbidden`. -/
theorem setUserRole_demotes_on_failed_lookup :
    (GetRole id "boss" fixture.db0.calm).1 = (RoleSuperAdmin, none) ∧
    (rbac.SetUserRole fixture.rbacUsecase "s-root" "boss" "admin"
      ⟨((), { fixture.db0 with faults := [none, some "connection lost"] }), []⟩).1 = none ∧
    (rbac.SetUserRole fixture.rbacUsecase "s-root" "boss" "admin"
      ⟨((), { fixture.db0 with faults := [none, some "connection lost"] }), []⟩).2.trace
      = [⟨.sessionsGet "s-root", none⟩, ⟨.usersGetRole "root", none⟩,
         ⟨.usersGetRole "boss", some (.foreign "connection lost")⟩,
         ⟨.usersSetRole "boss" "admin", none⟩] ∧
    (GetRole id "boss" (rbac.SetUserRole fixture.rbacUsecase "s-root" "boss" "admin"
      ⟨((), { fixture.db0 with faults := [none, some "connection lost"] }), []⟩).2.state.2.calm).1
      = (RoleAdmin, none) ∧
    (rbac.SetUserRole fixture.rbacUsecase "s-root" "boss" "admin" fixture.world0).1
      = some rbac.ErrForbidden := by
  decide

/-! ### OAuth completion -/

namespace auth

/-- The last part of the completion: its trace, its result on success, and that
it succeeds when none of its calls fails. -/
theorem saveSession_spec {σ : Type} (rand : RandReader σ) (u : Usecase σ)
    (tokens : TokenPair) (ttl : Int) (userID : String) (w : World σ) :
    ∃ rest, (CompleteOAuthToSession.saveSession rand u tokens ttl userID w).2.trace
        = w.trace ++ rest ∧
      (∀ e ∈ rest, e.call = .randRead 32 ∨
        ∃ sessionID, e.call = .sessionsSave sessionID ⟨userID, tokens⟩ ttl) ∧
      ((CompleteOAuthToSession.saveSession rand u tokens ttl userID w).1.2 = none →
        (CompleteOAuthToSession.saveSession rand u tokens ttl userID w).1.1.2 = userID) ∧
      (u.sessions ≠ none → (∀ e ∈ rest, e.err = none) →
        (CompleteOAuthToSession.saveSession rand u tokens ttl userID w).1.2 = none) := by
  unfold CompleteOAuthToSession.saveSession newSessionID
  rcases hr : (rand.Read 32 w.state).1.2 with _ | err
  · rcases hs : u.sessions with _ | sessions
    · refine ⟨[⟨.randRead 32, none⟩], ?_, ?_, ?_, ?_⟩
      · simp [World.call, hr]
      · simp
      · simp [World.call, hr]
      · simp
    · rcases hsv : (sessions.Save
          (base64.RawURLEncoding.EncodeToString (fillBuffer 32 (rand.Read 32 w.state).1.1))
          ⟨userID, tokens⟩ ttl (rand.Read 32 w.state).2).1 with _ | err
      · refine ⟨[⟨.randRead 32, none⟩, ⟨.sessionsSave (base64.RawURLEncoding.EncodeToString
            (fillBuffer 32 (rand.Read 32 w.state).1.1)) ⟨userID, tokens⟩ ttl, none⟩],
          ?_, ?_, ?_, ?_⟩
        · simp [World.call, World.callE, hr, hsv]
        · intro e he
          simp only [List.mem_cons, List.mem_singleton, List.not_mem_nil, or_false] at he
          rcases he with h | h <;> subst h
          · exact Or.inl rfl
          · exact Or.inr ⟨_, rfl⟩
        · simp [World.call, World.callE, hr, hsv]
        · simp [World.call, World.callE, hr, hsv]
      · refine ⟨[⟨.randRead 32, none⟩, ⟨.sessionsSave (base64.RawURLEncoding.EncodeToString
            (fillBuffer 32 (rand.Read 32 w.state).1.1)) ⟨userID, tokens⟩ ttl, some err⟩],
          ?_, ?_, ?_, ?_⟩
        · simp [World.call, World.callE, hr, hsv]
        · intro e he
          simp only [List.mem_cons, List.mem_singleton, List.not_mem_nil, or_false] at he
          rcases he with h | h <;> subst h
          · exact Or.inl rfl
          · exact Or.inr ⟨_, rfl⟩
        · simp [World.call, World.callE, hr, hsv]
        · intro _ h
          have := h ⟨.sessionsSave (base64.RawURLEncoding.EncodeToString
            (fillBuffer 32 (rand.Read 32 w.state).1.1)) ⟨userID, tokens⟩ ttl, some err⟩ (by simp)
          simp at this
  · refine ⟨[⟨.randRead 32, some err⟩], ?_, ?_, ?_, ?_⟩
    · simp [World.call, hr]
    · simp
    · simp [World.call, hr]
    · intro _ h
      have := h ⟨.randRead 32, some err⟩ (by simp)
      simp at this

end auth

namespace auth

/-- The completion from the resolved user id on: its trace, its result on success,
and that it succeeds when its ports are configured and none of its calls fails. -/
theorem withUser_spec {σ : Type} (table : Char → Char) (rand : RandReader σ) (u : Usecase σ)
    (tokens : TokenPair) (ttl : Int) (userID : String) (loginInfo : LoginInfo)
    (w : World σ) :
    ∃ rest, (CompleteOAuthToSession.withUser table rand u tokens ttl userID loginInfo w).2.trace
        = w.trace ++ rest ∧
      (∀ e ∈ rest, laterCall tokens ttl userID loginInfo e.call) ∧
      ((CompleteOAuthToSession.withUser table rand u tokens ttl userID loginInfo w).1.2 = none →
        (CompleteOAuthToSession.withUser table rand u tokens ttl userID loginInfo w).1.1.2
          = userID) ∧
      (u.users ≠ none → u.sessions ≠ none → (∀ e ∈ rest, e.err = none) →
        (CompleteOAuthToSession.withUser table rand u tokens ttl userID loginInfo w).1.2
          = none) := by
  have tail : ∀ (P : Prop) (w1 : World σ) (pre : List Event), w1.trace = w.trace ++ pre →
      (∀ e ∈ pre, laterCall tokens ttl userID loginInfo e.call ∧ e.err = none) →
      ∃ rest, (CompleteOAuthToSession.saveSession rand u tokens ttl userID w1).2.trace
          = w.trace ++ rest ∧
        (∀ e ∈ rest, laterCall tokens ttl userID loginInfo e.call) ∧
        ((CompleteOAuthToSession.saveSession rand u tokens ttl userID w1).1.2 = none →
          (CompleteOAuthToSession.saveSession rand u tokens ttl userID w1).1.1.2 = userID) ∧
        (P → u.sessions ≠ none → (∀ e ∈ rest, e.err = none) →
          (CompleteOAuthToSession.saveSession rand u tokens ttl userID w1).1.2 = none) := by
    intro P w1 pre hw1 hpre
    obtain ⟨rest, h1, h2, h3, h4⟩ := saveSession_spec rand u tokens ttl userID w1
    refine ⟨pre ++ rest, ?_, ?_, h3, ?_⟩
    · rw [h1, hw1, List.append_assoc]
    · intro e he
      rcases List.mem_append.mp he with h | h
      · exact (hpre e h).1
      · rcases h2 e h with h | h
        · exact Or.inr (Or.inr (Or.inr (Or.inl h)))
        · exact Or.inr (Or.inr (Or.inr (Or.inr h)))
    · intro _ hs hall
      exact h4 hs (fun e he => hall e (List.mem_append.mpr (Or.inr he)))
  have stop : ∀ (P : Prop) (pre : List Event) (bad : Event) (err : GoError) (w1 : World σ),
      w1.trace = w.trace ++ (pre ++ [bad]) → bad.err = some err →
      (∀ e ∈ pre ++ [bad], laterCall tokens ttl userID loginInfo e.call) →
      ∃ rest, ((((("", "") : String × String), some err), w1) :
            ((String × String) × Option GoError) × World σ).2.trace = w.trace ++ rest ∧
        (∀ e ∈ rest, laterCall tokens ttl userID loginInfo e.call) ∧
        ((some err : Option GoError) = none → ("" : String) = userID) ∧
        (P → u.sessions ≠ none → (∀ e ∈ rest, e.err = none) →
          (some err : Option GoError) = none) := by
    intro P pre bad err w1 hw1 hbad hcalls
    refine ⟨pre ++ [bad], hw1, hcalls, ?_, ?_⟩
    · intro h; exact absurd h (by simp)
    · intro _ _ hall
      have := hall bad (by simp)
      rw [hbad] at this
      exact this
  unfold CompleteOAuthToSession.withUser
  rcases hu : u.users with _ | users
  · exact ⟨[], by simp, by simp, by simp, by simp [hu]⟩
  · simp only
    rcases he : (users.EnsureExists userID w.state).1 with _ | err
    · have hE : (w.callE (.usersEnsureExists userID) (users.EnsureExists userID)).1 = none := he
      rw [hE]
      simp only
      by_cases hli : loginInfo.UserID ≠ ""
      · rw [if_pos hli]
        rcases hs : (users.SaveLoginInfo loginInfo
            (users.EnsureExists userID w.state).2).1 with _ | err
        · have hS : ((w.callE (.usersEnsureExists userID) (users.EnsureExists userID)).2.callE
              (.usersSaveLoginInfo loginInfo) (users.SaveLoginInfo loginInfo)).1 = none := hs
          rw [hS]
          simp only
          by_cases hsa : isSuperAdminByLoginInfo table u loginInfo = true
          · rw [if_pos hsa]
            rcases ht : (users.SetRole userID RoleSuperAdmin (users.SaveLoginInfo loginInfo
                (users.EnsureExists userID w.state).2).2).1 with _ | err
            · have hT : (((w.callE (.usersEnsureExists userID)
                  (users.EnsureExists userID)).2.callE
                  (.usersSaveLoginInfo loginInfo) (users.SaveLoginInfo loginInfo)).2.callE
                  (.usersSetRole userID RoleSuperAdmin)
                  (users.SetRole userID RoleSuperAdmin)).1 = none := ht
              rw [hT]
              simp only
              refine tail _ _ [⟨.usersEnsureExists userID, none⟩,
                  ⟨.usersSaveLoginInfo loginInfo, none⟩,
                  ⟨.usersSetRole userID RoleSuperAdmin, none⟩]
                ?_ (by simp [laterCall])
              simp [World.callE, he, hs, ht]
            · have hT : (((w.callE (.usersEnsureExists userID)
                  (users.EnsureExists userID)).2.callE
                  (.usersSaveLoginInfo loginInfo) (users.SaveLoginInfo loginInfo)).2.callE
                  (.usersSetRole userID RoleSuperAdmin)
                  (users.SetRole userID RoleSuperAdmin)).1 = some err := ht
              rw [hT]
              simp only
              refine stop _ [⟨.usersEnsureExists userID, none⟩,
                  ⟨.usersSaveLoginInfo loginInfo, none⟩]
                ⟨.usersSetRole userID RoleSuperAdmin, some err⟩ err _
                ?_ rfl (by simp [laterCall])
              simp [World.callE, he, hs, ht]
          · rw [if_neg hsa]
            refine tail _ _ [⟨.usersEnsureExists userID, none⟩,
                ⟨.usersSaveLoginInfo loginInfo, none⟩]
              ?_ (by simp [laterCall])
            simp [World.callE, he, hs]
        · have hS : ((w.callE (.usersEnsureExists userID) (users.EnsureExists userID)).2.callE
              (.usersSaveLoginInfo loginInfo) (users.SaveLoginInfo loginInfo)).1 = some err := hs
          rw [hS]
          simp only
          refine stop _ [⟨.usersEnsureExists userID, none⟩]
            ⟨.usersSaveLoginInfo loginInfo, some err⟩ err _
            ?_ rfl (by simp [laterCall])
          simp [World.callE, he, hs]
      · rw [if_neg hli]
        refine tail _ _ [⟨.usersEnsureExists userID, none⟩]
          ?_ (by simp [laterCall])
        simp [World.callE, he]
    · have hE : (w.callE (.usersEnsureExists userID) (users.EnsureExists userID)).1
          = some err := he
      rw [hE]
      simp only
      refine stop _ [] ⟨.usersEnsureExists userID, some err⟩ err _
        ?_ rfl (by simp [laterCall])
      simp [World.callE, he]

end auth

/-- The calls of `laterCall` are calls on the user repository, on the session
store, or the reading of 32 random bytes; none is a call of the extractor. -/
theorem auth.laterCall_kind {tokens : TokenPair} {ttl : Int} {userID : String}
    {loginInfo : LoginInfo} {c : Call} (h : auth.laterCall tokens ttl userID loginInfo c) :
    (c.isUsers = true ∨ c.isSessions = true ∨ c = .randRead 32) ∧
    (∀ tok, c ≠ .uidsExtractUserID tok) ∧
    (∀ uid, c = .usersEnsureExists uid → uid = userID) ∧
    (∀ sessionID session ttl2, c = .sessionsSave sessionID session ttl2 →
      session.UserID = userID) := by
  rcases h with h | h | h | h | ⟨sid, h⟩ <;> subst h <;>
    simp [Call.isUsers, Call.isSessions]

/-- The completion does not read the field `uids` once the user id is resolved. -/
theorem auth.withUser_uids {σ : Type} (table : Char → Char) (rand : RandReader σ)
    (u : auth.Usecase σ) (uids : Option (auth.UIDExtractor σ))
    (tokens : TokenPair) (ttl : Int) (userID : String) (loginInfo : LoginInfo)
    (w : World σ) :
    auth.CompleteOAuthToSession.withUser table rand { u with uids := uids } tokens ttl userID
        loginInfo w
      = auth.CompleteOAuthToSession.withUser table rand u tokens ttl userID loginInfo w := by
  rfl

/-- C8: when `LoginByOAuth` succeeds and `GetCurrentUserLoginInfo` returns no error
and a login info with a non-empty `UserID`, then `CompleteOAuthToSession` makes no
call of `ExtractUserID`, its result and world are the same whatever the field `uids`
holds (an extractor or `nil`), and the user id it goes on with is the `UserID` of the
login info: it is the one passed to `EnsureExists`, stored in the saved session and
returned on success. -/
theorem completeOAuth_authoritative_identity {σ : Type} (table : Char → Char)
    (rand : RandReader σ) (u : auth.Usecase σ) (code state : String) (ttl : Int)
    (w : World σ) :
    let r := w.call (.gatewayLoginByOAuth code state) (u.gateway.LoginByOAuth code state)
    let li := r.2.call (.gatewayGetCurrentUserLoginInfo r.1.1.AccessToken.Value)
      (u.gateway.GetCurrentUserLoginInfo r.1.1.AccessToken.Value)
    let res := auth.CompleteOAuthToSession table rand u code state ttl w
    r.1.2 = none → li.1.2 = none → li.1.1.UserID ≠ "" →
    (∀ e ∈ World.since w res.2, ∀ tok, e.call ≠ .uidsExtractUserID tok) ∧
    (∀ uids, auth.CompleteOAuthToSession table rand { u with uids := uids } code state ttl w
      = res) ∧
    res = auth.CompleteOAuthToSession.withUser table rand u r.1.1 ttl li.1.1.UserID li.1.1 li.2 ∧
    (res.1.2 = none → res.1.1.2 = li.1.1.UserID) ∧
    (∀ e ∈ World.since w res.2,
      (∀ uid, e.call = .usersEnsureExists uid → uid = li.1.1.UserID) ∧
      (∀ sessionID session ttl2, e.call = .sessionsSave sessionID session ttl2 →
        session.UserID = li.1.1.UserID)) := by
  intro r li res hr hli hid
  have hbody : ∀ uids, auth.CompleteOAuthToSession table rand { u with uids := uids }
      code state ttl w
      = auth.CompleteOAuthToSession.withUser table rand u r.1.1 ttl li.1.1.UserID li.1.1 li.2 := by
    intro uids
    rw [← auth.withUser_uids table rand u uids]
    simp only [auth.CompleteOAuthToSession]
    show (match r.1.2 with
      | some err => _
      | none => _) = _
    rw [hr]
    show (if li.1.2 = none ∧ li.1.1.UserID ≠ "" then _ else _) = _
    rw [if_pos ⟨hli, hid⟩]
  have hres : res
      = auth.CompleteOAuthToSession.withUser table rand u r.1.1 ttl li.1.1.UserID li.1.1 li.2 :=
    hbody u.uids
  obtain ⟨rest, htrace, hcalls, huser, -⟩ :=
    auth.withUser_spec table rand u r.1.1 ttl li.1.1.UserID li.1.1 li.2
  have hsince : World.since w res.2
      = [⟨.gatewayLoginByOAuth code state, (u.gateway.LoginByOAuth code state w.state).1.2⟩,
         ⟨.gatewayGetCurrentUserLoginInfo r.1.1.AccessToken.Value,
           (u.gateway.GetCurrentUserLoginInfo r.1.1.AccessToken.Value r.2.state).1.2⟩]
        ++ rest := by
    rw [World.since, hres, htrace]
    simp [li, r, World.call]
  have hev : ∀ e ∈ World.since w res.2,
      (∀ tok, e.call ≠ .uidsExtractUserID tok) ∧
      (∀ uid, e.call = .usersEnsureExists uid → uid = li.1.1.UserID) ∧
      (∀ sessionID session ttl2, e.call = .sessionsSave sessionID session ttl2 →
        session.UserID = li.1.1.UserID) := by
    intro e he
    rw [hsince] at he
    rcases List.mem_append.mp he with h | h
    · simp only [List.mem_cons, List.mem_singleton, List.not_mem_nil, or_false] at h
      rcases h with h | h <;> subst h <;> simp
    · exact (auth.laterCall_kind (hcalls e h)).2
  refine ⟨fun e he => (hev e he).1, ?_, hres, ?_, fun e he => (hev e he).2⟩
  · intro uids
    rw [hbody uids, hres]
  · rw [hres]
    exact huser

/-- The completion when the gateway gives login info with a non-empty user id. -/
theorem auth.completeOAuth_authoritative_body {σ : Type} (table : Char → Char)
    (rand : RandReader σ) (u : auth.Usecase σ) (code state : String) (ttl : Int)
    (w : World σ) :
    let r := w.call (.gatewayLoginByOAuth code state) (u.gateway.LoginByOAuth code state)
    let li := r.2.call (.gatewayGetCurrentUserLoginInfo r.1.1.AccessToken.Value)
      (u.gateway.GetCurrentUserLoginInfo r.1.1.AccessToken.Value)
    r.1.2 = none → li.1.2 = none → li.1.1.UserID ≠ "" →
    auth.CompleteOAuthToSession table rand u code state ttl w
      = auth.CompleteOAuthToSession.withUser table rand u r.1.1 ttl li.1.1.UserID li.1.1 li.2 := by
  intro r li hr hli hid
  simp only [auth.CompleteOAuthToSession]
  show (match r.1.2 with
    | some err => _
    | none => _) = _
  rw [hr]
  show (if li.1.2 = none ∧ li.1.1.UserID ≠ "" then _ else _) = _
  rw [if_pos ⟨hli, hid⟩]

/-- The completion when the gateway gives no usable login info. -/
theorem auth.completeOAuth_fallback_body {σ : Type} (table : Char → Char)
    (rand : RandReader σ) (u : auth.Usecase σ) (code state : String) (ttl : Int)
    (w : World σ) :
    let r := w.call (.gatewayLoginByOAuth code state) (u.gateway.LoginByOAuth code state)
    let li := r.2.call (.gatewayGetCurrentUserLoginInfo r.1.1.AccessToken.Value)
      (u.gateway.GetCurrentUserLoginInfo r.1.1.AccessToken.Value)
    r.1.2 = none → ¬ (li.1.2 = none ∧ li.1.1.UserID ≠ "") →
    auth.CompleteOAuthToSession table rand u code state ttl w
      = match u.uids with
        | none => ((("", ""), some (.errorsNew "uid extractor is not configured")), li.2)
        | some uids =>
          let x := li.2.call (.uidsExtractUserID r.1.1.AccessToken.Value)
            (uids.ExtractUserID r.1.1.AccessToken.Value)
          match x.1.2 with
          | some err => ((("", ""), some err), x.2)
          | none =>
            if x.1.1 = "" then ((("", ""), some (.errorsNew "empty user id")), x.2)
            else
              auth.CompleteOAuthToSession.withUser table rand u r.1.1 ttl x.1.1
                LoginInfo.zero x.2 := by
  intro r li hr hnot
  simp only [auth.CompleteOAuthToSession]
  show (match r.1.2 with
    | some err => _
    | none => _) = _
  rw [hr]
  show (if li.1.2 = none ∧ li.1.1.UserID ≠ "" then _ else _) = _
  rw [if_neg hnot]

/-- The completion fails when the token exchange fails. -/
theorem auth.completeOAuth_login_failed {σ : Type} (table : Char → Char)
    (rand : RandReader σ) (u : auth.Usecase σ) (code state : String) (ttl : Int)
    (w : World σ)
    (h : (u.gateway.LoginByOAuth code state w.state).1.2 ≠ none) :
    (auth.CompleteOAuthToSession table rand u code state ttl w).1.2 ≠ none := by
  obtain ⟨err, he⟩ := Option.ne_none_iff_exists'.mp h
  have he2 : (w.call (.gatewayLoginByOAuth code state)
      (u.gateway.LoginByOAuth code state)).1.2 = some err := he
  simp only [auth.CompleteOAuthToSession]
  rw [he2]
  simp

/-- C9: when `LoginByOAuth` succeeds and `GetCurrentUserLoginInfo` returns an error
or an empty `UserID`, the user repository and the session store are configured, and
no call of this run on the user repository, on the session store or on the random
source (which makes the session id) returns an error: the completion succeeds if and
only if an extractor is configured and returns a non-empty id without error, and on
success the user id returned is the extracted one. -/
theorem completeOAuth_fallback_identity {σ : Type} (table : Char → Char)
    (rand : RandReader σ) (u : auth.Usecase σ) (code state : String) (ttl : Int)
    (w : World σ) :
    let r := w.call (.gatewayLoginByOAuth code state) (u.gateway.LoginByOAuth code state)
    let li := r.2.call (.gatewayGetCurrentUserLoginInfo r.1.1.AccessToken.Value)
      (u.gateway.GetCurrentUserLoginInfo r.1.1.AccessToken.Value)
    let res := auth.CompleteOAuthToSession table rand u code state ttl w
    r.1.2 = none → (li.1.2 ≠ none ∨ li.1.1.UserID = "") →
    u.users ≠ none → u.sessions ≠ none →
    (∀ e ∈ World.since w res.2,
      (e.call.isUsers = true ∨ e.call.isSessions = true ∨ e.call = .randRead 32) →
      e.err = none) →
    (res.1.2 = none ↔
      ∃ x, u.uids = some x ∧
        (x.ExtractUserID r.1.1.AccessToken.Value li.2.state).1.2 = none ∧
        (x.ExtractUserID r.1.1.AccessToken.Value li.2.state).1.1 ≠ "") ∧
    (res.1.2 = none →
      ∃ x, u.uids = some x ∧
        res.1.1.2 = (x.ExtractUserID r.1.1.AccessToken.Value li.2.state).1.1) := by
  intro r li res hr hli husers hsessions hsteps
  have hnot : ¬ (li.1.2 = none ∧ li.1.1.UserID ≠ "") := by
    rintro ⟨h1, h2⟩
    rcases hli with h | h
    · exact h h1
    · exact h2 h
  have hbody : res = match u.uids with
      | none => ((("", ""), some (.errorsNew "uid extractor is not configured")), li.2)
      | some uids =>
        let x := li.2.call (.uidsExtractUserID r.1.1.AccessToken.Value)
          (uids.ExtractUserID r.1.1.AccessToken.Value)
        match x.1.2 with
        | some err => ((("", ""), some err), x.2)
        | none =>
          if x.1.1 = "" then ((("", ""), some (.errorsNew "empty user id")), x.2)
          else
            auth.CompleteOAuthToSession.withUser table rand u r.1.1 ttl x.1.1
              LoginInfo.zero x.2 := by
    simp only [res, auth.CompleteOAuthToSession]
    show (match r.1.2 with
      | some err => _
      | none => _) = _
    rw [hr]
    show (if li.1.2 = none ∧ li.1.1.UserID ≠ "" then _ else _) = _
    rw [if_neg hnot]
  rcases hx : u.uids with _ | uids
  · rw [hx] at hbody
    rw [hbody]
    simp
  · rw [hx] at hbody
    simp only at hbody
    rcases he : (uids.ExtractUserID r.1.1.AccessToken.Value li.2.state).1.2 with _ | err
    · have he2 : (li.2.call (.uidsExtractUserID r.1.1.AccessToken.Value)
          (uids.ExtractUserID r.1.1.AccessToken.Value)).1.2 = none := he
      rw [he2] at hbody
      simp only at hbody
      by_cases hempty : (uids.ExtractUserID r.1.1.AccessToken.Value li.2.state).1.1 = ""
      · have hempty2 : (li.2.call (.uidsExtractUserID r.1.1.AccessToken.Value)
            (uids.ExtractUserID r.1.1.AccessToken.Value)).1.1 = "" := hempty
        rw [if_pos hempty2] at hbody
        rw [hbody]
        simp [hempty]
      · have hempty2 : ¬ (li.2.call (.uidsExtractUserID r.1.1.AccessToken.Value)
            (uids.ExtractUserID r.1.1.AccessToken.Value)).1.1 = "" := hempty
        rw [if_neg hempty2] at hbody
        obtain ⟨rest, htrace, hcalls, huser, hsucc⟩ :=
          auth.withUser_spec table rand u r.1.1 ttl
            (li.2.call (.uidsExtractUserID r.1.1.AccessToken.Value)
              (uids.ExtractUserID r.1.1.AccessToken.Value)).1.1 LoginInfo.zero
            (li.2.call (.uidsExtractUserID r.1.1.AccessToken.Value)
              (uids.ExtractUserID r.1.1.AccessToken.Value)).2
        have hsince : ∀ e ∈ rest, e ∈ World.since w res.2 := by
          intro e he
          rw [World.since, hbody, htrace]
          simp [li, r, World.call, he]
        have hok : res.1.2 = none := by
          rw [hbody]
          apply hsucc husers hsessions
          intro e he
          exact hsteps e (hsince e he) (auth.laterCall_kind (hcalls e he)).1
        refine ⟨⟨fun _ => ⟨uids, rfl, he, hempty⟩, fun _ => hok⟩, fun _ => ⟨uids, rfl, ?_⟩⟩
        rw [hbody]
        rw [hbody] at hok
        exact huser hok
    · have he2 : (li.2.call (.uidsExtractUserID r.1.1.AccessToken.Value)
          (uids.ExtractUserID r.1.1.AccessToken.Value)).1.2 = some err := he
      rw [he2] at hbody
      simp only at hbody
      rw [hbody]
      simp [he]

/-! ### Promotion to super admin at login -/

namespace auth

/-- Membership in the set that `New` builds from the configured addresses. -/
theorem mem_emailSet (table : Char → Char) (emails : List String) (acc : List String)
    (x : String) :
    x ∈ emails.foldl
        (fun set e =>
          let e := strings.ToLower table (strings.TrimSpace e)
          if e = "" then set else if e ∈ set then set else set ++ [e]) acc
      ↔ x ∈ acc ∨ (x ≠ "" ∧ ∃ e ∈ emails, strings.ToLower table (strings.TrimSpace e) = x) := by
  induction emails generalizing acc with
  | nil => simp
  | cons a l ih =>
    rw [List.foldl_cons, ih]
    by_cases h1 : strings.ToLower table (strings.TrimSpace a) = ""
    · simp only [h1, if_true]
      constructor
      · rintro (h | ⟨hx, e, he, hee⟩)
        · exact Or.inl h
        · exact Or.inr ⟨hx, e, List.mem_cons_of_mem _ he, hee⟩
      · rintro (h | ⟨hx, e, he, hee⟩)
        · exact Or.inl h
        · rcases List.mem_cons.mp he with h | h
          · subst h
            rw [h1] at hee
            exact absurd hee.symm hx
          · exact Or.inr ⟨hx, e, h, hee⟩
    · by_cases h2 : strings.ToLower table (strings.TrimSpace a) ∈ acc
      · simp only [h1, if_false, h2, if_true]
        constructor
        · rintro (h | ⟨hx, e, he, hee⟩)
          · exact Or.inl h
          · exact Or.inr ⟨hx, e, List.mem_cons_of_mem _ he, hee⟩
        · rintro (h | ⟨hx, e, he, hee⟩)
          · exact Or.inl h
          · rcases List.mem_cons.mp he with h | h
            · subst h
              rw [hee] at h2
              exact Or.inl h2
            · exact Or.inr ⟨hx, e, h, hee⟩
      · simp only [h1, if_false, h2]
        constructor
        · rintro (h | ⟨hx, e, he, hee⟩)
          · rcases List.mem_append.mp h with h | h
            · exact Or.inl h
            · rw [List.mem_singleton] at h
              refine Or.inr ⟨?_, a, List.mem_cons_self _ _, h.symm⟩
              rw [h]; exact h1
          · exact Or.inr ⟨hx, e, List.mem_cons_of_mem _ he, hee⟩
        · rintro (h | ⟨hx, e, he, hee⟩)
          · exact Or.inl (List.mem_append.mpr (Or.inl h))
          · rcases List.mem_cons.mp he with h | h
            · subst h
              exact Or.inl (List.mem_append.mpr (Or.inr (by rw [List.mem_singleton, hee])))
            · exact Or.inr ⟨hx, e, h, hee⟩

/-- The check of the allow-list on a use case built by `New`: the trimmed,
lower-cased address is not empty and is the trimmed, lower-cased form of a
configured address. -/
theorem isSuperAdminByLoginInfo_new {σ : Type} (table : Char → Char)
    (gateway : OAuthGateway σ) (sessions : Option (SessionStore σ))
    (uids : Option (UIDExtractor σ)) (users : Option (UserRepository σ))
    (emails : List String) (info : LoginInfo) :
    isSuperAdminByLoginInfo table (New table gateway sessions uids users emails) info = true
      ↔ strings.ToLower table (strings.TrimSpace info.Email) ≠ "" ∧
        ∃ e ∈ emails, strings.ToLower table (strings.TrimSpace e)
          = strings.ToLower table (strings.TrimSpace info.Email) := by
  have hmem := mem_emailSet table emails [] (strings.ToLower table (strings.TrimSpace info.Email))
  simp only [List.not_mem_nil, false_or] at hmem
  unfold isSuperAdminByLoginInfo
  simp only [New]
  split
  · rename_i hlen
    have hnil := List.length_eq_zero.mp hlen
    rw [hnil] at hmem
    simp only [List.not_mem_nil, false_iff] at hmem
    simp only [Bool.false_eq_true, false_iff]
    exact hmem
  · split
    · rename_i hempty
      simp [hempty]
    · rename_i hne
      rw [decide_eq_true_iff, hmem]

end auth

/-- The last part of the completion leaves the database as it is. -/
theorem auth.saveSession_db {S : Type} (rand : RandReader S) (u : auth.Usecase (S × DB))
    (sessions : Option (auth.SessionStore S)) (hs : u.sessions = sessions.map liftSessions)
    (tokens : TokenPair) (ttl : Int) (userID : String) (w : World (S × DB)) :
    (auth.CompleteOAuthToSession.saveSession (liftRand rand) u tokens ttl userID w).2.state.2
      = w.state.2 := by
  have hn : (auth.newSessionID (liftRand rand) w).2.state.2 = w.state.2 := by
    unfold auth.newSessionID
    dsimp only
    split <;> rfl
  unfold auth.CompleteOAuthToSession.saveSession
  rw [hs]
  dsimp only
  split
  · exact hn
  · rcases sessions with _ | ss
    · exact hn
    · dsimp only [Option.map]
      split <;> exact hn

/-- The completion from the resolved user id on, over the relational repository,
when it succeeds: `EnsureExists` reported no error; with login info of a super
admin `SetRole` was called without error and the database is the one it left;
otherwise `SetRole` is not called and the user table is the one `EnsureExists` left. -/
theorem auth.withUser_db {S : Type} (table : Char → Char) (rand : RandReader S)
    (u : auth.Usecase (S × DB)) (sessions : Option (auth.SessionStore S))
    (hu : u.users = some (authUsers S table)) (hs : u.sessions = sessions.map liftSessions)
    (tokens : TokenPair) (ttl : Int) (userID : String) (loginInfo : LoginInfo)
    (w : World (S × DB)) :
    let res := auth.CompleteOAuthToSession.withUser table (liftRand rand) u tokens ttl userID
      loginInfo w
    res.1.2 = none →
    (EnsureExists userID w.state.2).1 = none ∧
    (loginInfo.UserID ≠ "" ∧ auth.isSuperAdminByLoginInfo table u loginInfo = true →
      (⟨.usersSetRole userID RoleSuperAdmin, none⟩ : Event) ∈ World.since w res.2 ∧
      (SetRole userID RoleSuperAdmin
        (SaveLoginInfo loginInfo (EnsureExists userID w.state.2).2).2).1 = none ∧
      res.2.state.2 = (SetRole userID RoleSuperAdmin
        (SaveLoginInfo loginInfo (EnsureExists userID w.state.2).2).2).2) ∧
    (¬ (loginInfo.UserID ≠ "" ∧ auth.isSuperAdminByLoginInfo table u loginInfo = true) →
      (∀ e ∈ World.since w res.2, e.call.isSetRole = false) ∧
      res.2.state.2.user_models = (EnsureExists userID w.state.2).2.user_models) := by
  intro res hok
  have tail : ∀ (w1 : World (S × DB)) (pre : List Event), w1.trace = w.trace ++ pre →
      World.since w (auth.CompleteOAuthToSession.saveSession (liftRand rand) u tokens ttl
        userID w1).2 = pre ++ World.since w1 (auth.CompleteOAuthToSession.saveSession
          (liftRand rand) u tokens ttl userID w1).2 ∧
      (∀ e ∈ World.since w1 (auth.CompleteOAuthToSession.saveSession
          (liftRand rand) u tokens ttl userID w1).2, e.call.isSetRole = false) ∧
      (auth.CompleteOAuthToSession.saveSession (liftRand rand) u tokens ttl userID w1).2.state.2
        = w1.state.2 := by
    intro w1 pre hw1
    obtain ⟨rest, h1, h2, -, -⟩ := auth.saveSession_spec (liftRand rand) u tokens ttl userID w1
    refine ⟨?_, ?_, auth.saveSession_db rand u sessions hs tokens ttl userID w1⟩
    · simp [World.since, h1, hw1]
    · intro e he
      simp only [World.since, h1, List.drop_left] at he
      rcases h2 e he with h | ⟨sid, h⟩ <;> rw [h] <;> rfl
  -- `EnsureExists` did not fail
  have hE : (w.callE (.usersEnsureExists userID) ((authUsers S table).EnsureExists userID)).1
      = none := by
    rcases hc : (w.callE (.usersEnsureExists userID)
        ((authUsers S table).EnsureExists userID)).1 with _ | err
    · rfl
    · exfalso
      have : res.1.2 = some err := by
        simp only [res, auth.CompleteOAuthToSession.withUser, hu, hc]
      rw [this] at hok
      exact absurd hok (by simp)
  have hE2 : (EnsureExists userID w.state.2).1 = none := hE
  refine ⟨hE2, ?_⟩
  by_cases hli : loginInfo.UserID ≠ ""
  · -- the login info is saved
    have hS : ((w.callE (.usersEnsureExists userID)
        ((authUsers S table).EnsureExists userID)).2.callE
        (.usersSaveLoginInfo loginInfo) ((authUsers S table).SaveLoginInfo loginInfo)).1
        = none := by
      rcases hc : ((w.callE (.usersEnsureExists userID)
          ((authUsers S table).EnsureExists userID)).2.callE
          (.usersSaveLoginInfo loginInfo) ((authUsers S table).SaveLoginInfo loginInfo)).1
          with _ | err
      · rfl
      · exfalso
        have : res.1.2 = some err := by
          simp only [res, auth.CompleteOAuthToSession.withUser, hu, hE, if_pos hli, hc]
        rw [this] at hok
        exact absurd hok (by simp)
    have hS2 : (SaveLoginInfo loginInfo (EnsureExists userID w.state.2).2).1 = none := hS
    by_cases hsa : auth.isSuperAdminByLoginInfo table u loginInfo = true
    · have hT : (((w.callE (.usersEnsureExists userID)
          ((authUsers S table).EnsureExists userID)).2.callE
          (.usersSaveLoginInfo loginInfo) ((authUsers S table).SaveLoginInfo loginInfo)).2.callE
          (.usersSetRole userID RoleSuperAdmin)
          ((authUsers S table).SetRole userID RoleSuperAdmin)).1 = none := by
        rcases hc : (((w.callE (.usersEnsureExists userID)
            ((authUsers S table).EnsureExists userID)).2.callE
            (.usersSaveLoginInfo loginInfo) ((authUsers S table).SaveLoginInfo loginInfo)).2.callE
            (.usersSetRole userID RoleSuperAdmin)
            ((authUsers S table).SetRole userID RoleSuperAdmin)).1 with _ | err
        · rfl
        · exfalso
          have : res.1.2 = some err := by
            simp only [res, auth.CompleteOAuthToSession.withUser, hu, hE, if_pos hli, hS, hsa,
              if_true, hc]
          rw [this] at hok
          exact absurd hok (by simp)
      have hT2 : (SetRole userID RoleSuperAdmin
          (SaveLoginInfo loginInfo (EnsureExists userID w.state.2).2).2).1 = none := hT
      have hres : res = auth.CompleteOAuthToSession.saveSession (liftRand rand) u tokens ttl
          userID (((w.callE (.usersEnsureExists userID)
            ((authUsers S table).EnsureExists userID)).2.callE
            (.usersSaveLoginInfo loginInfo) ((authUsers S table).SaveLoginInfo loginInfo)).2.callE
            (.usersSetRole userID RoleSuperAdmin)
            ((authUsers S table).SetRole userID RoleSuperAdmin)).2 := by
        simp only [res, auth.CompleteOAuthToSession.withUser, hu, hE, if_pos hli, hS, hsa,
          if_true, hT]
      obtain ⟨t1, -, t3⟩ := tail (((w.callE (.usersEnsureExists userID)
            ((authUsers S table).EnsureExists userID)).2.callE
            (.usersSaveLoginInfo loginInfo) ((authUsers S table).SaveLoginInfo loginInfo)).2.callE
            (.usersSetRole userID RoleSuperAdmin)
            ((authUsers S table).SetRole userID RoleSuperAdmin)).2
          [⟨.usersEnsureExists userID, none⟩, ⟨.usersSaveLoginInfo loginInfo, none⟩,
            ⟨.usersSetRole userID RoleSuperAdmin, none⟩]
          (by simp [World.callE, authUsers, onDB, hE2, hS2, hT2])
      refine ⟨fun _ => ⟨?_, hT2, ?_⟩, fun hn => absurd ⟨hli, hsa⟩ hn⟩
      · rw [hres, t1]
        simp
      · rw [hres, t3]
        rfl
    · have hres : res = auth.CompleteOAuthToSession.saveSession (liftRand rand) u tokens ttl
          userID ((w.callE (.usersEnsureExists userID)
            ((authUsers S table).EnsureExists userID)).2.callE
            (.usersSaveLoginInfo loginInfo) ((authUsers S table).SaveLoginInfo loginInfo)).2 := by
        simp only [res, auth.CompleteOAuthToSession.withUser, hu, hE, if_pos hli, hS, hsa]
        rfl
      obtain ⟨t1, t2, t3⟩ := tail ((w.callE (.usersEnsureExists userID)
            ((authUsers S table).EnsureExists userID)).2.callE
            (.usersSaveLoginInfo loginInfo) ((authUsers S table).SaveLoginInfo loginInfo)).2
          [⟨.usersEnsureExists userID, none⟩, ⟨.usersSaveLoginInfo loginInfo, none⟩]
          (by simp [World.callE, authUsers, onDB, hE2, hS2])
      refine ⟨fun h => absurd h.2 hsa, fun _ => ⟨?_, ?_⟩⟩
      · intro e he
        rw [hres, t1] at he
        rcases List.mem_append.mp he with h | h
        · simp only [List.mem_cons, List.mem_singleton, List.not_mem_nil, or_false] at h
          rcases h with h | h <;> subst h <;> rfl
        · exact t2 e h
      · rw [hres, t3]
        exact saveLoginInfo_users loginInfo _
  · have hres : res = auth.CompleteOAuthToSession.saveSession (liftRand rand) u tokens ttl
        userID (w.callE (.usersEnsureExists userID)
          ((authUsers S table).EnsureExists userID)).2 := by
      simp only [res, auth.CompleteOAuthToSession.withUser, hu, hE, if_neg hli]
    obtain ⟨t1, t2, t3⟩ := tail (w.callE (.usersEnsureExists userID)
          ((authUsers S table).EnsureExists userID)).2
        [⟨.usersEnsureExists userID, none⟩]
        (by simp [World.callE, authUsers, onDB, hE2])
    refine ⟨fun h => absurd h.1 hli, fun _ => ⟨?_, ?_⟩⟩
    · intro e he
      rw [hres, t1] at he
      rcases List.mem_append.mp he with h | h
      · simp only [List.mem_cons, List.mem_singleton, List.not_mem_nil, or_false] at h
        subst h; rfl
      · exact t2 e h
    · rw [hres, t3]
      rfl

/-- The roles after a completion that succeeded, from the resolved user id on, seen
from a world `w` whose rows are those the completion starts from. -/
theorem auth.withUser_roles {S : Type} (table : Char → Char) (rand : RandReader S)
    (u : auth.Usecase (S × DB)) (sessions : Option (auth.SessionStore S))
    (hu : u.users = some (authUsers S table)) (hs : u.sessions = sessions.map liftSessions)
    (tokens : TokenPair) (ttl : Int) (userID : String) (loginInfo : LoginInfo)
    (w w1 : World (S × DB)) (pre : List Event)
    (hdb : w1.state.2 = w.state.2) (htrace : w1.trace = w.trace ++ pre)
    (hpre : ∀ e ∈ pre, e.call.isSetRole = false) (hid : userID ≠ "") :
    let res := auth.CompleteOAuthToSession.withUser table (liftRand rand) u tokens ttl userID
      loginInfo w1
    res.1.2 = none →
    (loginInfo.UserID ≠ "" ∧ auth.isSuperAdminByLoginInfo table u loginInfo = true →
      (⟨.usersSetRole userID RoleSuperAdmin, none⟩ : Event) ∈ World.since w res.2 ∧
      (GetRole table userID res.2.state.2.calm).1 = (RoleSuperAdmin, none) ∧
      (GetMe table userID res.2.state.2.calm).1.1.Role = RoleSuperAdmin) ∧
    (¬ (loginInfo.UserID ≠ "" ∧ auth.isSuperAdminByLoginInfo table u loginInfo = true) →
      (∀ e ∈ World.since w res.2, e.call.isSetRole = false) ∧
      (GetMe table userID res.2.state.2.calm).1.1.Role
        = (GetMe table userID w.state.2.calm).1.1.Role ∧
      ((GetRole table userID w.state.2.calm).1.2 = none →
        (GetRole table userID res.2.state.2.calm).1 = (GetRole table userID w.state.2.calm).1) ∧
      ((GetRole table userID w.state.2.calm).1.2 ≠ none →
        (GetRole table userID res.2.state.2.calm).1 = (RoleUser, none))) := by
  intro res hok
  obtain ⟨rest, hrest, -, -, -⟩ := auth.withUser_spec table (liftRand rand) u tokens ttl userID
    loginInfo w1
  have hsince1 : World.since w1 res.2 = rest := by
    simp [World.since, res, hrest]
  have hsince : World.since w res.2 = pre ++ rest := by
    simp [World.since, res, hrest, htrace]
  obtain ⟨hE, hyes, hno⟩ := auth.withUser_db table rand u sessions hu hs tokens ttl userID
    loginInfo w1 hok
  rw [hdb] at hE
  constructor
  · intro h
    obtain ⟨h1, h2, h3⟩ := hyes h
    have hrole : (GetRole table userID res.2.state.2.calm).1 = (RoleSuperAdmin, none) := by
      rw [h3]
      exact getRole_setRole_self table userID RoleSuperAdmin _ hid h2 (Or.inr (Or.inr rfl))
    refine ⟨?_, hrole, getMe_role_of_getRole table userID _ _ hrole⟩
    rw [hsince]
    rw [hsince1] at h1
    exact List.mem_append.mpr (Or.inr h1)
  · intro h
    obtain ⟨h1, h2⟩ := hno h
    rw [hdb] at h2
    have hfind : res.2.state.2.findUser userID
        = (EnsureExists userID w.state.2).2.findUser userID := by
      unfold DB.findUser
      rw [h2]
    refine ⟨?_, ?_, ?_, ?_⟩
    · intro e he
      rw [hsince] at he
      rcases List.mem_append.mp he with h | h
      · exact hpre e h
      · rw [hsince1] at h1
        exact h1 e h
    · rw [getMe_role_congr table userID _ _ h2]
      exact getMe_role_ensureExists table userID userID _
    · intro hfound
      rw [getRole_congr table userID _ _ hfind]
      exact getRole_ensureExists_found table userID userID _ hfound
    · intro hmissing
      rw [getRole_congr table userID _ _ hfind]
      exact getRole_ensureExists_missing table userID _ hid hE hmissing

/-- C10: for a successful `CompleteOAuthToSession` of the use case built by
`auth.New` over the relational user repository, whatever statements of the database
fail on the way. If the gateway gave login info with a non-empty user id whose
trimmed, lower-cased address is not empty and equals the trimmed, lower-cased form of
an entry of the allow-list, then `SetRole userID super_admin` was called without
error and the user resolves to `super_admin` afterwards, in `GetRole` and in the view
of `GetMe`. In every other case `SetRole` is not called and the role of the user, as
`GetMe` shows it, is the role it showed before the login; `GetRole` gives what it gave
before when the user had a record, and `user` when the record was made by this
login. The roles are read with no failing statement. -/
theorem completeOAuth_super_admin_promotion (S : Type) (table : Char → Char)
    (rand : RandReader S) (gateway : auth.OAuthGateway S)
    (sessions : Option (auth.SessionStore S)) (uids : Option (auth.UIDExtractor S))
    (emails : List String) (code state : String) (ttl : Int) (w : World (S × DB)) :
    let u := authUsecase S table gateway sessions uids emails
    let r := w.call (.gatewayLoginByOAuth code state) (u.gateway.LoginByOAuth code state)
    let li := r.2.call (.gatewayGetCurrentUserLoginInfo r.1.1.AccessToken.Value)
      (u.gateway.GetCurrentUserLoginInfo r.1.1.AccessToken.Value)
    let res := auth.CompleteOAuthToSession table (liftRand rand) u code state ttl w
    let userID := res.1.1.2
    let email := strings.ToLower table (strings.TrimSpace li.1.1.Email)
    let matched : Prop := li.1.2 = none ∧ li.1.1.UserID ≠ "" ∧ email ≠ "" ∧
      ∃ e ∈ emails, strings.ToLower table (strings.TrimSpace e) = email
    res.1.2 = none →
    (matched →
      (⟨.usersSetRole userID RoleSuperAdmin, none⟩ : Event) ∈ World.since w res.2 ∧
      (GetRole table userID res.2.state.2.calm).1 = (RoleSuperAdmin, none) ∧
      (GetMe table userID res.2.state.2.calm).1.1.Role = RoleSuperAdmin) ∧
    (¬ matched →
      (∀ e ∈ World.since w res.2, e.call.isSetRole = false) ∧
      (GetMe table userID res.2.state.2.calm).1.1.Role
        = (GetMe table userID w.state.2.calm).1.1.Role ∧
      ((GetRole table userID w.state.2.calm).1.2 = none →
        (GetRole table userID res.2.state.2.calm).1 = (GetRole table userID w.state.2.calm).1) ∧
      ((GetRole table userID w.state.2.calm).1.2 ≠ none →
        (GetRole table userID res.2.state.2.calm).1 = (RoleUser, none))) := by
  intro u r li res userID email matched hok
  have hu : u.users = some (authUsers S table) := rfl
  have hs : u.sessions = sessions.map liftSessions := rfl
  have hr : r.1.2 = none := by
    by_contra hc
    exact auth.completeOAuth_login_failed table (liftRand rand) u code state ttl w hc hok
  have hsa : ∀ info : LoginInfo, auth.isSuperAdminByLoginInfo table u info = true
      ↔ strings.ToLower table (strings.TrimSpace info.Email) ≠ "" ∧
        ∃ e ∈ emails, strings.ToLower table (strings.TrimSpace e)
          = strings.ToLower table (strings.TrimSpace info.Email) :=
    fun info => auth.isSuperAdminByLoginInfo_new table _ _ _ _ emails info
  by_cases hauth : li.1.2 = none ∧ li.1.1.UserID ≠ ""
  · have hres : res = auth.CompleteOAuthToSession.withUser table (liftRand rand) u r.1.1 ttl
        li.1.1.UserID li.1.1 li.2 :=
      auth.completeOAuth_authoritative_body table (liftRand rand) u code state ttl w hr
        hauth.1 hauth.2
    obtain ⟨-, -, -, huser, -⟩ := auth.withUser_spec table (liftRand rand) u r.1.1 ttl
      li.1.1.UserID li.1.1 li.2
    have hok2 : (auth.CompleteOAuthToSession.withUser table (liftRand rand) u r.1.1 ttl
        li.1.1.UserID li.1.1 li.2).1.2 = none := by
      rw [← hres]; exact hok
    have hid : userID = li.1.1.UserID := by
      simp only [userID]
      rw [hres]
      exact huser hok2
    have hroles := auth.withUser_roles table rand u sessions hu hs r.1.1 ttl li.1.1.UserID
      li.1.1 w li.2
      [⟨.gatewayLoginByOAuth code state, (u.gateway.LoginByOAuth code state w.state).1.2⟩,
       ⟨.gatewayGetCurrentUserLoginInfo r.1.1.AccessToken.Value,
         (u.gateway.GetCurrentUserLoginInfo r.1.1.AccessToken.Value r.2.state).1.2⟩]
      rfl (by simp [li, r, World.call])
      (by
        intro e he
        simp only [List.mem_cons, List.mem_singleton, List.not_mem_nil, or_false] at he
        rcases he with h | h <;> subst h <;> rfl)
      hauth.2 hok2
    rw [← hres, ← hid] at hroles
    have hm : matched ↔ (li.1.1.UserID ≠ "" ∧
        auth.isSuperAdminByLoginInfo table u li.1.1 = true) := by
      simp only [matched, email]
      rw [hsa li.1.1]
      constructor
      · rintro ⟨_, h2, h3, h4⟩
        exact ⟨h2, h3, h4⟩
      · rintro ⟨h2, h3, h4⟩
        exact ⟨hauth.1, h2, h3, h4⟩
    refine ⟨fun h => hroles.1 ?_, fun h => hroles.2 (fun hc => h (hm.mpr ?_))⟩
    · rw [hid]; exact hm.mp h
    · rw [← hid]; exact hc
  · have hnm : ¬ matched := fun h => hauth ⟨h.1, h.2.1⟩
    refine ⟨fun h => absurd h hnm, fun _ => ?_⟩
    have hbody := auth.completeOAuth_fallback_body table (liftRand rand) u code state ttl w
      hr hauth
    have huids : u.uids = uids.map liftUIDs := rfl
    rcases uids with _ | x
    · exfalso
      simp only [huids, Option.map] at hbody
      simp only [res] at hok
      rw [hbody] at hok
      simp at hok
    · simp only [huids, Option.map] at hbody
      rcases he : ((liftUIDs x).ExtractUserID r.1.1.AccessToken.Value li.2.state).1.2
        with _ | err
      · have he2 : (li.2.call (.uidsExtractUserID r.1.1.AccessToken.Value)
            ((liftUIDs x).ExtractUserID r.1.1.AccessToken.Value)).1.2 = none := he
        rw [he2] at hbody
        simp only at hbody
        by_cases hempty : (li.2.call (.uidsExtractUserID r.1.1.AccessToken.Value)
            ((liftUIDs x).ExtractUserID r.1.1.AccessToken.Value)).1.1 = ""
        · exfalso
          rw [if_pos hempty] at hbody
          simp only [res] at hok
          rw [hbody] at hok
          simp at hok
        · rw [if_neg hempty] at hbody
          have hres : res = auth.CompleteOAuthToSession.withUser table (liftRand rand) u r.1.1
              ttl (li.2.call (.uidsExtractUserID r.1.1.AccessToken.Value)
                ((liftUIDs x).ExtractUserID r.1.1.AccessToken.Value)).1.1 LoginInfo.zero
              (li.2.call (.uidsExtractUserID r.1.1.AccessToken.Value)
                ((liftUIDs x).ExtractUserID r.1.1.AccessToken.Value)).2 := hbody
          obtain ⟨-, -, -, huser, -⟩ := auth.withUser_spec table (liftRand rand) u r.1.1 ttl
            (li.2.call (.uidsExtractUserID r.1.1.AccessToken.Value)
                ((liftUIDs x).ExtractUserID r.1.1.AccessToken.Value)).1.1 LoginInfo.zero
            (li.2.call (.uidsExtractUserID r.1.1.AccessToken.Value)
                ((liftUIDs x).ExtractUserID r.1.1.AccessToken.Value)).2
          have hok2 : (auth.CompleteOAuthToSession.withUser table (liftRand rand) u r.1.1
              ttl (li.2.call (.uidsExtractUserID r.1.1.AccessToken.Value)
                ((liftUIDs x).ExtractUserID r.1.1.AccessToken.Value)).1.1 LoginInfo.zero
              (li.2.call (.uidsExtractUserID r.1.1.AccessToken.Value)
                ((liftUIDs x).ExtractUserID r.1.1.AccessToken.Value)).2).1.2 = none := by
            rw [← hres]; exact hok
          have hid : userID = (li.2.call (.uidsExtractUserID r.1.1.AccessToken.Value)
                ((liftUIDs x).ExtractUserID r.1.1.AccessToken.Value)).1.1 := by
            simp only [userID]
            rw [hres]
            exact huser hok2
          have hroles := auth.withUser_roles table rand u sessions hu hs r.1.1 ttl
            (li.2.call (.uidsExtractUserID r.1.1.AccessToken.Value)
                ((liftUIDs x).ExtractUserID r.1.1.AccessToken.Value)).1.1 LoginInfo.zero w
            (li.2.call (.uidsExtractUserID r.1.1.AccessToken.Value)
                ((liftUIDs x).ExtractUserID r.1.1.AccessToken.Value)).2
            [⟨.gatewayLoginByOAuth code state, (u.gateway.LoginByOAuth code state w.state).1.2⟩,
             ⟨.gatewayGetCurrentUserLoginInfo r.1.1.AccessToken.Value,
               (u.gateway.GetCurrentUserLoginInfo r.1.1.AccessToken.Value r.2.state).1.2⟩,
             ⟨.uidsExtractUserID r.1.1.AccessToken.Value, none⟩]
            rfl (by rw [World.call_trace, he]; simp [li, r, World.call])
            (by
              intro e he
              simp only [List.mem_cons, List.mem_singleton, List.not_mem_nil, or_false] at he
              rcases he with h | h | h <;> subst h <;> rfl)
            hempty hok2
          rw [← hres, ← hid] at hroles
          exact hroles.2 (fun hc => hc.1 rfl)
      · exfalso
        have he2 : (li.2.call (.uidsExtractUserID r.1.1.AccessToken.Value)
            ((liftUIDs x).ExtractUserID r.1.1.AccessToken.Value)).1.2 = some err := he
        rw [he2] at hbody
        simp only [res] at hok
        rw [hbody] at hok
        simp at hok

/-- C10 at a concrete input: `carol`, whose address is on the allow-list, logs in
and resolves to `super_admin`; with an empty allow-list her role stays what it was. -/
theorem completeOAuth_super_admin_promotion_witness :
    (auth.CompleteOAuthToSession id (liftRand fixture.rand) fixture.authUsecase
        "good" "st-1" 3600 fixture.world0).1.2 = none ∧
    (GetRole id "carol" (auth.CompleteOAuthToSession id (liftRand fixture.rand)
        fixture.authUsecase "good" "st-1" 3600 fixture.world0).2.state.2.calm).1
      = (RoleSuperAdmin, none) ∧
    (GetMe id "carol" (auth.CompleteOAuthToSession id (liftRand fixture.rand)
        fixture.authUsecaseOpen "good" "st-1" 3600 fixture.world0).2.state.2.calm).1.1.Role
      = (GetMe id "carol" fixture.world0.state.2.calm).1.1.Role := by
  have hok : (auth.CompleteOAuthToSession id (liftRand fixture.rand) fixture.authUsecase
      "good" "st-1" 3600 fixture.world0).1.2 = none := by decide
  have h := completeOAuth_super_admin_promotion Unit id fixture.rand fixture.gateway
    (some fixture.sessionStore) (some fixture.extractor) ["carol@example.com"]
    "good" "st-1" 3600 fixture.world0 hok
  have hm := h.1 ⟨by decide, by decide, by decide, "carol@example.com", by simp, by decide⟩
  have hok2 : (auth.CompleteOAuthToSession id (liftRand fixture.rand) fixture.authUsecaseOpen
      "good" "st-1" 3600 fixture.world0).1.2 = none := by decide
  have h2 := completeOAuth_super_admin_promotion Unit id fixture.rand fixture.gateway
    (some fixture.sessionStore) (some fixture.extractor) []
    "good" "st-1" 3600 fixture.world0 hok2
  have hn := h2.2 (fun hc => by
    obtain ⟨-, -, -, e, he, -⟩ := hc
    simp at he)
  exact ⟨hok, hm.2.1, hn.2.1⟩

/-! ### The theorems at concrete inputs -/

/-- C1 at a concrete input: the session id `nope` is not in the store. -/
theorem session_gate_unauthenticated_witness :
    ("nope" = "" ∨ (persistence.offDB (fixture.getSession "nope") fixture.world0.state).1.2
        ≠ none) ∧
    (rbac.Me fixture.rbacUsecase "nope" fixture.world0).1
      = (Me.zero, some rbac.ErrUnauthenticated) ∧
    (rbac.SetUserRole fixture.rbacUsecase "nope" "bob" "admin" fixture.world0).1
      = some rbac.ErrUnauthenticated ∧
    (llmadmin.DeleteModel fixture.llmadminUsecase "nope" "m-1" fixture.world0).1
      = some llmadmin.ErrUnauthenticated ∧
    (llmtoken.IssueToken (some fixture.llmtokenUsecase) "nope" fixture.world0).1
      = (("", 0), some llmtoken.ErrUnauthenticated) := by
  have h : "nope" = "" ∨ (persistence.offDB (fixture.getSession "nope")
      fixture.world0.state).1.2 ≠ none := Or.inr (by decide)
  obtain ⟨w1, _, _, _, hr, ha, ht⟩ := session_gate_unauthenticated
    (fun sessionID => persistence.offDB (fixture.getSession sessionID)) "nope" fixture.world0 h
  exact ⟨h, congrArg Prod.fst (hr (persistence.rbacUsers Unit id)).1,
    congrArg Prod.fst ((hr (persistence.rbacUsers Unit id)).2.2.2 "bob" "admin"),
    congrArg Prod.fst ((ha ⟨fun userID => persistence.onDB (persistence.GetRole id userID)⟩
      fixture.adminPort).2.2.2.2.2 "m-1"),
    congrArg Prod.fst (ht fixture.issuer 600 ["m-1"])⟩

/-- C2 at a concrete input: the user `bob` is refused, the admin `ann` gets the page. -/
theorem listUsers_role_gate_witness :
    (rbac.ListUsers fixture.rbacUsecase "s-bob" 2 0 fixture.world0).1
      = ([], some rbac.ErrForbidden) ∧
    (rbac.ListUsers fixture.rbacUsecase "s-ann" 2 0 fixture.world0).1
      = ((persistence.ListUsers id 2 0 fixture.db0).1) := by
  constructor
  · exact congrArg Prod.fst
      ((listUsers_role_gate fixture.rbacUsecase "s-bob" 2 0 fixture.world0
        (by decide) (by decide) (by decide)).1 (by decide)).1
  · exact ((listUsers_role_gate fixture.rbacUsecase "s-ann" 2 0 fixture.world0
        (by decide) (by decide) (by decide)).2 (by decide)).1

/-- C3 at a concrete input: the user `bob` is refused by `DeleteModel`. -/
theorem llmadmin_forbidden_and_admin_port_gated_witness :
    (llmadmin.DeleteModel fixture.llmadminUsecase "s-bob" "m-1" fixture.world0).1
      = some llmadmin.ErrForbidden ∧
    World.since fixture.world0
      (llmadmin.DeleteModel fixture.llmadminUsecase "s-bob" "m-1" fixture.world0).2
      = [⟨.sessionsGet "s-bob", none⟩, ⟨.usersGetRole "bob", none⟩] := by
  have h := (llmadmin_forbidden_and_admin_port_gated fixture.llmadminUsecase "s-bob"
    ⟨"dashscope", "", "", 0⟩ "dashscope" ⟨"dashscope", [], "m"⟩ "m-1" fixture.world0).1
    (by decide) (by decide) (by decide) (by decide) (by decide)
  exact ⟨h.1 _ (by simp), h.2 _ (by simp)⟩

/-- C4 at a concrete input: the admin `ann` may not assign roles. -/
theorem setUserRole_requires_super_admin_witness :
    (rbac.SetUserRole fixture.rbacUsecase "s-ann" "bob" "admin" fixture.world0).1
      = some rbac.ErrForbidden :=
  (setUserRole_requires_super_admin fixture.rbacUsecase "s-ann" "bob" "admin" fixture.world0
    (by decide) (by decide) (by decide) (by decide)).1

/-- C5 (amended) at a concrete input: `root` may not change the super admin `boss`. -/
theorem setUserRole_protects_super_admin_target_witness :
    (rbac.SetUserRole fixture.rbacUsecase "s-root" "boss" "admin" fixture.world0).1
      = some rbac.ErrForbidden :=
  (setUserRole_protects_super_admin_target fixture.rbacUsecase "s-root" "boss" "admin"
    fixture.world0 (by decide) (by decide) (by decide) (by decide)).1

/-- C6 at a concrete input: `root` asks for the role `owner` for `bob`. -/
theorem setUserRole_rejects_other_roles_witness :
    (rbac.SetUserRole fixture.rbacUsecase "s-root" "bob" "owner" fixture.world0).1
      = some rbac.ErrInvalidRole :=
  (setUserRole_rejects_other_roles fixture.rbacUsecase "s-root" "bob" "owner"
    fixture.world0 (by decide) (by decide) (by decide) (by decide) (by decide)).1

/-- C8 at a concrete input: the gateway reports `carol`, and the extractor (which
would answer `dave`) is not asked. -/
theorem completeOAuth_authoritative_identity_witness :
    (auth.CompleteOAuthToSession id (liftRand fixture.rand) fixture.authUsecase
        "good" "st-1" 3600 fixture.world0).1.1.2 = "carol" ∧
    (∀ e ∈ World.since fixture.world0
        (auth.CompleteOAuthToSession id (liftRand fixture.rand) fixture.authUsecase
          "good" "st-1" 3600 fixture.world0).2,
      ∀ tok, e.call ≠ .uidsExtractUserID tok) := by
  have h := completeOAuth_authoritative_identity id (liftRand fixture.rand)
    fixture.authUsecase "good" "st-1" 3600 fixture.world0
    (by decide) (by decide) (by decide)
  exact ⟨h.2.2.2.1 (by decide), h.1⟩

/-- C9 at a concrete input: the login-info lookup fails and the extractor
answers `dave`. -/
theorem completeOAuth_fallback_identity_witness :
    (auth.CompleteOAuthToSession id (liftRand fixture.rand) fixture.authUsecaseFallback
        "good" "st-1" 3600 fixture.world0).1.2 = none ∧
    ∃ x, fixture.authUsecaseFallback.uids = some x ∧
      (auth.CompleteOAuthToSession id (liftRand fixture.rand) fixture.authUsecaseFallback
        "good" "st-1" 3600 fixture.world0).1.1.2
        = (x.ExtractUserID "at-1" fixture.world0.state).1.1 := by
  have h := completeOAuth_fallback_identity id (liftRand fixture.rand)
    fixture.authUsecaseFallback "good" "st-1" 3600 fixture.world0
    (by decide) (Or.inl (by decide)) (Option.some_ne_none _) (Option.some_ne_none _)
    (by decide)
  have hok := h.1.mpr ⟨liftUIDs fixture.extractor, rfl, by decide, by decide⟩
  exact ⟨hok, h.2 hok⟩

/-! ### The allow-list of super admins -/

/-- C11: on the use case built by `New` from the list `emails`,
`isSuperAdminByLoginInfo` is true exactly when the trimmed, lower-cased address of
the login info is not empty and equals the trimmed, lower-cased form of an entry
of `emails`; so it is false for every login info when `emails` is empty or all
its entries are empty after trimming. -/
theorem isSuperAdminByLoginInfo_iff_listed {σ : Type} (table : Char → Char)
    (gateway : auth.OAuthGateway σ) (sessions : Option (auth.SessionStore σ))
    (uids : Option (auth.UIDExtractor σ)) (users : Option (auth.UserRepository σ))
    (emails : List String) (info : LoginInfo) :
    (auth.isSuperAdminByLoginInfo table (auth.New table gateway sessions uids users emails) info
        = true
      ↔ strings.ToLower table (strings.TrimSpace info.Email) ≠ "" ∧
        ∃ e ∈ emails, strings.ToLower table (strings.TrimSpace e)
          = strings.ToLower table (strings.TrimSpace info.Email)) ∧
    (emails = [] →
      auth.isSuperAdminByLoginInfo table (auth.New table gateway sessions uids users emails)
        info = false) ∧
    ((∀ e ∈ emails, strings.TrimSpace e = "") →
      auth.isSuperAdminByLoginInfo table (auth.New table gateway sessions uids users emails)
        info = false) := by
  have hiff := auth.isSuperAdminByLoginInfo_new table gateway sessions uids users emails info
  have hblank : (∀ e ∈ emails, strings.TrimSpace e = "") →
      auth.isSuperAdminByLoginInfo table (auth.New table gateway sessions uids users emails)
        info = false := by
    intro hall
    rw [Bool.eq_false_iff]
    intro hc
    obtain ⟨hne, e, he, hee⟩ := hiff.mp hc
    apply hne
    rw [← hee, hall e he]
    rfl
  refine ⟨hiff, ?_, hblank⟩
  intro hnil
  apply hblank
  intro e he
  rw [hnil] at he
  exact absurd he (List.not_mem_nil e)

/-- C11 at concrete inputs: an address listed in another case and with blanks
around it matches; nothing matches a list of blank entries. -/
theorem isSuperAdminByLoginInfo_iff_listed_witness :
    auth.isSuperAdminByLoginInfo id fixture.authUsecase
      ⟨"carol", " Carol@Example.com ", none, false, []⟩ = true ∧
    auth.isSuperAdminByLoginInfo id
      (auth.New id fixture.gateway none none none ["  ", "", "\t"])
      ⟨"carol", "carol@example.com", none, false, []⟩ = false := by
  constructor
  · exact (isSuperAdminByLoginInfo_iff_listed id (liftGateway fixture.gateway)
      ((some fixture.sessionStore).map liftSessions) ((some fixture.extractor).map liftUIDs)
      (some (authUsers Unit id)) ["carol@example.com"]
      ⟨"carol", " Carol@Example.com ", none, false, []⟩).1.mpr
      ⟨by decide, "carol@example.com", by simp, by decide⟩
  · exact (isSuperAdminByLoginInfo_iff_listed id fixture.gateway none none none
      ["  ", "", "\t"] ⟨"carol", "carol@example.com", none, false, []⟩).2.2 (by decide)

/-! ### The session saved by the OAuth completion -/

namespace auth

/-- A run that stops with an error after calls none of which is `Save`. -/
theorem ended_of_trace {σ : Type} (tokens : TokenPair) (ttl : Int) (w0 w : World σ)
    (err : GoError) (es : List Event) (hw : w.trace = w0.trace ++ es)
    (hes : ∀ e ∈ es, e.call.isSave = false) :
    Ended tokens ttl w0 (((("", "") : String × String), some err), w) := by
  refine Or.inl ⟨err, rfl, ?_⟩
  intro e he
  simp only [World.since, hw, List.drop_left] at he
  exact hes e he

/-- The last part of the completion ends in one of the two ways. -/
theorem saveSession_ended {σ : Type} (rand : RandReader σ) (u : Usecase σ)
    (tokens : TokenPair) (ttl : Int) (userID : String) (w0 w : World σ) (pre : List Event)
    (hw : w.trace = w0.trace ++ pre)
    (hpre : ∀ e ∈ pre, e.call.isSave = false ∧
      (e.err ≠ none → ∃ tok, e.call = .gatewayGetCurrentUserLoginInfo tok))
    (hens : (⟨.usersEnsureExists userID, none⟩ : Event) ∈ pre) :
    Ended tokens ttl w0 (CompleteOAuthToSession.saveSession rand u tokens ttl userID w) := by
  rcases hr : (rand.Read 32 w.state).1.2 with _ | err
  · rcases hs : u.sessions with _ | sessions
    · have hres : CompleteOAuthToSession.saveSession rand u tokens ttl userID w
          = (((("", "") : String × String),
              some (.errorsNew "session store is not configured")),
            (w.call (.randRead 32) (rand.Read 32)).2) := by
        simp [CompleteOAuthToSession.saveSession, newSessionID, World.call, hr, hs]
      rw [hres]
      refine ended_of_trace tokens ttl w0 _ _ (pre ++ [⟨.randRead 32, none⟩]) ?_ ?_
      · simp [World.call, hr, hw]
      · intro e he
        rcases List.mem_append.mp he with h | h
        · exact (hpre e h).1
        · rw [List.mem_singleton] at h; subst h; rfl
    · have hres : CompleteOAuthToSession.saveSession rand u tokens ttl userID w
          = ((match (sessions.Save (base64.RawURLEncoding.EncodeToString
                (fillBuffer 32 (rand.Read 32 w.state).1.1)) ⟨userID, tokens⟩ ttl
                (rand.Read 32 w.state).2).1 with
              | none => ((base64.RawURLEncoding.EncodeToString
                  (fillBuffer 32 (rand.Read 32 w.state).1.1), userID), none)
              | some err => (("", ""), some err)),
            ⟨(sessions.Save (base64.RawURLEncoding.EncodeToString
                (fillBuffer 32 (rand.Read 32 w.state).1.1)) ⟨userID, tokens⟩ ttl
                (rand.Read 32 w.state).2).2,
              w.trace ++ [⟨.randRead 32, none⟩,
                ⟨.sessionsSave (base64.RawURLEncoding.EncodeToString
                  (fillBuffer 32 (rand.Read 32 w.state).1.1)) ⟨userID, tokens⟩ ttl,
                  (sessions.Save (base64.RawURLEncoding.EncodeToString
                    (fillBuffer 32 (rand.Read 32 w.state).1.1)) ⟨userID, tokens⟩ ttl
                    (rand.Read 32 w.state).2).1⟩]⟩) := by
        simp only [CompleteOAuthToSession.saveSession, newSessionID, World.call, World.callE,
          hr, hs]
        rcases (sessions.Save (base64.RawURLEncoding.EncodeToString
          (fillBuffer 32 (rand.Read 32 w.state).1.1)) ⟨userID, tokens⟩ ttl
          (rand.Read 32 w.state).2).1 with _ | e2 <;> simp
      rw [hres]
      refine Or.inr ⟨pre ++ [⟨.randRead 32, none⟩], _, userID, _, ?_, ?_, ?_, rfl⟩
      · simp [World.since, hw]
      · intro e he
        rcases List.mem_append.mp he with h | h
        · exact hpre e h
        · rw [List.mem_singleton] at h; subst h
          exact ⟨rfl, fun hc => absurd rfl hc⟩
      · exact List.mem_append.mpr (Or.inl hens)
  · have hres : CompleteOAuthToSession.saveSession rand u tokens ttl userID w
        = (((("", "") : String × String), some err),
          (w.call (.randRead 32) (rand.Read 32)).2) := by
      simp [CompleteOAuthToSession.saveSession, newSessionID, World.call, hr]
    rw [hres]
    refine ended_of_trace tokens ttl w0 _ err (pre ++ [⟨.randRead 32, some err⟩]) ?_ ?_
    · simp [World.call, hr, hw]
    · intro e he
      rcases List.mem_append.mp he with h | h
      · exact (hpre e h).1
      · rw [List.mem_singleton] at h; subst h; rfl

end auth

namespace auth

/-- The completion from the resolved user id on ends in one of the two ways. -/
theorem withUser_ended {σ : Type} (table : Char → Char) (rand : RandReader σ) (u : Usecase σ)
    (tokens : TokenPair) (ttl : Int) (userID : String) (loginInfo : LoginInfo)
    (w0 w : World σ) (pre : List Event) (hw : w.trace = w0.trace ++ pre)
    (hpre : ∀ e ∈ pre, e.call.isSave = false ∧
      (e.err ≠ none → ∃ tok, e.call = .gatewayGetCurrentUserLoginInfo tok)) :
    Ended tokens ttl w0
      (CompleteOAuthToSession.withUser table rand u tokens ttl userID loginInfo w) := by
  have hsave : ∀ e ∈ pre, e.call.isSave = false := fun e he => (hpre e he).1
  have good : ∀ (es : List Event), (∀ e ∈ es, e.call.isSave = false ∧ e.err = none) →
      ∀ e ∈ pre ++ es, e.call.isSave = false ∧
        (e.err ≠ none → ∃ tok, e.call = .gatewayGetCurrentUserLoginInfo tok) := by
    intro es hes e he
    rcases List.mem_append.mp he with h | h
    · exact hpre e h
    · exact ⟨(hes e h).1, fun hc => absurd (hes e h).2 hc⟩
  have bad : ∀ (es : List Event), (∀ e ∈ es, e.call.isSave = false) →
      ∀ e ∈ pre ++ es, e.call.isSave = false := by
    intro es hes e he
    rcases List.mem_append.mp he with h | h
    · exact hsave e h
    · exact hes e h
  unfold CompleteOAuthToSession.withUser
  rcases hu : u.users with _ | users
  · exact ended_of_trace tokens ttl w0 w _ pre hw hsave
  · simp only
    rcases he : (users.EnsureExists userID w.state).1 with _ | err
    · have hE : (w.callE (.usersEnsureExists userID) (users.EnsureExists userID)).1 = none := he
      rw [hE]
      simp only
      by_cases hli : loginInfo.UserID ≠ ""
      · rw [if_pos hli]
        rcases hs : (users.SaveLoginInfo loginInfo
            (users.EnsureExists userID w.state).2).1 with _ | err
        · have hS : ((w.callE (.usersEnsureExists userID) (users.EnsureExists userID)).2.callE
              (.usersSaveLoginInfo loginInfo) (users.SaveLoginInfo loginInfo)).1 = none := hs
          rw [hS]
          simp only
          by_cases hsa : isSuperAdminByLoginInfo table u loginInfo = true
          · rw [if_pos hsa]
            rcases ht : (users.SetRole userID RoleSuperAdmin (users.SaveLoginInfo loginInfo
                (users.EnsureExists userID w.state).2).2).1 with _ | err
            · have hT : (((w.callE (.usersEnsureExists userID)
                  (users.EnsureExists userID)).2.callE
                  (.usersSaveLoginInfo loginInfo) (users.SaveLoginInfo loginInfo)).2.callE
                  (.usersSetRole userID RoleSuperAdmin)
                  (users.SetRole userID RoleSuperAdmin)).1 = none := ht
              rw [hT]
              simp only
              refine saveSession_ended rand u tokens ttl userID w0 _
                (pre ++ [⟨.usersEnsureExists userID, none⟩,
                  ⟨.usersSaveLoginInfo loginInfo, none⟩,
                  ⟨.usersSetRole userID RoleSuperAdmin, none⟩]) ?_
                (good _ (by simp [Call.isSave])) (by simp)
              simp [World.callE, he, hs, ht, hw]
            · have hT : (((w.callE (.usersEnsureExists userID)
                  (users.EnsureExists userID)).2.callE
                  (.usersSaveLoginInfo loginInfo) (users.SaveLoginInfo loginInfo)).2.callE
                  (.usersSetRole userID RoleSuperAdmin)
                  (users.SetRole userID RoleSuperAdmin)).1 = some err := ht
              rw [hT]
              simp only
              refine ended_of_trace tokens ttl w0 _ err
                (pre ++ [⟨.usersEnsureExists userID, none⟩,
                  ⟨.usersSaveLoginInfo loginInfo, none⟩,
                  ⟨.usersSetRole userID RoleSuperAdmin, some err⟩]) ?_
                (bad _ (by simp [Call.isSave]))
              simp [World.callE, he, hs, ht, hw]
          · rw [if_neg hsa]
            refine saveSession_ended rand u tokens ttl userID w0 _
              (pre ++ [⟨.usersEnsureExists userID, none⟩,
                ⟨.usersSaveLoginInfo loginInfo, none⟩]) ?_
              (good _ (by simp [Call.isSave])) (by simp)
            simp [World.callE, he, hs, hw]
        · have hS : ((w.callE (.usersEnsureExists userID) (users.EnsureExists userID)).2.callE
              (.usersSaveLoginInfo loginInfo) (users.SaveLoginInfo loginInfo)).1 = some err := hs
          rw [hS]
          simp only
          refine ended_of_trace tokens ttl w0 _ err
            (pre ++ [⟨.usersEnsureExists userID, none⟩,
              ⟨.usersSaveLoginInfo loginInfo, some err⟩]) ?_
            (bad _ (by simp [Call.isSave]))
          simp [World.callE, he, hs, hw]
      · rw [if_neg hli]
        refine saveSession_ended rand u tokens ttl userID w0 _
          (pre ++ [⟨.usersEnsureExists userID, none⟩]) ?_
          (good _ (by simp [Call.isSave])) (by simp)
        simp [World.callE, he, hw]
    · have hE : (w.callE (.usersEnsureExists userID) (users.EnsureExists userID)).1
          = some err := he
      rw [hE]
      simp only
      refine ended_of_trace tokens ttl w0 _ err
        (pre ++ [⟨.usersEnsureExists userID, some err⟩]) ?_
        (bad _ (by simp [Call.isSave]))
      simp [World.callE, he, hw]

/-- Every run of `CompleteOAuthToSession` ends in one of the two ways; the
tokens of the saved session are those returned by `LoginByOAuth`. -/
theorem completeOAuth_ended {σ : Type} (table : Char → Char) (rand : RandReader σ)
    (u : Usecase σ) (code state : String) (ttl : Int) (w : World σ) :
    Ended (u.gateway.LoginByOAuth code state w.state).1.1 ttl w
      (CompleteOAuthToSession table rand u code state ttl w) := by
  rcases hr : (u.gateway.LoginByOAuth code state w.state).1.2 with _ | err
  · have hr2 : (w.call (.gatewayLoginByOAuth code state)
        (u.gateway.LoginByOAuth code state)).1.2 = none := hr
    have hpre : ∀ e ∈ [(⟨.gatewayLoginByOAuth code state, none⟩ : Event),
        ⟨.gatewayGetCurrentUserLoginInfo
          (u.gateway.LoginByOAuth code state w.state).1.1.AccessToken.Value,
          (u.gateway.GetCurrentUserLoginInfo
            (u.gateway.LoginByOAuth code state w.state).1.1.AccessToken.Value
            (u.gateway.LoginByOAuth code state w.state).2).1.2⟩],
        e.call.isSave = false ∧
          (e.err ≠ none → ∃ tok, e.call = .gatewayGetCurrentUserLoginInfo tok) := by
      intro e he
      simp only [List.mem_cons, List.mem_singleton, List.not_mem_nil, or_false] at he
      rcases he with h | h <;> subst h
      · exact ⟨rfl, fun hc => absurd rfl hc⟩
      · exact ⟨rfl, fun _ => ⟨_, rfl⟩⟩
    by_cases hauth : ((w.call (.gatewayLoginByOAuth code state)
        (u.gateway.LoginByOAuth code state)).2.call
        (.gatewayGetCurrentUserLoginInfo (w.call (.gatewayLoginByOAuth code state)
          (u.gateway.LoginByOAuth code state)).1.1.AccessToken.Value)
        (u.gateway.GetCurrentUserLoginInfo (w.call (.gatewayLoginByOAuth code state)
          (u.gateway.LoginByOAuth code state)).1.1.AccessToken.Value)).1.2 = none ∧
        ((w.call (.gatewayLoginByOAuth code state)
        (u.gateway.LoginByOAuth code state)).2.call
        (.gatewayGetCurrentUserLoginInfo (w.call (.gatewayLoginByOAuth code state)
          (u.gateway.LoginByOAuth code state)).1.1.AccessToken.Value)
        (u.gateway.GetCurrentUserLoginInfo (w.call (.gatewayLoginByOAuth code state)
          (u.gateway.LoginByOAuth code state)).1.1.AccessToken.Value)).1.1.UserID ≠ ""
    · rw [completeOAuth_authoritative_body table rand u code state ttl w hr2 hauth.1 hauth.2]
      refine withUser_ended table rand u _ ttl _ _ w _ _ ?_ hpre
      simp [World.call, hr]
    · rw [completeOAuth_fallback_body table rand u code state ttl w hr2 hauth]
      have hsave : ∀ e ∈ [(⟨.gatewayLoginByOAuth code state, none⟩ : Event),
          ⟨.gatewayGetCurrentUserLoginInfo
            (u.gateway.LoginByOAuth code state w.state).1.1.AccessToken.Value,
            (u.gateway.GetCurrentUserLoginInfo
              (u.gateway.LoginByOAuth code state w.state).1.1.AccessToken.Value
              (u.gateway.LoginByOAuth code state w.state).2).1.2⟩],
          e.call.isSave = false := fun e he => (hpre e he).1
      rcases hx : u.uids with _ | uids
      · refine ended_of_trace _ ttl w _ _ _ ?_ hsave
        simp [World.call, hr]
      · simp only
        rcases hext : (uids.ExtractUserID
            (u.gateway.LoginByOAuth code state w.state).1.1.AccessToken.Value
            (u.gateway.GetCurrentUserLoginInfo
              (u.gateway.LoginByOAuth code state w.state).1.1.AccessToken.Value
              (u.gateway.LoginByOAuth code state w.state).2).2).1.2 with _ | err
        · have hext2 : (((w.call (.gatewayLoginByOAuth code state)
              (u.gateway.LoginByOAuth code state)).2.call
              (.gatewayGetCurrentUserLoginInfo (w.call (.gatewayLoginByOAuth code state)
                (u.gateway.LoginByOAuth code state)).1.1.AccessToken.Value)
              (u.gateway.GetCurrentUserLoginInfo (w.call (.gatewayLoginByOAuth code state)
                (u.gateway.LoginByOAuth code state)).1.1.AccessToken.Value)).2.call
              (.uidsExtractUserID (w.call (.gatewayLoginByOAuth code state)
                (u.gateway.LoginByOAuth code state)).1.1.AccessToken.Value)
              (uids.ExtractUserID (w.call (.gatewayLoginByOAuth code state)
                (u.gateway.LoginByOAuth code state)).1.1.AccessToken.Value)).1.2 = none := hext
          rw [hext2]
          simp only
          have hpre3 : ∀ e ∈ [(⟨.gatewayLoginByOAuth code state, none⟩ : Event),
              ⟨.gatewayGetCurrentUserLoginInfo
                (u.gateway.LoginByOAuth code state w.state).1.1.AccessToken.Value,
                (u.gateway.GetCurrentUserLoginInfo
                  (u.gateway.LoginByOAuth code state w.state).1.1.AccessToken.Value
                  (u.gateway.LoginByOAuth code state w.state).2).1.2⟩,
              ⟨.uidsExtractUserID
                (u.gateway.LoginByOAuth code state w.state).1.1.AccessToken.Value, none⟩],
              e.call.isSave = false ∧
                (e.err ≠ none → ∃ tok, e.call = .gatewayGetCurrentUserLoginInfo tok) := by
            intro e he
            simp only [List.mem_cons, List.mem_singleton, List.not_mem_nil, or_false] at he
            rcases he with h | h | h <;> subst h
            · exact ⟨rfl, fun hc => absurd rfl hc⟩
            · exact ⟨rfl, fun _ => ⟨_, rfl⟩⟩
            · exact ⟨rfl, fun hc => absurd rfl hc⟩
          split
          · refine ended_of_trace _ ttl w _ _ _ ?_ (fun e he => (hpre3 e he).1)
            simp [World.call, hr, hext]
          · refine withUser_ended table rand u _ ttl _ _ w _ _ ?_ hpre3
            simp [World.call, hr, hext]
        · have hext2 : (((w.call (.gatewayLoginByOAuth code state)
              (u.gateway.LoginByOAuth code state)).2.call
              (.gatewayGetCurrentUserLoginInfo (w.call (.gatewayLoginByOAuth code state)
                (u.gateway.LoginByOAuth code state)).1.1.AccessToken.Value)
              (u.gateway.GetCurrentUserLoginInfo (w.call (.gatewayLoginByOAuth code state)
                (u.gateway.LoginByOAuth code state)).1.1.AccessToken.Value)).2.call
              (.uidsExtractUserID (w.call (.gatewayLoginByOAuth code state)
                (u.gateway.LoginByOAuth code state)).1.1.AccessToken.Value)
              (uids.ExtractUserID (w.call (.gatewayLoginByOAuth code state)
                (u.gateway.LoginByOAuth code state)).1.1.AccessToken.Value)).1.2
              = some err := hext
          rw [hext2]
          simp only
          refine ended_of_trace _ ttl w _ err
            [⟨.gatewayLoginByOAuth code state, none⟩,
             ⟨.gatewayGetCurrentUserLoginInfo
                (u.gateway.LoginByOAuth code state w.state).1.1.AccessToken.Value,
                (u.gateway.GetCurrentUserLoginInfo
                  (u.gateway.LoginByOAuth code state w.state).1.1.AccessToken.Value
                  (u.gateway.LoginByOAuth code state w.state).2).1.2⟩,
             ⟨.uidsExtractUserID
                (u.gateway.LoginByOAuth code state w.state).1.1.AccessToken.Value,
                some err⟩] ?_ ?_
          · simp [World.call, hr, hext]
          · intro e he
            simp only [List.mem_cons, List.mem_singleton, List.not_mem_nil, or_false] at he
            rcases he with h | h | h <;> subst h <;> rfl
  · have hres : CompleteOAuthToSession table rand u code state ttl w
        = (((("", "") : String × String), some err),
          (w.call (.gatewayLoginByOAuth code state) (u.gateway.LoginByOAuth code state)).2) := by
      simp [CompleteOAuthToSession, World.call, hr]
    rw [hres]
    refine ended_of_trace _ ttl w _ err [⟨.gatewayLoginByOAuth code state, some err⟩] ?_ ?_
    · simp [World.call, hr]
    · intro e he
      rw [List.mem_singleton] at he; subst he; rfl

end auth

/-- C12: `CompleteOAuthToSession` leaves no partial session. Whenever it returns an
error, the session id and the user id it returns are empty. A call of `Save` is
the last call of the run, no call before it is a call of `Save`, and every call
before it returned without error, the login-info lookup alone excepted (its
failure is answered by the fallback extractor). And when the operation fails,
either `Save` was never called or `Save` is the last call and the error returned
is its error; so a failure of any earlier step means that `Save` was not called. -/
theorem completeOAuth_no_partial_session {σ : Type} (table : Char → Char)
    (rand : RandReader σ) (u : auth.Usecase σ) (code state : String) (ttl : Int)
    (w : World σ) :
    let res := auth.CompleteOAuthToSession table rand u code state ttl w
    (res.1.2 ≠ none → res.1.1 = ("", "")) ∧
    (∀ pre e post, World.since w res.2 = pre ++ e :: post → e.call.isSave = true →
      post = [] ∧ (∀ e2 ∈ pre, e2.call.isSave = false) ∧
      (∀ e2 ∈ pre, e2.err ≠ none → ∃ tok, e2.call = .gatewayGetCurrentUserLoginInfo tok)) ∧
    (res.1.2 ≠ none →
      (∀ e ∈ World.since w res.2, e.call.isSave = false) ∨
      (∃ pre e, World.since w res.2 = pre ++ [e] ∧ e.call.isSave = true ∧
        e.err = res.1.2)) := by
  intro res
  rcases auth.completeOAuth_ended table rand u code state ttl w with
    ⟨err, hres, hno⟩ | ⟨p, sid, uid, sv, hsince, hp, -, hres⟩
  · refine ⟨fun _ => ?_, ?_, fun _ => Or.inl hno⟩
    · show (auth.CompleteOAuthToSession table rand u code state ttl w).1.1 = ("", "")
      rw [hres]
    · intro pre e post hs he
      have hmem : e ∈ World.since w res.2 := by
        rw [hs]; exact List.mem_append.mpr (Or.inr (List.mem_cons_self _ _))
      rw [hno e hmem] at he
      exact absurd he (by decide)
  · refine ⟨?_, ?_, ?_⟩
    · intro hne
      show (auth.CompleteOAuthToSession table rand u code state ttl w).1.1 = ("", "")
      rw [hres]
      rcases sv with _ | e2
      · exfalso
        apply hne
        show (auth.CompleteOAuthToSession table rand u code state ttl w).1.2 = none
        rw [hres]
      · rfl
    · intro pre e post hs he
      have hs2 : p ++ [⟨.sessionsSave sid ⟨uid, (u.gateway.LoginByOAuth code state
          w.state).1.1⟩ ttl, sv⟩] = pre ++ e :: post := by
        rw [← hsince]; exact hs
      by_cases hpost : post = []
      · subst hpost
        have hinj := List.append_inj' hs2 rfl
        refine ⟨rfl, ?_, ?_⟩
        · intro e2 he2
          rw [← hinj.1] at he2
          exact (hp e2 he2).1
        · intro e2 he2
          rw [← hinj.1] at he2
          exact (hp e2 he2).2
      · exfalso
        have hd := congrArg List.dropLast hs2
        rw [List.dropLast_concat, List.dropLast_append_of_ne_nil _ (List.cons_ne_nil _ _),
          List.dropLast_cons_of_ne_nil hpost] at hd
        have hmem : e ∈ p := by
          rw [hd]; exact List.mem_append.mpr (Or.inr (List.mem_cons_self _ _))
        rw [(hp e hmem).1] at he
        exact absurd he (by decide)
    · intro _
      refine Or.inr ⟨p, _, hsince, rfl, ?_⟩
      show sv = (auth.CompleteOAuthToSession table rand u code state ttl w).1.2
      rw [hres]
      rcases sv with _ | e2 <;> rfl

/-- C13: whenever `CompleteOAuthToSession code state ttl` succeeds with
`(sessionID, userID)`, the trace of the run ends with the one call of `Save`, made
with that `sessionID`, with the session of `userID` and of the token pair that
`LoginByOAuth code state` returned, and with the given `ttl`; no other call of the
run is a call of `Save`; and `EnsureExists userID` was called before it and
returned no error. -/
theorem completeOAuth_saves_session_once {σ : Type} (table : Char → Char)
    (rand : RandReader σ) (u : auth.Usecase σ) (code state : String) (ttl : Int)
    (w : World σ) :
    let res := auth.CompleteOAuthToSession table rand u code state ttl w
    let tokens := (u.gateway.LoginByOAuth code state w.state).1.1
    res.1.2 = none →
    ∃ pre, World.since w res.2
        = pre ++ [⟨.sessionsSave res.1.1.1 ⟨res.1.1.2, tokens⟩ ttl, none⟩] ∧
      (∀ e ∈ pre, e.call.isSave = false) ∧
      (⟨.usersEnsureExists res.1.1.2, none⟩ : Event) ∈ pre ∧
      (World.since w res.2).countP (fun e => e.call.isSave) = 1 := by
  intro res tokens hok
  rcases auth.completeOAuth_ended table rand u code state ttl w with
    ⟨err, hres, -⟩ | ⟨p, sid, uid, sv, hsince, hp, hens, hres⟩
  · exfalso
    have : (auth.CompleteOAuthToSession table rand u code state ttl w).1.2 = none := hok
    rw [hres] at this
    exact absurd this (by simp)
  · rcases sv with _ | e2
    · have h1 : res.1.1.1 = sid := by
        show (auth.CompleteOAuthToSession table rand u code state ttl w).1.1.1 = sid
        rw [hres]
      have h2 : res.1.1.2 = uid := by
        show (auth.CompleteOAuthToSession table rand u code state ttl w).1.1.2 = uid
        rw [hres]
      rw [h1, h2]
      refine ⟨p, hsince, fun e he => (hp e he).1, hens, ?_⟩
      rw [hsince, List.countP_append]
      have hzero : List.countP (fun e => e.call.isSave) p = 0 := by
        rw [List.countP_eq_zero]
        intro e he
        rw [(hp e he).1]
        decide
      rw [hzero]
      rfl
    · exfalso
      have : (auth.CompleteOAuthToSession table rand u code state ttl w).1.2 = none := hok
      rw [hres] at this
      exact absurd this (by simp)

/-- C12 at a concrete input: the gateway refuses the code `bad`. -/
theorem completeOAuth_no_partial_session_witness :
    (auth.CompleteOAuthToSession id (liftRand fixture.rand) fixture.authUsecase
        "bad" "st-1" 3600 fixture.world0).1.2 ≠ none ∧
    (auth.CompleteOAuthToSession id (liftRand fixture.rand) fixture.authUsecase
        "bad" "st-1" 3600 fixture.world0).1.1 = ("", "") ∧
    (∀ e ∈ World.since fixture.world0
        (auth.CompleteOAuthToSession id (liftRand fixture.rand) fixture.authUsecase
          "bad" "st-1" 3600 fixture.world0).2, e.call.isSave = false) := by
  have h := completeOAuth_no_partial_session id (liftRand fixture.rand)
    fixture.authUsecase "bad" "st-1" 3600 fixture.world0
  exact ⟨by decide, h.1 (by decide), by decide⟩

/-- C13 at a concrete input: the login of `carol` saves one session. -/
theorem completeOAuth_saves_session_once_witness :
    (auth.CompleteOAuthToSession id (liftRand fixture.rand) fixture.authUsecase
        "good" "st-1" 3600 fixture.world0).1.2 = none ∧
    (World.since fixture.world0
        (auth.CompleteOAuthToSession id (liftRand fixture.rand) fixture.authUsecase
          "good" "st-1" 3600 fixture.world0).2).countP (fun e => e.call.isSave) = 1 := by
  have hok : (auth.CompleteOAuthToSession id (liftRand fixture.rand) fixture.authUsecase
      "good" "st-1" 3600 fixture.world0).1.2 = none := by decide
  obtain ⟨pre, -, -, -, h⟩ := completeOAuth_saves_session_once id (liftRand fixture.rand)
    fixture.authUsecase "good" "st-1" 3600 fixture.world0 hok
  exact ⟨hok, h⟩

/-! ### Errors of the role lookup -/

/-- The gate of `llmadmin` when the role lookup fails. -/
theorem llmadmin.authorize_role_error {σ : Type} (u : llmadmin.Usecase σ) (sessionID : String)
    (w : World σ) (e : GoError) (hid : sessionID ≠ "")
    (hget : (u.sessions.Get sessionID w.state).1.2 = none)
    (hrole : (u.users.GetRole (u.sessions.Get sessionID w.state).1.1.UserID
      (u.sessions.Get sessionID w.state).2).1.2 = some e) :
    llmadmin.authorize u sessionID w
      = (some e, ⟨(u.users.GetRole (u.sessions.Get sessionID w.state).1.1.UserID
          (u.sessions.Get sessionID w.state).2).2,
        w.trace ++ [⟨.sessionsGet sessionID, none⟩,
          ⟨.usersGetRole (u.sessions.Get sessionID w.state).1.1.UserID, some e⟩]⟩) := by
  simp [llmadmin.authorize, hid, World.call, hget, hrole]

/-- C14: in `ListUsers` and `SetUserRole` of `rbac` and in the six operations of
`llmadmin`, when the session lookup succeeds and `GetRole` for the user of the
session returns the error `e`, the operation returns exactly `e` (with the zero
value), and its only calls are the session lookup and that role lookup. -/
theorem role_lookup_error_propagates {σ : Type} (sessionID : String) (w : World σ)
    (e : GoError) :
    (∀ (u : rbac.Usecase σ) (limit offset : Int) (target : String) (role : Role),
      sessionID ≠ "" → (u.sessions.Get sessionID w.state).1.2 = none →
      (u.users.GetRole (u.sessions.Get sessionID w.state).1.1.UserID
        (u.sessions.Get sessionID w.state).2).1.2 = some e →
      (rbac.ListUsers u sessionID limit offset w).1 = ([], some e) ∧
      (rbac.SetUserRole u sessionID target role w).1 = some e ∧
      ∀ w1 ∈ [(rbac.ListUsers u sessionID limit offset w).2,
          (rbac.SetUserRole u sessionID target role w).2],
        World.since w w1 = [⟨.sessionsGet sessionID, none⟩,
          ⟨.usersGetRole (u.sessions.Get sessionID w.state).1.1.UserID, some e⟩]) ∧
    (∀ (u : llmadmin.Usecase σ) (cfg : LLMProviderConfig) (provider : LLMProviderType)
        (mcfg : LLMModelConfig) (id : String),
      sessionID ≠ "" → (u.sessions.Get sessionID w.state).1.2 = none →
      (u.users.GetRole (u.sessions.Get sessionID w.state).1.1.UserID
        (u.sessions.Get sessionID w.state).2).1.2 = some e →
      (llmadmin.ListProviderConfigs u sessionID w).1 = ([], some e) ∧
      (llmadmin.UpsertProviderConfig u sessionID cfg w).1 = some e ∧
      (llmadmin.DeleteProviderConfig u sessionID provider w).1 = some e ∧
      (llmadmin.ListModels u sessionID w).1 = ([], some e) ∧
      (llmadmin.UpsertModel u sessionID mcfg w).1 = ("", some e) ∧
      (llmadmin.DeleteModel u sessionID id w).1 = some e ∧
      ∀ w1 ∈ [(llmadmin.ListProviderConfigs u sessionID w).2,
          (llmadmin.UpsertProviderConfig u sessionID cfg w).2,
          (llmadmin.DeleteProviderConfig u sessionID provider w).2,
          (llmadmin.ListModels u sessionID w).2,
          (llmadmin.UpsertModel u sessionID mcfg w).2,
          (llmadmin.DeleteModel u sessionID id w).2],
        World.since w w1 = [⟨.sessionsGet sessionID, none⟩,
          ⟨.usersGetRole (u.sessions.Get sessionID w.state).1.1.UserID, some e⟩]) := by
  constructor
  · intro u limit offset target role hid hget hrole
    have hL : rbac.ListUsers u sessionID limit offset w
        = (([], some e), ⟨(u.users.GetRole (u.sessions.Get sessionID w.state).1.1.UserID
            (u.sessions.Get sessionID w.state).2).2,
          w.trace ++ [⟨.sessionsGet sessionID, none⟩,
            ⟨.usersGetRole (u.sessions.Get sessionID w.state).1.1.UserID, some e⟩]⟩) := by
      simp [rbac.ListUsers, hid, World.call, hget, hrole]
    have hS : rbac.SetUserRole u sessionID target role w
        = (some e, ⟨(u.users.GetRole (u.sessions.Get sessionID w.state).1.1.UserID
            (u.sessions.Get sessionID w.state).2).2,
          w.trace ++ [⟨.sessionsGet sessionID, none⟩,
            ⟨.usersGetRole (u.sessions.Get sessionID w.state).1.1.UserID, some e⟩]⟩) := by
      simp [rbac.SetUserRole, hid, World.call, hget, hrole]
    rw [hL, hS]
    refine ⟨rfl, rfl, ?_⟩
    intro w1 hw1
    simp only [List.mem_cons, List.mem_singleton, List.not_mem_nil, or_false, or_self] at hw1
    rw [hw1]
    exact World.since_append w _ _
  · intro u cfg provider mcfg id hid hget hrole
    have ha := llmadmin.authorize_role_error u sessionID w e hid hget hrole
    obtain ⟨e1, e2, e3, e4, e5, e6⟩ :=
      (llmadmin.after_authorize u sessionID cfg provider mcfg id w).1 e (by rw [ha])
    rw [e1, e2, e3, e4, e5, e6, ha]
    refine ⟨rfl, rfl, rfl, rfl, rfl, rfl, ?_⟩
    intro w1 hw1
    simp only [List.mem_cons, List.mem_singleton, List.not_mem_nil, or_false, or_self] at hw1
    rw [hw1]
    exact World.since_append w _ _

/-- C14 at a concrete input: the session `s-ghost` is of a user without a record. -/
theorem role_lookup_error_propagates_witness :
    (rbac.ListUsers fixture.rbacUsecase "s-ghost" 10 0 fixture.world0).1
      = ([], some ErrRecordNotFound) ∧
    (llmadmin.DeleteModel fixture.llmadminUsecase "s-ghost" "m-1" fixture.world0).1
      = some ErrRecordNotFound := by
  have h := role_lookup_error_propagates "s-ghost" fixture.world0 ErrRecordNotFound
  exact ⟨(h.1 fixture.rbacUsecase 10 0 "bob" "admin" (by decide) (by decide) (by decide)).1,
    (h.2 fixture.llmadminUsecase ⟨"dashscope", "", "", 0⟩ "dashscope" ⟨"dashscope", [], "m"⟩
      "m-1" (by decide) (by decide) (by decide)).2.2.2.2.2.1⟩

/-! ### The nickname -/

/-- The UTF-8 encoding of a list of runes has at least one byte for each rune. -/
theorem strings.length_le_go (cs : List Char) : cs.length ≤ String.utf8ByteSize.go cs := by
  induction cs with
  | nil => exact Nat.le_refl 0
  | cons c cs ih =>
    have hc : 0 < c.utf8Size := Char.utf8Size_pos c
    simp only [List.length_cons, String.utf8ByteSize.go]
    omega

/-- A string has at least as many bytes as runes. -/
theorem strings.length_le_len (s : String) : s.length ≤ strings.len s := by
  cases s with
  | mk cs => exact strings.length_le_go cs

/-- C15: for every valid session and every nickname whose trimmed form has 33
characters or more, `UpdateMyNickname` fails with `ErrInvalidNickname`; its only
call is the session lookup, so `SetNickname` is not called. -/
theorem updateMyNickname_rejects_long {σ : Type} (u : rbac.Usecase σ) (sessionID : String)
    (nickname : String) (w : World σ)
    (hid : sessionID ≠ "")
    (hget : (u.sessions.Get sessionID w.state).1.2 = none)
    (hlong : 33 ≤ (strings.TrimSpace nickname).length) :
    (rbac.UpdateMyNickname u sessionID nickname w).1
      = (Me.zero, some rbac.ErrInvalidNickname) ∧
    World.since w (rbac.UpdateMyNickname u sessionID nickname w).2
      = [⟨.sessionsGet sessionID, none⟩] ∧
    (∀ e ∈ World.since w (rbac.UpdateMyNickname u sessionID nickname w).2,
      e.call.isSetNickname = false) := by
  have hlen : strings.len (strings.TrimSpace nickname) > 32 := by
    have := strings.length_le_len (strings.TrimSpace nickname)
    omega
  have hres : rbac.UpdateMyNickname u sessionID nickname w
      = ((Me.zero, some rbac.ErrInvalidNickname),
        ⟨(u.sessions.Get sessionID w.state).2,
          w.trace ++ [⟨.sessionsGet sessionID, none⟩]⟩) := by
    simp [rbac.UpdateMyNickname, hid, World.call, hget, hlen]
  rw [hres]
  refine ⟨rfl, World.since_append w _ _, ?_⟩
  intro e he
  rw [World.since_append] at he
  rw [List.mem_singleton] at he
  subst he
  rfl

/-- C15 at a concrete input: a nickname of 33 letters with blanks around it. -/
theorem updateMyNickname_rejects_long_witness :
    (strings.TrimSpace "  abcdefghijklmnopqrstuvwxyz0123456 ").length = 33 ∧
    (rbac.UpdateMyNickname fixture.rbacUsecase "s-bob"
        "  abcdefghijklmnopqrstuvwxyz0123456 " fixture.world0).1
      = (Me.zero, some rbac.ErrInvalidNickname) :=
  ⟨by decide, (updateMyNickname_rejects_long fixture.rbacUsecase "s-bob"
    "  abcdefghijklmnopqrstuvwxyz0123456 " fixture.world0
    (by decide) (by decide) (by decide)).1⟩

/-- C16 (as stated) fails, in three ways. A nickname of 17 letters `é` has 17
characters and 34 bytes: for the valid session `s-bob` it is refused with
`ErrInvalidNickname` and `SetNickname` is not called. For a session that carries the
empty user id, the nickname `nick` is accepted, yet no row is written and the view
returned has the empty nickname. And when the update of the row fails in the
database, the call for `s-bob` returns that error and stores nothing. -/
theorem updateMyNickname_counts_bytes_counterexample :
    ((strings.TrimSpace (String.mk (List.replicate 17 (Char.ofNat 233)))).length = 17 ∧
      strings.len (strings.TrimSpace (String.mk (List.replicate 17 (Char.ofNat 233)))) = 34 ∧
      (fixture.getSession "s-bob" ()).1.2 = none ∧
      (rbac.UpdateMyNickname fixture.rbacUsecase "s-bob"
          (String.mk (List.replicate 17 (Char.ofNat 233))) fixture.world0).1
        = (Me.zero, some rbac.ErrInvalidNickname) ∧
      (∀ e ∈ (rbac.UpdateMyNickname fixture.rbacUsecase "s-bob"
          (String.mk (List.replicate 17 (Char.ofNat 233))) fixture.world0).2.trace,
        e.call.isSetNickname = false)) ∧
    ((rbac.UpdateMyNickname fixture.rbacUsecaseVoid "s-1" "nick" fixture.world0).1
        = (⟨"", RoleUser, "", none, ""⟩, none) ∧
      (rbac.UpdateMyNickname fixture.rbacUsecaseVoid "s-1" "nick" fixture.world0).2.state.2
        = fixture.db0) ∧
    ((rbac.UpdateMyNickname fixture.rbacUsecase "s-bob" "nick"
        ⟨((), { fixture.db0 with faults := [none, some "connection lost"] }), []⟩).1
        = (Me.zero, some (.foreign "connection lost")) ∧
      (rbac.UpdateMyNickname fixture.rbacUsecase "s-bob" "nick"
        ⟨((), { fixture.db0 with faults := [none, some "connection lost"] }), []⟩).2.state.2
        = fixture.db0) := by
  decide

/-- C16 (amended): on the relational user repository, for every valid session and
every nickname whose trimmed form has at most 32 bytes, `UpdateMyNickname` does not
fail with `ErrInvalidNickname`, and it calls `SetNickname` with the user id of the
session and the trimmed nickname. When the call reports no error, the calls were
`Get`, `SetNickname` and `GetMe`, each without error, the result is the view of
`GetMe` on the rows that `SetNickname` left, and, when the user id of the session is
not empty, that view carries the user id and the trimmed nickname, which the row of
the user holds. -/
theorem updateMyNickname_stores_short (S : Type) (table : Char → Char)
    (sessions : rbac.SessionStore S) (sessionID : String) (nickname : String)
    (w : World (S × DB))
    (hid : sessionID ≠ "")
    (hget : (sessions.Get sessionID w.state.1).1.2 = none)
    (hlen : strings.len (strings.TrimSpace nickname) ≤ 32) :
    let u : rbac.Usecase (S × DB) :=
      ⟨⟨fun sessionID => offDB (sessions.Get sessionID)⟩, rbacUsers S table⟩
    let userID := (sessions.Get sessionID w.state.1).1.1.UserID
    let nick := strings.TrimSpace nickname
    let res := rbac.UpdateMyNickname u sessionID nickname w
    res.1.2 ≠ some rbac.ErrInvalidNickname ∧
    (∃ rest, World.since w res.2
      = ⟨.sessionsGet sessionID, none⟩ ::
        ⟨.usersSetNickname userID nick, (SetNickname userID nick w.state.2).1⟩ :: rest) ∧
    (res.1.2 = none →
      World.since w res.2
        = [⟨.sessionsGet sessionID, none⟩, ⟨.usersSetNickname userID nick, none⟩,
           ⟨.usersGetMe userID, none⟩] ∧
      res.1 = (GetMe table userID (SetNickname userID nick w.state.2).2).1 ∧
      res.2.state.2.calm = (SetNickname userID nick w.state.2).2.calm ∧
      (userID ≠ "" →
        res.1.1.Nickname = nick ∧ res.1.1.UserID = userID ∧
        ∃ r, res.2.state.2.findUser userID = some r ∧ r.Nickname = nick)) := by
  intro u userID nick res
  have hnot : ¬ strings.len (strings.TrimSpace nickname) > 32 := by omega
  have hG := getMe_spec table userID (SetNickname userID nick w.state.2).2
  rcases hsn : (SetNickname userID nick w.state.2).1 with _ | err
  · -- the nickname is stored
    have hres : res = ((GetMe table userID (SetNickname userID nick w.state.2).2).1,
        ⟨((sessions.Get sessionID w.state.1).2,
            (GetMe table userID (SetNickname userID nick w.state.2).2).2),
          w.trace ++ [⟨.sessionsGet sessionID, none⟩, ⟨.usersSetNickname userID nick, none⟩,
           ⟨.usersGetMe userID,
             (GetMe table userID (SetNickname userID nick w.state.2).2).1.2⟩]⟩) := by
      simp only [res, rbac.UpdateMyNickname, hid, if_false]
      simp [u, World.call, World.callE, offDB, onDB, rbacUsers, hget, hnot, hsn,
        userID, nick]
    have hkind : (GetMe table userID (SetNickname userID nick w.state.2).2).1.2 = none ∨
        ∃ msg, (GetMe table userID (SetNickname userID nick w.state.2).2).1.2
          = some (.foreign msg) := by
      rw [hG.2]
      exact (next_spec _).2
    rw [hres]
    refine ⟨?_, ⟨_, World.since_append w _ _⟩, ?_⟩
    · rcases hkind with h | ⟨msg, h⟩
      · show (GetMe table userID (SetNickname userID nick w.state.2).2).1.2 ≠ _
        rw [h]; simp
      · show (GetMe table userID (SetNickname userID nick w.state.2).2).1.2 ≠ _
        rw [h]
        intro hc
        injection hc with hc
        simp [rbac.ErrInvalidNickname] at hc
    · intro hok
      have hok2 : (GetMe table userID (SetNickname userID nick w.state.2).2).1.2 = none := hok
      have hstate : (GetMe table userID (SetNickname userID nick w.state.2).2).2.calm
          = (SetNickname userID nick w.state.2).2.calm := by
        rw [hG.1]
        exact (next_spec _).1
      refine ⟨?_, rfl, hstate, ?_⟩
      · rw [World.since_append, hok2]
      · intro hne
        obtain ⟨r, hr, hnick, hrid⟩ := setNickname_find_self userID nick w.state.2 hne hsn
        have hq : (SetNickname userID nick w.state.2).2.next.1 = none := by
          rw [← hG.2]; exact hok2
        obtain ⟨-, m2, m3⟩ := getMe_found table userID _ r hr hq
        refine ⟨?_, ?_, r, ?_, hnick⟩
        · show (GetMe table userID (SetNickname userID nick w.state.2).2).1.1.Nickname = nick
          rw [m3, hnick]
        · show (GetMe table userID (SetNickname userID nick w.state.2).2).1.1.UserID = userID
          rw [m2, hrid]
        · show (GetMe table userID (SetNickname userID nick w.state.2).2).2.findUser userID = _
          rw [findUser_of_calm _ _ hstate, hr]
  · -- `SetNickname` fails
    have hres : res = ((Me.zero, some err),
        ⟨((sessions.Get sessionID w.state.1).2, (SetNickname userID nick w.state.2).2),
          w.trace ++ [⟨.sessionsGet sessionID, none⟩,
            ⟨.usersSetNickname userID nick, some err⟩]⟩) := by
      simp only [res, rbac.UpdateMyNickname, hid, if_false]
      simp [u, World.call, World.callE, offDB, onDB, rbacUsers, hget, hnot, hsn,
        userID, nick]
    rw [hres]
    refine ⟨?_, ⟨[], World.since_append w _ _⟩, ?_⟩
    · rcases setNickname_rows userID nick w.state.2 with ⟨⟨msg, hm⟩, -⟩ | ⟨hm, -, -⟩
      · rw [hsn] at hm
        injection hm with hm
        show some err ≠ _
        rw [hm]
        intro hc
        injection hc with hc
        simp [rbac.ErrInvalidNickname] at hc
      · rw [hsn] at hm
        exact absurd hm (by simp)
    · intro hok
      exact absurd hok (by simp)

/-- C16 (amended) at concrete inputs: a nickname of 32 letters, and the empty one. -/
theorem updateMyNickname_stores_short_witness :
    (rbac.UpdateMyNickname fixture.rbacUsecase "s-bob"
        " abcdefghijklmnopqrstuvwxyz012345 " fixture.world0).1.1.Nickname
      = "abcdefghijklmnopqrstuvwxyz012345" ∧
    (rbac.UpdateMyNickname fixture.rbacUsecase "s-bob" "" fixture.world0).1.2
      ≠ some rbac.ErrInvalidNickname :=
  ⟨(((updateMyNickname_stores_short Unit id ⟨fixture.getSession⟩ "s-bob"
      " abcdefghijklmnopqrstuvwxyz012345 " fixture.world0
      (by decide) (by decide) (by decide)).2.2 (by decide)).2.2.2 (by decide)).1,
   (updateMyNickname_stores_short Unit id ⟨fixture.getSession⟩ "s-bob"
      "" fixture.world0 (by decide) (by decide) (by decide)).1⟩

/-! ### Validation in the provider and model administration -/

/-- The gate of `llmadmin` passes for a valid session of an admin or super admin. -/
theorem llmadmin.authorize_passes {σ : Type} (u : llmadmin.Usecase σ) (sessionID : String)
    (w : World σ) :
    let g := w.call (.sessionsGet sessionID) (u.sessions.Get sessionID)
    let r := g.2.call (.usersGetRole g.1.1.UserID) (u.users.GetRole g.1.1.UserID)
    sessionID ≠ "" → g.1.2 = none → r.1.2 = none →
    (r.1.1 = RoleSuperAdmin ∨ r.1.1 = RoleAdmin) →
    llmadmin.authorize u sessionID w = (none, r.2) ∧
    World.since w r.2
      = [⟨.sessionsGet sessionID, none⟩, ⟨.usersGetRole g.1.1.UserID, none⟩] := by
  intro g r hid hg hr hadmin
  have hn : ¬ (r.1.1 ≠ RoleSuperAdmin ∧ r.1.1 ≠ RoleAdmin) := by
    rintro ⟨h1, h2⟩
    rcases hadmin with h | h
    · exact h1 h
    · exact h2 h
  constructor
  · simp only [llmadmin.authorize, hid, if_false]
    show (match g.1.2 with
      | some _ => _
      | none => match r.1.2 with
        | some err => _
        | none => _) = _
    rw [hg, hr]
    exact if_neg hn
  · have hg2 : (u.sessions.Get sessionID w.state).1.2 = none := hg
    have hr2 : (u.users.GetRole (u.sessions.Get sessionID w.state).1.1.UserID
        (u.sessions.Get sessionID w.state).2).1.2 = none := hr
    simp [r, g, World.since, World.call, hg2, hr2]

/-- The four operations of `llmadmin` that validate their input, once the gate
has passed. -/
theorem llmadmin.after_pass {σ : Type} (u : llmadmin.Usecase σ) (sessionID : String)
    (cfg : LLMProviderConfig) (provider : LLMProviderType) (mcfg : LLMModelConfig)
    (id : String) (w : World σ) (ha : (llmadmin.authorize u sessionID w).1 = none) :
    let a := llmadmin.authorize u sessionID w
    llmadmin.UpsertProviderConfig u sessionID cfg w
      = (if cfg.Provider = LLMProviderUnspecified then (some llmadmin.ErrInvalidProvider, a.2)
        else a.2.callE
          (.adminUpsertProviderConfig ⟨cfg.Provider, strings.TrimSpace cfg.BaseURL,
            strings.TrimSpace cfg.APIKey, cfg.TimeoutSeconds⟩)
          (u.admin.UpsertProviderConfig ⟨cfg.Provider, strings.TrimSpace cfg.BaseURL,
            strings.TrimSpace cfg.APIKey, cfg.TimeoutSeconds⟩)) ∧
    llmadmin.DeleteProviderConfig u sessionID provider w
      = (if provider = LLMProviderUnspecified then (some llmadmin.ErrInvalidProvider, a.2)
        else a.2.callE (.adminDeleteProviderConfig provider)
          (u.admin.DeleteProviderConfig provider)) ∧
    llmadmin.UpsertModel u sessionID mcfg w
      = (if mcfg.Provider = LLMProviderUnspecified then
          (("", some llmadmin.ErrInvalidProvider), a.2)
        else
          match (a.2.call .adminListProviderConfigs u.admin.ListProviderConfigs).1.2 with
          | some err =>
            (("", some err), (a.2.call .adminListProviderConfigs u.admin.ListProviderConfigs).2)
          | none =>
            if ¬ ((a.2.call .adminListProviderConfigs u.admin.ListProviderConfigs).1.1.any
                (fun pc => decide (pc.Provider = mcfg.Provider))) = true then
              (("", some llmadmin.ErrProviderNotConfigured),
                (a.2.call .adminListProviderConfigs u.admin.ListProviderConfigs).2)
            else if strings.TrimSpace mcfg.UpstreamModel = "" then
              (("", some llmadmin.ErrInvalidUpstreamModel),
                (a.2.call .adminListProviderConfigs u.admin.ListProviderConfigs).2)
            else
              (a.2.call .adminListProviderConfigs u.admin.ListProviderConfigs).2.call
                (.adminUpsertModel
                  ⟨mcfg.Provider, mcfg.Capabilities, strings.TrimSpace mcfg.UpstreamModel⟩)
                (u.admin.UpsertModel
                  ⟨mcfg.Provider, mcfg.Capabilities, strings.TrimSpace mcfg.UpstreamModel⟩)) ∧
    llmadmin.DeleteModel u sessionID id w
      = (if strings.TrimSpace id = "" then (some llmadmin.ErrInvalidModelID, a.2)
        else a.2.callE (.adminDeleteModel (strings.TrimSpace id))
          (u.admin.DeleteModel (strings.TrimSpace id))) := by
  intro a
  have ha2 : a.1 = none := ha
  refine ⟨?_, ?_, ?_, ?_⟩
  · simp only [llmadmin.UpsertProviderConfig]
    show (match a.1 with
      | some err => _
      | none => _) = _
    rw [ha2]
  · simp only [llmadmin.DeleteProviderConfig]
    show (match a.1 with
      | some err => _
      | none => _) = _
    rw [ha2]
  · simp only [llmadmin.UpsertModel]
    show (match a.1 with
      | some err => _
      | none => _) = _
    rw [ha2]
  · simp only [llmadmin.DeleteModel]
    show (match a.1 with
      | some err => _
      | none => _) = _
    rw [ha2]

/-- C17 (as stated) fails: the provider `openrouter` has no config in the listing,
and the user `bob` gets `ErrForbidden` from `UpsertModel`; the admin `ann` gets
`ErrInvalidProvider` for the unspecified provider, which has no config either. -/
theorem upsertModel_provider_not_configured_counterexample :
    (∀ pc ∈ (fixture.adminPort.ListProviderConfigs fixture.world0.state).1.1,
      pc.Provider ≠ "openrouter" ∧ pc.Provider ≠ LLMProviderUnspecified) ∧
    (GetRole id "bob" fixture.db0).1 = (RoleUser, none) ∧
    (llmadmin.UpsertModel fixture.llmadminUsecase "s-bob" ⟨"openrouter", [], "m"⟩
        fixture.world0).1 = ("", some llmadmin.ErrForbidden) ∧
    (GetRole id "ann" fixture.db0).1 = (RoleAdmin, none) ∧
    (llmadmin.UpsertModel fixture.llmadminUsecase "s-ann" ⟨LLMProviderUnspecified, [], "m"⟩
        fixture.world0).1 = ("", some llmadmin.ErrInvalidProvider) ∧
    llmadmin.ErrForbidden ≠ llmadmin.ErrProviderNotConfigured ∧
    llmadmin.ErrInvalidProvider ≠ llmadmin.ErrProviderNotConfigured := by
  decide

/-- C17 (amended): for every actor with a valid session whose role is admin or
super_admin and every model config whose provider is not the unspecified one and
has no entry in the result of `ListProviderConfigs` (which returns no error),
`UpsertModel` fails with `ErrProviderNotConfigured`; its calls are the two lookups
of the gate and the listing, so the downstream `UpsertModel` is not called. -/
theorem upsertModel_provider_not_configured {σ : Type} (u : llmadmin.Usecase σ)
    (sessionID : String) (mcfg : LLMModelConfig) (w : World σ) :
    let g := w.call (.sessionsGet sessionID) (u.sessions.Get sessionID)
    let r := g.2.call (.usersGetRole g.1.1.UserID) (u.users.GetRole g.1.1.UserID)
    let l := r.2.call .adminListProviderConfigs u.admin.ListProviderConfigs
    sessionID ≠ "" → g.1.2 = none → r.1.2 = none →
    (r.1.1 = RoleSuperAdmin ∨ r.1.1 = RoleAdmin) →
    mcfg.Provider ≠ LLMProviderUnspecified →
    l.1.2 = none → (∀ pc ∈ l.1.1, pc.Provider ≠ mcfg.Provider) →
    llmadmin.UpsertModel u sessionID mcfg w
      = (("", some llmadmin.ErrProviderNotConfigured), l.2) ∧
    World.since w (llmadmin.UpsertModel u sessionID mcfg w).2
      = [⟨.sessionsGet sessionID, none⟩, ⟨.usersGetRole g.1.1.UserID, none⟩,
         ⟨.adminListProviderConfigs, none⟩] ∧
    (∀ e ∈ World.since w (llmadmin.UpsertModel u sessionID mcfg w).2,
      ∀ c, e.call ≠ .adminUpsertModel c) := by
  intro g r l hid hg hr hadmin hprov hl hmissing
  obtain ⟨ha, hsr⟩ := llmadmin.authorize_passes u sessionID w hid hg hr hadmin
  have ha1 : (llmadmin.authorize u sessionID w).1 = none := by rw [ha]
  have hbody := (llmadmin.after_pass u sessionID ⟨"", "", "", 0⟩ "" mcfg "" w ha1).2.2.1
  have ha2 : (llmadmin.authorize u sessionID w).2 = r.2 := by rw [ha]
  simp only [ha2] at hbody
  have hl2 : (r.2.call .adminListProviderConfigs u.admin.ListProviderConfigs).1.2 = none := hl
  have hany : ¬ ((r.2.call .adminListProviderConfigs u.admin.ListProviderConfigs).1.1.any
      (fun pc => decide (pc.Provider = mcfg.Provider))) = true := by
    rw [List.any_eq_true]
    rintro ⟨pc, hpc, hdec⟩
    exact hmissing pc hpc (of_decide_eq_true hdec)
  have hres : llmadmin.UpsertModel u sessionID mcfg w
      = (("", some llmadmin.ErrProviderNotConfigured), l.2) := by
    rw [hbody, if_neg hprov, hl2]
    simp only
    rw [if_pos hany]
  have hsince : World.since w l.2
      = [⟨.sessionsGet sessionID, none⟩, ⟨.usersGetRole g.1.1.UserID, none⟩,
         ⟨.adminListProviderConfigs, none⟩] := by
    have hg2 : (u.sessions.Get sessionID w.state).1.2 = none := hg
    have hr2 : (u.users.GetRole (u.sessions.Get sessionID w.state).1.1.UserID
        (u.sessions.Get sessionID w.state).2).1.2 = none := hr
    have hl3 : (u.admin.ListProviderConfigs
        (u.users.GetRole (u.sessions.Get sessionID w.state).1.1.UserID
          (u.sessions.Get sessionID w.state).2).2).1.2 = none := hl
    simp [l, r, g, World.since, World.call, hg2, hr2, hl3]
  rw [hres]
  refine ⟨rfl, hsince, ?_⟩
  intro e he c
  rw [hsince] at he
  simp only [List.mem_cons, List.mem_singleton, List.not_mem_nil, or_false] at he
  rcases he with h | h | h <;> subst h <;> simp

/-- C17 (amended) at a concrete input: the admin `ann` asks for a model of
`openrouter`, which has no provider config. -/
theorem upsertModel_provider_not_configured_witness :
    (llmadmin.UpsertModel fixture.llmadminUsecase "s-ann" ⟨"openrouter", [], "m"⟩
        fixture.world0).1 = ("", some llmadmin.ErrProviderNotConfigured) :=
  congrArg Prod.fst (upsertModel_provider_not_configured fixture.llmadminUsecase "s-ann"
    ⟨"openrouter", [], "m"⟩ fixture.world0 (by decide) (by decide) (by decide)
    (Or.inr (by decide)) (by decide) (by decide) (by decide)).1

/-- C18 (as stated) fails: for the admin `ann` the provider value `foo`, which is
none of the recognised ones, is not refused: `UpsertProviderConfig` and
`DeleteProviderConfig` hand it to the admin port and return its answer, and
`UpsertModel` goes on to the listing and fails with `ErrProviderNotConfigured`. -/
theorem llmadmin_unrecognised_provider_counterexample :
    ("foo" ≠ LLMProviderDashscope ∧ "foo" ≠ LLMProviderOpenRouter) ∧
    (GetRole id "ann" fixture.db0).1 = (RoleAdmin, none) ∧
    (llmadmin.UpsertProviderConfig fixture.llmadminUsecase "s-ann" ⟨"foo", "https://f", "k", 5⟩
        fixture.world0).1 = none ∧
    (llmadmin.UpsertProviderConfig fixture.llmadminUsecase "s-ann" ⟨"foo", "https://f", "k", 5⟩
        fixture.world0).2.trace.map Event.call
      = [.sessionsGet "s-ann", .usersGetRole "ann",
         .adminUpsertProviderConfig ⟨"foo", "https://f", "k", 5⟩] ∧
    (llmadmin.DeleteProviderConfig fixture.llmadminUsecase "s-ann" "foo" fixture.world0).1
      = none ∧
    (llmadmin.UpsertModel fixture.llmadminUsecase "s-ann" ⟨"foo", [], "m"⟩ fixture.world0).1
      = ("", some llmadmin.ErrProviderNotConfigured) ∧
    llmadmin.ErrProviderNotConfigured ≠ llmadmin.ErrInvalidProvider := by
  decide

/-- C18 (amended): for an actor with a valid session whose role is admin or
super_admin, `UpsertProviderConfig`, `DeleteProviderConfig` and `UpsertModel` fail
with `ErrInvalidProvider`, without any call on the admin port, when the provider is
the unspecified one (the empty value). Every other provider value, recognised or
not, passes this check: `UpsertProviderConfig` and `DeleteProviderConfig` return
what the admin port returns for it, and `UpsertModel` goes on to the listing of the
provider configs. -/
theorem llmadmin_unspecified_provider_invalid {σ : Type} (u : llmadmin.Usecase σ)
    (sessionID : String) (cfg : LLMProviderConfig) (provider : LLMProviderType)
    (mcfg : LLMModelConfig) (w : World σ) :
    let g := w.call (.sessionsGet sessionID) (u.sessions.Get sessionID)
    let r := g.2.call (.usersGetRole g.1.1.UserID) (u.users.GetRole g.1.1.UserID)
    sessionID ≠ "" → g.1.2 = none → r.1.2 = none →
    (r.1.1 = RoleSuperAdmin ∨ r.1.1 = RoleAdmin) →
    (cfg.Provider = LLMProviderUnspecified →
      llmadmin.UpsertProviderConfig u sessionID cfg w
        = (some llmadmin.ErrInvalidProvider, r.2)) ∧
    (provider = LLMProviderUnspecified →
      llmadmin.DeleteProviderConfig u sessionID provider w
        = (some llmadmin.ErrInvalidProvider, r.2)) ∧
    (mcfg.Provider = LLMProviderUnspecified →
      llmadmin.UpsertModel u sessionID mcfg w
        = (("", some llmadmin.ErrInvalidProvider), r.2)) ∧
    World.since w r.2
      = [⟨.sessionsGet sessionID, none⟩, ⟨.usersGetRole g.1.1.UserID, none⟩] ∧
    (cfg.Provider ≠ LLMProviderUnspecified →
      llmadmin.UpsertProviderConfig u sessionID cfg w
        = r.2.callE
          (.adminUpsertProviderConfig ⟨cfg.Provider, strings.TrimSpace cfg.BaseURL,
            strings.TrimSpace cfg.APIKey, cfg.TimeoutSeconds⟩)
          (u.admin.UpsertProviderConfig ⟨cfg.Provider, strings.TrimSpace cfg.BaseURL,
            strings.TrimSpace cfg.APIKey, cfg.TimeoutSeconds⟩)) ∧
    (provider ≠ LLMProviderUnspecified →
      llmadmin.DeleteProviderConfig u sessionID provider w
        = r.2.callE (.adminDeleteProviderConfig provider)
          (u.admin.DeleteProviderConfig provider)) ∧
    (mcfg.Provider ≠ LLMProviderUnspecified →
      ∃ rest, (llmadmin.UpsertModel u sessionID mcfg w).2.trace
        = r.2.trace ++ ⟨.adminListProviderConfigs,
            (u.admin.ListProviderConfigs r.2.state).1.2⟩ :: rest) := by
  intro g r hid hg hr hadmin
  obtain ⟨ha, hsr⟩ := llmadmin.authorize_passes u sessionID w hid hg hr hadmin
  have ha1 : (llmadmin.authorize u sessionID w).1 = none := by rw [ha]
  obtain ⟨b1, b2, b3, -⟩ := llmadmin.after_pass u sessionID cfg provider mcfg "" w ha1
  have ha2 : (llmadmin.authorize u sessionID w).2 = r.2 := by rw [ha]
  simp only [ha2] at b1 b2 b3
  refine ⟨?_, ?_, ?_, hsr, ?_, ?_, ?_⟩
  · intro h
    rw [b1, if_pos h]
  · intro h
    rw [b2, if_pos h]
  · intro h
    rw [b3, if_pos h]
  · intro h
    rw [b1, if_neg h]
  · intro h
    rw [b2, if_neg h]
  · intro h
    rw [b3, if_neg h]
    split
    · exact ⟨[], rfl⟩
    · split
      · exact ⟨[], rfl⟩
      · split
        · exact ⟨[], rfl⟩
        · exact ⟨_, by rw [World.call_trace, World.call_trace, List.append_assoc]; rfl⟩

/-- C18 (amended) at a concrete input: the admin `ann` and the unspecified provider. -/
theorem llmadmin_unspecified_provider_invalid_witness :
    (llmadmin.DeleteProviderConfig fixture.llmadminUsecase "s-ann" LLMProviderUnspecified
        fixture.world0).1 = some llmadmin.ErrInvalidProvider ∧
    (llmadmin.UpsertModel fixture.llmadminUsecase "s-ann" ⟨LLMProviderUnspecified, [], "m"⟩
        fixture.world0).1 = ("", some llmadmin.ErrInvalidProvider) := by
  have h := llmadmin_unspecified_provider_invalid fixture.llmadminUsecase "s-ann"
    ⟨"dashscope", "", "", 0⟩ LLMProviderUnspecified ⟨LLMProviderUnspecified, [], "m"⟩
    fixture.world0 (by decide) (by decide) (by decide) (Or.inr (by decide))
  exact ⟨congrArg Prod.fst (h.2.1 rfl), congrArg Prod.fst (h.2.2.1 rfl)⟩

/-- The three ways a validating operation of `llmadmin` relates to the admin port:
it made no call on it; or the error it returns is the one an admin call returned;
or it is `UpsertModel` failing with `ErrProviderNotConfigured` or
`ErrInvalidUpstreamModel` after the one listing of the provider configs. -/
theorem llmadmin.run_kinds {σ : Type} (u : llmadmin.Usecase σ) (sessionID : String)
    (cfg : LLMProviderConfig) (provider : LLMProviderType) (mcfg : LLMModelConfig)
    (id : String) (w : World σ) :
    ∀ p ∈ [llmadmin.UpsertProviderConfig u sessionID cfg w,
        llmadmin.DeleteProviderConfig u sessionID provider w,
        ((llmadmin.UpsertModel u sessionID mcfg w).1.2,
          (llmadmin.UpsertModel u sessionID mcfg w).2),
        llmadmin.DeleteModel u sessionID id w],
      (∀ e ∈ World.since w p.2, e.call.isAdmin = false) ∨
      (∃ e ∈ World.since w p.2, e.call.isAdmin = true ∧ e.err = p.1) ∨
      ((p.1 = some llmadmin.ErrProviderNotConfigured ∨
          p.1 = some llmadmin.ErrInvalidUpstreamModel) ∧
        ∀ e ∈ World.since w p.2, e.call.isAdmin = true →
          e = ⟨.adminListProviderConfigs, none⟩) := by
  obtain ⟨hnoadmin, hpass, -⟩ := llmadmin.authorize_spec u sessionID w
  rcases ha : (llmadmin.authorize u sessionID w).1 with _ | err
  · obtain ⟨⟨hid, hg, hr, hadmin⟩, ha2⟩ := hpass ha
    obtain ⟨-, hsr⟩ := llmadmin.authorize_passes u sessionID w hid hg hr hadmin
    obtain ⟨b1, b2, b3, b4⟩ := llmadmin.after_pass u sessionID cfg provider mcfg id w ha
    have hbase : ∀ e ∈ World.since w (llmadmin.authorize u sessionID w).2,
        e.call.isAdmin = false := hnoadmin
    have htr : ∃ pre, (llmadmin.authorize u sessionID w).2.trace = w.trace ++ pre ∧
        ∀ e ∈ pre, e.call.isAdmin = false := by
      refine ⟨World.since w (llmadmin.authorize u sessionID w).2, ?_, hbase⟩
      rw [ha2]
      simp [World.since, World.call]
    obtain ⟨pre, hpre, hpreadmin⟩ := htr
    have one : ∀ (c : Call) (f : σ → Option GoError × σ), c.isAdmin = true →
        ∃ e ∈ World.since w ((llmadmin.authorize u sessionID w).2.callE c f).2,
          e.call.isAdmin = true ∧
          e.err = ((llmadmin.authorize u sessionID w).2.callE c f).1 := by
      intro c f hc
      refine ⟨⟨c, (f (llmadmin.authorize u sessionID w).2.state).1⟩, ?_, hc, rfl⟩
      simp [World.since, World.callE, hpre]
    intro p hp
    simp only [List.mem_cons, List.mem_singleton, List.not_mem_nil, or_false] at hp
    rcases hp with h | h | h | h <;> subst h
    · rw [b1]
      split
      · exact Or.inl hbase
      · exact Or.inr (Or.inl (one _ _ rfl))
    · rw [b2]
      split
      · exact Or.inl hbase
      · exact Or.inr (Or.inl (one _ _ rfl))
    · rw [b3]
      have hlistmem : ∀ e ∈ World.since w ((llmadmin.authorize u sessionID w).2.call
          .adminListProviderConfigs u.admin.ListProviderConfigs).2, e.call.isAdmin = true →
          e = ⟨.adminListProviderConfigs, (u.admin.ListProviderConfigs
            (llmadmin.authorize u sessionID w).2.state).1.2⟩ := by
        intro e he hadm
        simp only [World.since, World.call, hpre, List.append_assoc, List.drop_left] at he
        rcases List.mem_append.mp he with h | h
        · rw [hpreadmin e h] at hadm
          exact absurd hadm (by decide)
        · rw [List.mem_singleton] at h
          exact h
      split
      · exact Or.inl hbase
      · rcases hl : ((llmadmin.authorize u sessionID w).2.call .adminListProviderConfigs
            u.admin.ListProviderConfigs).1.2 with _ | lerr
        · have hl2 : (u.admin.ListProviderConfigs
              (llmadmin.authorize u sessionID w).2.state).1.2 = none := hl
          simp only
          split
          · refine Or.inr (Or.inr ⟨Or.inl rfl, ?_⟩)
            intro e he hadm
            rw [← hl2]
            exact hlistmem e he hadm
          · split
            · refine Or.inr (Or.inr ⟨Or.inr rfl, ?_⟩)
              intro e he hadm
              rw [← hl2]
              exact hlistmem e he hadm
            · refine Or.inr (Or.inl ⟨⟨.adminUpsertModel ⟨mcfg.Provider, mcfg.Capabilities,
                  strings.TrimSpace mcfg.UpstreamModel⟩, _⟩, ?_, rfl, rfl⟩)
              simp [World.since, World.call, hpre]
        · simp only
          refine Or.inr (Or.inl ⟨⟨.adminListProviderConfigs, some lerr⟩, ?_, rfl, rfl⟩)
          have hl2 : (u.admin.ListProviderConfigs
              (llmadmin.authorize u sessionID w).2.state).1.2 = some lerr := hl
          simp [World.since, World.call, hpre, hl2]
    · rw [b4]
      split
      · exact Or.inl hbase
      · exact Or.inr (Or.inl (one _ _ rfl))
  · obtain ⟨e1, e2, e3, e4, e5, e6⟩ :=
      (llmadmin.after_authorize u sessionID cfg provider mcfg id w).1 err ha
    intro p hp
    simp only [List.mem_cons, List.mem_singleton, List.not_mem_nil, or_false] at hp
    rcases hp with h | h | h | h <;> subst h
    · rw [e2]; exact Or.inl hnoadmin
    · rw [e3]; exact Or.inl hnoadmin
    · rw [e5]; exact Or.inl hnoadmin
    · rw [e6]; exact Or.inl hnoadmin

/-- C19 (as stated) fails: for the admin `ann` and the configured provider
`dashscope`, `UpsertModel` with a blank upstream model returns
`ErrInvalidUpstreamModel` after it has called `ListProviderConfigs` on the admin
port. -/
theorem llmadmin_upstream_model_after_listing_counterexample :
    strings.TrimSpace "   " = "" ∧
    (llmadmin.UpsertModel fixture.llmadminUsecase "s-ann" ⟨"dashscope", [], "   "⟩
        fixture.world0).1 = ("", some llmadmin.ErrInvalidUpstreamModel) ∧
    (llmadmin.UpsertModel fixture.llmadminUsecase "s-ann" ⟨"dashscope", [], "   "⟩
        fixture.world0).2.trace
      = [⟨.sessionsGet "s-ann", none⟩, ⟨.usersGetRole "ann", none⟩,
         ⟨.adminListProviderConfigs, none⟩] ∧
    Call.adminListProviderConfigs.isAdmin = true := by
  decide

/-- C19 (amended): in `UpsertProviderConfig`, `DeleteProviderConfig`, `UpsertModel`
and `DeleteModel`, when the operation returns `ErrInvalidProvider` or
`ErrInvalidModelID` and that error is not one handed back by the admin port, no
method of the admin port was called. When it returns `ErrInvalidUpstreamModel`
(not handed back by the admin port), the only call on the admin port, if any, is
the listing of the provider configs, which returned no error; no method that
changes the downstream state was called. -/
theorem llmadmin_validation_before_mutation {σ : Type} (u : llmadmin.Usecase σ)
    (sessionID : String) (cfg : LLMProviderConfig) (provider : LLMProviderType)
    (mcfg : LLMModelConfig) (id : String) (w : World σ) :
    let runs := [llmadmin.UpsertProviderConfig u sessionID cfg w,
      llmadmin.DeleteProviderConfig u sessionID provider w,
      ((llmadmin.UpsertModel u sessionID mcfg w).1.2,
        (llmadmin.UpsertModel u sessionID mcfg w).2),
      llmadmin.DeleteModel u sessionID id w]
    (∀ x ∈ [llmadmin.ErrInvalidProvider, llmadmin.ErrInvalidModelID], ∀ p ∈ runs,
      p.1 = some x →
      (∀ e ∈ World.since w p.2, e.call.isAdmin = true → e.err ≠ some x) →
      ∀ e ∈ World.since w p.2, e.call.isAdmin = false) ∧
    (∀ p ∈ runs, p.1 = some llmadmin.ErrInvalidUpstreamModel →
      (∀ e ∈ World.since w p.2, e.call.isAdmin = true →
        e.err ≠ some llmadmin.ErrInvalidUpstreamModel) →
      ∀ e ∈ World.since w p.2, e.call.isAdmin = true →
        e = ⟨.adminListProviderConfigs, none⟩) := by
  intro runs
  have hk := llmadmin.run_kinds u sessionID cfg provider mcfg id w
  constructor
  · intro x hx p hp hres hport
    rcases hk p hp with h | ⟨e, he, hadm, herr⟩ | ⟨hcase, -⟩
    · exact h
    · exfalso
      exact hport e he hadm (by rw [herr, hres])
    · exfalso
      rw [hres] at hcase
      simp only [List.mem_cons, List.mem_singleton, List.not_mem_nil, or_false] at hx
      rcases hx with h | h <;> subst h <;> revert hcase <;> decide
  · intro p hp hres hport e he hadm
    rcases hk p hp with h | ⟨e2, he2, hadm2, herr⟩ | ⟨-, hlist⟩
    · rw [h e he] at hadm
      exact absurd hadm (by decide)
    · exfalso
      exact hport e2 he2 hadm2 (by rw [herr, hres])
    · exact hlist e he hadm

/-- C19 (amended) at a concrete input: the admin `ann` deletes the model with a
blank id. -/
theorem llmadmin_validation_before_mutation_witness :
    (llmadmin.DeleteModel fixture.llmadminUsecase "s-ann" "  " fixture.world0).1
      = some llmadmin.ErrInvalidModelID ∧
    (∀ e ∈ World.since fixture.world0
        (llmadmin.DeleteModel fixture.llmadminUsecase "s-ann" "  " fixture.world0).2,
      e.call.isAdmin = false) := by
  have hres : (llmadmin.DeleteModel fixture.llmadminUsecase "s-ann" "  " fixture.world0).1
      = some llmadmin.ErrInvalidModelID := by decide
  have h := (llmadmin_validation_before_mutation fixture.llmadminUsecase "s-ann"
    ⟨"dashscope", "", "", 0⟩ "dashscope" ⟨"dashscope", [], "m"⟩ "  " fixture.world0).1
    llmadmin.ErrInvalidModelID (by simp) _ (by simp) hres (by decide)
  exact ⟨hres, h⟩

/-! ### Token issuance -/

/-- C20: for a non-empty session id for which `Get` succeeds with session `s`,
`IssueToken` on the use case built by `New` from a session store, an issuer,
`ttlSeconds` and `allowedModelIDs` returns exactly what the issuer returns for
`(s.UserID, ttlSeconds, allowedModelIDs)`; its calls are the session lookup and
then that one call of the issuer, so no role lookup is made. -/
theorem issueToken_delegates {σ : Type} (sessions : llmtoken.SessionStore σ)
    (issuer : llmtoken.TokenIssuer σ) (ttlSeconds : Int) (allowedModelIDs : List String)
    (sessionID : String) (w : World σ)
    (hid : sessionID ≠ "")
    (hget : (sessions.Get sessionID w.state).1.2 = none) :
    let s := (sessions.Get sessionID w.state).1.1
    let res := llmtoken.IssueToken
      (some (llmtoken.New (some sessions) (some issuer) ttlSeconds allowedModelIDs))
      sessionID w
    res.1 = (issuer.IssueToken s.UserID ttlSeconds allowedModelIDs
      (sessions.Get sessionID w.state).2).1 ∧
    res.2.state = (issuer.IssueToken s.UserID ttlSeconds allowedModelIDs
      (sessions.Get sessionID w.state).2).2 ∧
    World.since w res.2
      = [⟨.sessionsGet sessionID, none⟩,
         ⟨.issuerIssueToken s.UserID ttlSeconds allowedModelIDs, res.1.2⟩] ∧
    (World.since w res.2).countP
      (fun e => decide (e.call = .issuerIssueToken s.UserID ttlSeconds allowedModelIDs)) = 1 ∧
    (∀ e ∈ World.since w res.2, e.call.isUsers = false) := by
  intro s res
  have hres : res = ((issuer.IssueToken s.UserID ttlSeconds allowedModelIDs
        (sessions.Get sessionID w.state).2).1,
      ⟨(issuer.IssueToken s.UserID ttlSeconds allowedModelIDs
        (sessions.Get sessionID w.state).2).2,
       w.trace ++ [⟨.sessionsGet sessionID, none⟩,
         ⟨.issuerIssueToken s.UserID ttlSeconds allowedModelIDs,
          (issuer.IssueToken s.UserID ttlSeconds allowedModelIDs
            (sessions.Get sessionID w.state).2).1.2⟩]⟩) := by
    simp [res, s, llmtoken.IssueToken, llmtoken.New, hid, World.call, hget]
  rw [hres]
  refine ⟨rfl, rfl, World.since_append w _ _, ?_, ?_⟩
  · rw [World.since_append]
    simp [List.countP_cons]
  · intro e he
    rw [World.since_append] at he
    simp only [List.mem_cons, List.mem_singleton, List.not_mem_nil, or_false] at he
    rcases he with h | h <;> subst h <;> rfl

/-- C20 at a concrete input: the session of `bob`. -/
theorem issueToken_delegates_witness :
    (llmtoken.IssueToken (some fixture.llmtokenUsecase) "s-bob" fixture.world0).1
      = (("tok-bob", 600), none) ∧
    (llmtoken.IssueToken (some fixture.llmtokenUsecase) "s-bob" fixture.world0).2.trace
      = [⟨.sessionsGet "s-bob", none⟩, ⟨.issuerIssueToken "bob" 600 ["m-1"], none⟩] := by
  have h := issueToken_delegates
    ⟨fun sessionID => offDB (fixture.getSession sessionID)⟩ fixture.issuer 600 ["m-1"]
    "s-bob" fixture.world0 (by decide) (by decide)
  exact ⟨h.1, h.2.2.1⟩

/-! ### Return targets, roles and provider types -/

namespace strings

theorem dropWhile_trimRunes (cs : List Char) :
    (trimRunes cs).dropWhile isSpace = trimRunes cs := by
  unfold trimRunes
  generalize hA : cs.dropWhile isSpace = A
  have hhead : ∀ c ∈ A.head?, isSpace c = false := by
    intro c hc
    rw [← hA] at hc
    have := List.head?_dropWhile_not isSpace cs
    rw [Option.mem_def] at hc
    rw [hc] at this
    simpa using this
  have hpre : (A.reverse.dropWhile isSpace).reverse <+: A := by
    have h := List.dropWhile_suffix isSpace (l := A.reverse)
    have := List.reverse_prefix.mpr h
    simpa using this
  obtain ⟨t, ht⟩ := hpre
  rcases hB : (A.reverse.dropWhile isSpace).reverse with _ | ⟨b, B⟩
  · rfl
  · rw [hB] at ht
    have hb : isSpace b = false := by
      apply hhead
      rw [← ht]; simp
    simp [List.dropWhile, hb]

theorem trimRunes_idem (cs : List Char) : trimRunes (trimRunes cs) = trimRunes cs := by
  have h1 := dropWhile_trimRunes cs
  have h2 : (trimRunes cs).reverse.dropWhile isSpace = (trimRunes cs).reverse := by
    unfold trimRunes
    simp only [List.reverse_reverse]
    generalize ((cs.dropWhile isSpace).reverse) = l
    induction l with
    | nil => rfl
    | cons a l ih =>
      by_cases ha : isSpace a = true
      · simp [List.dropWhile, ha, ih]
      · simp [List.dropWhile, ha]
  show ((List.dropWhile isSpace (trimRunes cs)).reverse.dropWhile isSpace).reverse = _
  rw [h1, h2, List.reverse_reverse]

theorem containsRunes_iff (sub cs : List Char) : containsRunes sub cs = true ↔ sub <:+: cs := by
  induction cs with
  | nil => simp [containsRunes, List.isEmpty_iff]
  | cons c cs ih =>
    simp only [containsRunes, Bool.or_eq_true, ih, List.infix_cons_iff, List.isPrefixOf_iff_prefix]

theorem TrimSpace_idem (s : String) : TrimSpace (TrimSpace s) = TrimSpace s := by
  show String.mk (trimRunes (String.mk (trimRunes s.data)).data) = _
  simp only [trimRunes_idem]
  rfl

end strings

namespace httpapi

theorem sanitizeReturnTo_cases (v : String) :
    (sanitizeReturnTo v = "" ) ∨
    (sanitizeReturnTo v = strings.TrimSpace v ∧ strings.TrimSpace v ≠ "" ∧
      strings.Contains (strings.TrimSpace v) "://" = false ∧
      strings.HasPrefix (strings.TrimSpace v) "//" = false ∧
      strings.HasPrefix (strings.TrimSpace v) "/" = true) := by
  unfold sanitizeReturnTo
  dsimp only
  by_cases h1 : strings.TrimSpace v = ""
  · left; simp [h1]
  · by_cases h2 : (strings.Contains (strings.TrimSpace v) "://" || strings.HasPrefix (strings.TrimSpace v) "//") = true
    · left; simp [h1, h2]
    · by_cases h3 : strings.HasPrefix (strings.TrimSpace v) "/" = true
      · right
        simp only [Bool.or_eq_true, not_or, Bool.not_eq_true] at h2
        simp [h1, h2.1, h2.2, h3]
      · left; simp [h1, h2, h3]

end httpapi

/-- C28: `sanitizeReturnTo v` is the empty string or `v` trimmed of the white space
around it; a non-empty result starts with `/`, does not start with `//` and does not
contain `://`; and sanitizing the result again gives the result. -/
theorem sanitizeReturnTo_spec (v : String) :
    (httpapi.sanitizeReturnTo v = "" ∨ httpapi.sanitizeReturnTo v = strings.TrimSpace v) ∧
    (httpapi.sanitizeReturnTo v ≠ "" →
      (httpapi.sanitizeReturnTo v).data.head? = some '/' ∧
      ¬ (['/', '/'] <+: (httpapi.sanitizeReturnTo v).data) ∧
      ¬ ([':', '/', '/'] <:+: (httpapi.sanitizeReturnTo v).data)) ∧
    httpapi.sanitizeReturnTo (httpapi.sanitizeReturnTo v) = httpapi.sanitizeReturnTo v := by
  rcases httpapi.sanitizeReturnTo_cases v with h | ⟨h, h1, h2, h3, h4⟩
  · refine ⟨Or.inl h, fun hne => absurd h hne, ?_⟩
    rw [h]; decide
  · refine ⟨Or.inr h, fun _ => ?_, ?_⟩
    · rw [h]
      refine ⟨?_, ?_, ?_⟩
      · have hp : ['/'] <+: (strings.TrimSpace v).data := List.isPrefixOf_iff_prefix.mp h4
        obtain ⟨t, ht⟩ := hp
        rw [← ht]; rfl
      · intro hp
        have : strings.HasPrefix (strings.TrimSpace v) "//" = true :=
          List.isPrefixOf_iff_prefix.mpr hp
        rw [h3] at this
        exact absurd this (by decide)
      · intro hp
        have : strings.Contains (strings.TrimSpace v) "://" = true :=
          (strings.containsRunes_iff _ _).mpr hp
        rw [h2] at this
        exact absurd this (by decide)
    · rw [h]
      unfold httpapi.sanitizeReturnTo
      dsimp only
      rw [strings.TrimSpace_idem]
      simp [h1, h2, h3, h4]

theorem sanitizeReturnTo_spec_witness :
    httpapi.sanitizeReturnTo " /chat?x=1 " = "/chat?x=1" ∧
    (httpapi.sanitizeReturnTo " /chat?x=1 ").data.head? = some '/' :=
  ⟨((sanitizeReturnTo_spec " /chat?x=1 ").1.resolve_left (by decide)).trans (by decide),
   ((sanitizeReturnTo_spec " /chat?x=1 ").2.1 (by decide)).1⟩

/-- C29: `ParseRole s` returns `(r, true)` exactly when the trimmed, lower-cased `s`
equals `r` and `r` is one of `super_admin`, `admin`, `user`; it returns the empty role
and `false` when the trimmed, lower-cased `s` is none of the three; each of the three
roles parses to itself; and a successful result is one of the three roles. -/
theorem parseRole_spec (table : Char → Char) (s : String) :
    (∀ r : Role, ParseRole table s = (r, true) ↔
      (strings.ToLower table (strings.TrimSpace s) = r ∧
        (r = "super_admin" ∨ r = "admin" ∨ r = "user"))) ∧
    (¬ (strings.ToLower table (strings.TrimSpace s) = "super_admin" ∨
        strings.ToLower table (strings.TrimSpace s) = "admin" ∨
        strings.ToLower table (strings.TrimSpace s) = "user") →
      ParseRole table s = ("", false)) ∧
    ParseRole table RoleSuperAdmin = (RoleSuperAdmin, true) ∧
    ParseRole table RoleAdmin = (RoleAdmin, true) ∧
    ParseRole table RoleUser = (RoleUser, true) ∧
    (∀ r : Role, ParseRole table s = (r, true) →
      r = RoleSuperAdmin ∨ r = RoleAdmin ∨ r = RoleUser) := by
  have key : ∀ r : Role, ParseRole table s = (r, true) ↔
      (strings.ToLower table (strings.TrimSpace s) = r ∧
        (r = "super_admin" ∨ r = "admin" ∨ r = "user")) := by
    intro r
    unfold ParseRole
    dsimp only
    by_cases h1 : strings.ToLower table (strings.TrimSpace s) = "super_admin"
    · rw [if_pos h1, h1]
      constructor
      · intro h; injection h with h _; exact ⟨h, Or.inl h.symm⟩
      · rintro ⟨h, _⟩; subst h; rfl
    · rw [if_neg h1]
      by_cases h2 : strings.ToLower table (strings.TrimSpace s) = "admin"
      · rw [if_pos h2, h2]
        constructor
        · intro h; injection h with h _; exact ⟨h, Or.inr (Or.inl h.symm)⟩
        · rintro ⟨h, _⟩; subst h; rfl
      · rw [if_neg h2]
        by_cases h3 : strings.ToLower table (strings.TrimSpace s) = "user"
        · rw [if_pos h3, h3]
          constructor
          · intro h; injection h with h _; exact ⟨h, Or.inr (Or.inr h.symm)⟩
          · rintro ⟨h, _⟩; subst h; rfl
        · rw [if_neg h3]
          constructor
          · intro h; injection h with _ h; exact absurd h (by decide)
          · rintro ⟨h, hr⟩
            rw [← h] at hr
            rcases hr with hr | hr | hr
            · exact absurd hr h1
            · exact absurd hr h2
            · exact absurd hr h3
  refine ⟨key, ?_, rfl, rfl, rfl, fun r h => ((key r).mp h).2⟩
  intro h
  unfold ParseRole
  dsimp only
  rw [if_neg (fun h1 => h (Or.inl h1)), if_neg (fun h1 => h (Or.inr (Or.inl h1))),
    if_neg (fun h1 => h (Or.inr (Or.inr h1)))]

theorem parseRole_spec_witness :
    ParseRole id "  Admin " = ("admin", true) ∧ ParseRole id "root" = ("", false) :=
  ⟨((parseRole_spec id "  Admin ").1 "admin").mpr ⟨by decide, by decide⟩,
   (parseRole_spec id "root").2.1 (by decide)⟩

/-- C30: `ParseLLMProviderType s` succeeds only with `dashscope` or `openrouter`;
when it fails it returns the unspecified provider, as it does on the empty string;
and it returns dashscope (openrouter) with `true` whenever the trimmed, lower-cased
`s` is `dashscope` or `provider_type_dashscope` (`openrouter` or
`provider_type_openrouter`), whatever the case of the letters of `s` and the white
space around it. -/
theorem parseLLMProviderType_spec (table : Char → Char) (s : String) :
    (∀ p : LLMProviderType, ParseLLMProviderType table s = (p, true) →
      p = LLMProviderDashscope ∨ p = LLMProviderOpenRouter) ∧
    ((ParseLLMProviderType table s).2 = false →
      ParseLLMProviderType table s = (LLMProviderUnspecified, false)) ∧
    ParseLLMProviderType table "" = (LLMProviderUnspecified, false) ∧
    (strings.ToLower table (strings.TrimSpace s) = "dashscope" ∨
      strings.ToLower table (strings.TrimSpace s) = "provider_type_dashscope" →
      ParseLLMProviderType table s = (LLMProviderDashscope, true)) ∧
    (strings.ToLower table (strings.TrimSpace s) = "openrouter" ∨
      strings.ToLower table (strings.TrimSpace s) = "provider_type_openrouter" →
      ParseLLMProviderType table s = (LLMProviderOpenRouter, true)) := by
  refine ⟨?_, ?_, rfl, ?_, ?_⟩
  · intro p h
    unfold ParseLLMProviderType at h
    dsimp only at h
    split at h
    · injection h with h _; exact Or.inl h.symm
    · split at h
      · injection h with h _; exact Or.inr h.symm
      · injection h with _ h; exact absurd h (by decide)
  · intro h
    unfold ParseLLMProviderType at h ⊢
    dsimp only at h ⊢
    split at h
    · exact absurd h (by decide)
    · split at h
      · exact absurd h (by decide)
      · rename_i h1 h2
        rw [if_neg h1, if_neg h2]
  · rintro (h | h) <;>
    · unfold ParseLLMProviderType
      dsimp only
      rw [h]
      decide
  · rintro (h | h) <;>
    · unfold ParseLLMProviderType
      dsimp only
      rw [h]
      decide

theorem parseLLMProviderType_spec_witness :
    ParseLLMProviderType id "  Provider_Type_DashScope " = (LLMProviderDashscope, true) ∧
    ParseLLMProviderType id "\tOPENROUTER\n" = (LLMProviderOpenRouter, true) :=
  ⟨(parseLLMProviderType_spec id "  Provider_Type_DashScope ").2.2.2.1 (Or.inr (by decide)),
   (parseLLMProviderType_spec id "\tOPENROUTER\n").2.2.2.2 (Or.inl (by decide))⟩

/-! ### The user repository: creation of rows, role changes, paging -/

/-- C23 (as stated) fails, in two ways. The empty id has no row in the table of the
fixture, yet `EnsureExists` of the empty id returns nil and creates nothing: with a
zero primary key `FirstOrCreate` selects without a condition on the key and finds
another row. And for the id `zed`, which has no row, a failure of the statement makes
`EnsureExists` return the error and create nothing. -/
theorem ensureExists_empty_id_counterexample :
    fixture.db0.findUser "" = none ∧
    EnsureExists "" fixture.db0 = (none, fixture.db0) ∧
    fixture.db0.findUser "zed" = none ∧
    EnsureExists "zed" { fixture.db0 with faults := [some "connection lost"] }
      = (some (.foreign "connection lost"), fixture.db0) := by
  decide

/-- C23 (amended): `EnsureExists` never changes or removes a row that is there. For
a non-empty id and a call that reports no error: when the id has no row, the table
gains exactly the one row of the id, with role `user`, an empty nickname and the
current time, the login info is untouched and the id resolves to `user`; when the id
has a row, the rows stay as they are and so does the role; and a second call leaves
the rows as the first call left them. -/
theorem ensureExists_idempotent_create (table : Char → Char) (userID : String) (db : DB) :
    (∀ (x : String) (r : UserModel), db.findUser x = some r →
      (EnsureExists userID db).2.findUser x = some r) ∧
    (userID ≠ "" → (EnsureExists userID db).1 = none →
      (db.findUser userID = none →
        (EnsureExists userID db).2.user_models
            = db.user_models ++ [⟨userID, RoleUser, "", db.now, db.now⟩] ∧
        (EnsureExists userID db).2.login_info_models = db.login_info_models ∧
        (GetRole table userID (EnsureExists userID db).2.calm).1 = (RoleUser, none)) ∧
      (∀ r, db.findUser userID = some r →
        (EnsureExists userID db).2.calm = db.calm ∧
        (GetRole table userID (EnsureExists userID db).2.calm).1
          = (GetRole table userID db.calm).1) ∧
      (EnsureExists userID (EnsureExists userID db).2).2.calm
        = (EnsureExists userID db).2.calm) := by
  refine ⟨fun x r h => ensureExists_keeps userID db x r h, ?_⟩
  intro hid hok
  refine ⟨?_, ?_, ?_⟩
  · intro hnone
    rcases ensureExists_ok userID db hok with ⟨h1, -⟩ | ⟨-, h2⟩
    · rw [if_neg hid] at h1
      exact absurd hnone h1
    · have u1 : (EnsureExists userID db).2.calm.user_models
          = db.user_models ++ [⟨userID, RoleUser, "", db.now, db.now⟩] := by rw [h2]
      have u2 : (EnsureExists userID db).2.calm.login_info_models = db.login_info_models := by
        rw [h2]; rfl
      refine ⟨u1, u2, ?_⟩
      obtain ⟨r, hr, -, hcase⟩ := ensureExists_find_self userID db hid hok
      rcases hcase with hc | ⟨-, hc⟩
      · rw [hnone] at hc
        exact absurd hc (by simp)
      · rw [getRole_calm, hr, hc]
        rfl
  · intro r hr
    rcases ensureExists_ok userID db hok with ⟨-, h2⟩ | ⟨h1, -⟩
    · exact ⟨h2, getRole_congr table userID _ _ (findUser_of_calm _ _ h2 userID)⟩
    · rw [if_neg hid, hr] at h1
      exact absurd h1 (by simp)
  · obtain ⟨r, hr, -, -⟩ := ensureExists_find_self userID db hid hok
    rcases ensureExists_rows userID (EnsureExists userID db).2 with h | ⟨-, h1, -⟩
    · exact h
    · rw [if_neg hid, hr] at h1
      exact absurd h1 (by simp)

/-- C23 (amended) at concrete inputs: the new id `zed` and the known id `root`. -/
theorem ensureExists_idempotent_create_witness :
    (EnsureExists "zed" fixture.db0).2.user_models
      = fixture.db0.user_models ++ [⟨"zed", "user", "", 9, 9⟩] ∧
    (EnsureExists "root" fixture.db0).2.calm = fixture.db0.calm :=
  ⟨(((ensureExists_idempotent_create id "zed" fixture.db0).2 (by decide) (by decide)).1
      (by decide)).1,
   (((ensureExists_idempotent_create id "root" fixture.db0).2 (by decide) (by decide)).2.1
      ⟨"root", "super_admin", "", 1, 1⟩ (by decide)).1⟩

/-- C27 (as stated) fails in its last part, in two ways. For the empty target,
which has no record, the lookup of the role fails with `ErrRecordNotFound`,
`SetRole` is called and returns nil, and the rows are what they were: no record is
created and none is given the role. And for the target `zed`, which has no record,
when the update of the role fails in the database, `SetUserRole` returns that error
and `zed`, whose record was created, resolves to `user`, not to the requested
role. -/
theorem setUserRole_empty_target_counterexample :
    fixture.db0.findUser "" = none ∧
    (rbac.SetUserRole fixture.rbacUsecase "s-root" "" "admin" fixture.world0).1 = none ∧
    (rbac.SetUserRole fixture.rbacUsecase "s-root" "" "admin" fixture.world0).2.trace
      = [⟨.sessionsGet "s-root", none⟩, ⟨.usersGetRole "root", none⟩,
         ⟨.usersGetRole "", some ErrRecordNotFound⟩, ⟨.usersSetRole "" "admin", none⟩] ∧
    (rbac.SetUserRole fixture.rbacUsecase "s-root" "" "admin" fixture.world0).2.state.2
      = fixture.db0 ∧
    fixture.db0.findUser "zed" = none ∧
    (rbac.SetUserRole fixture.rbacUsecase "s-root" "zed" "admin"
      ⟨((), { fixture.db0 with faults := [none, none, none, none, some "connection lost"] }),
        []⟩).1 = some (.foreign "connection lost") ∧
    (GetRole id "zed" (rbac.SetUserRole fixture.rbacUsecase "s-root" "zed" "admin"
      ⟨((), { fixture.db0 with faults := [none, none, none, none, some "connection lost"] }),
        []⟩).2.state.2.calm).1 = (RoleUser, none) := by
  decide

/-- C27 (amended): when the session of the actor resolves, the role of the actor is
`super_admin`, the requested role is `admin` or `user`, and the lookup of the role of
the target returns an error, then `SetUserRole` is the call of
`SetRole target role` after the three lookups: it returns the result of that call,
and the calls made are `Get`, `GetRole` of the actor, `GetRole` of the target with
its error, and `SetRole`. On the relational repository a non-empty target without a
record fails the lookup with `ErrRecordNotFound`, and after a `SetRole target role`
that reports no error the target has a record and resolves to the requested role. -/
theorem setUserRole_target_lookup_error_ignored {σ : Type} (u : rbac.Usecase σ)
    (actorSessionID : String) (targetUserID : String) (role : Role) (w : World σ)
    (hid : actorSessionID ≠ "")
    (hget : (u.sessions.Get actorSessionID w.state).1.2 = none)
    (hrole : (u.users.GetRole (u.sessions.Get actorSessionID w.state).1.1.UserID
      (u.sessions.Get actorSessionID w.state).2).1 = (RoleSuperAdmin, none))
    (hreq : role = RoleAdmin ∨ role = RoleUser)
    (htarget : (u.users.GetRole targetUserID
      (u.users.GetRole (u.sessions.Get actorSessionID w.state).1.1.UserID
        (u.sessions.Get actorSessionID w.state).2).2).1.2 ≠ none) :
    (let g := w.call (.sessionsGet actorSessionID) (u.sessions.Get actorSessionID)
     let r := g.2.call (.usersGetRole g.1.1.UserID) (u.users.GetRole g.1.1.UserID)
     let t := r.2.call (.usersGetRole targetUserID) (u.users.GetRole targetUserID)
     rbac.SetUserRole u actorSessionID targetUserID role w
        = t.2.callE (.usersSetRole targetUserID role) (u.users.SetRole targetUserID role) ∧
     (rbac.SetUserRole u actorSessionID targetUserID role w).1
        = (u.users.SetRole targetUserID role t.2.state).1 ∧
     World.since w (rbac.SetUserRole u actorSessionID targetUserID role w).2
        = [⟨.sessionsGet actorSessionID, none⟩, ⟨.usersGetRole g.1.1.UserID, none⟩,
           ⟨.usersGetRole targetUserID, t.1.2⟩,
           ⟨.usersSetRole targetUserID role, (u.users.SetRole targetUserID role t.2.state).1⟩]) ∧
    (∀ (table : Char → Char) (db : DB), targetUserID ≠ "" → db.findUser targetUserID = none →
      (GetRole table targetUserID db.calm).1 = ("", some ErrRecordNotFound) ∧
      ((SetRole targetUserID role db).1 = none →
        (GetRole table targetUserID (SetRole targetUserID role db).2.calm).1 = (role, none))) := by
  constructor
  · intro g r t
    have hrole2 : (u.users.GetRole (u.sessions.Get actorSessionID w.state).1.1.UserID
        (u.sessions.Get actorSessionID w.state).2).1.2 = none := by rw [hrole]
    have hbody : rbac.SetUserRole u actorSessionID targetUserID role w =
        if r.1.1 ≠ RoleSuperAdmin then (some rbac.ErrForbidden, r.2)
        else if role ≠ RoleAdmin ∧ role ≠ RoleUser then (some rbac.ErrInvalidRole, r.2)
        else if t.1.2 = none ∧ t.1.1 = RoleSuperAdmin then (some rbac.ErrForbidden, t.2)
        else t.2.callE (.usersSetRole targetUserID role) (u.users.SetRole targetUserID role) :=
      (rbac.setUserRole_resolved u actorSessionID targetUserID role w hid hget hrole2).2
    have hr1 : r.1.1 = RoleSuperAdmin := congrArg Prod.fst hrole
    have ht : ¬ (t.1.2 = none ∧ t.1.1 = RoleSuperAdmin) := fun h => htarget h.1
    have hnr : ¬ (role ≠ RoleAdmin ∧ role ≠ RoleUser) := by
      rcases hreq with h | h <;> simp [h]
    have hres : rbac.SetUserRole u actorSessionID targetUserID role w
        = t.2.callE (.usersSetRole targetUserID role) (u.users.SetRole targetUserID role) := by
      rw [hbody]
      simp only [hr1, ne_eq, not_true_eq_false, if_false]
      rw [if_neg hnr, if_neg ht]
    refine ⟨hres, ?_, ?_⟩
    · rw [hres]; rfl
    · rw [hres]
      simp [t, r, g, World.since, World.callE, World.call, hget, hrole2]
  · intro table db hne h
    refine ⟨?_, fun hok => ?_⟩
    · rw [getRole_calm, h]
    · exact getRole_setRole_self table targetUserID role db hne hok
        (hreq.elim Or.inl (fun h2 => Or.inr (Or.inl h2)))

/-- C27 (amended) at a concrete input: the super admin `root` gives the unknown
user `zed` the role `admin`. -/
theorem setUserRole_target_lookup_error_ignored_witness :
    (rbac.SetUserRole fixture.rbacUsecase "s-root" "zed" "admin" fixture.world0).1 = none ∧
    (GetRole id "zed" (SetRole "zed" "admin" fixture.db0).2.calm).1 = ("admin", none) :=
  ⟨((setUserRole_target_lookup_error_ignored fixture.rbacUsecase "s-root" "zed" "admin"
      fixture.world0 (by decide) (by decide) (by decide) (by decide) (by decide)).1.2.1).trans
      (by decide),
   ((setUserRole_target_lookup_error_ignored fixture.rbacUsecase "s-root" "zed" "admin"
      fixture.world0 (by decide) (by decide) (by decide) (by decide) (by decide)).2 id
      fixture.db0 (by decide) (by decide)).2 (by decide)⟩

namespace strconv

theorem atoi_ok_shape (s : String) (h : (Atoi s).2 = none) :
    ∃ ds : List Char, ds ≠ [] ∧ ds.all isDigit = true ∧
      (s.data = ds ∨ s.data = '-' :: ds ∨ s.data = '+' :: ds) := by
  unfold Atoi at h
  rcases hs : s.data with _ | ⟨c, cs⟩
  · rw [hs] at h; exact absurd h (by simp)
  · rw [hs] at h
    dsimp only at h
    generalize hds : (if (c == '-' || c == '+') = true then cs else c :: cs) = ds at h
    by_cases hne : ds = []
    · rw [if_pos hne] at h; exact absurd h (by simp)
    · rw [if_neg hne] at h
      by_cases hall : ds.all isDigit = true
      · refine ⟨ds, hne, hall, ?_⟩
        by_cases h1 : c = '-'
        · subst h1
          right; left
          rw [← hds]; rfl
        · by_cases h2 : c = '+'
          · subst h2
            right; right
            rw [← hds]; rfl
          · left
            rw [← hds]
            simp [h1, h2]
      · rw [if_pos hall] at h; exact absurd h (by simp)

end strconv

namespace httpapi

theorem listUsersQuery_fst (l o : String) :
    (listUsersQuery l o).1 =
      if strings.TrimSpace l ≠ "" ∧ (strconv.Atoi (strings.TrimSpace l)).2 = none
      then (strconv.Atoi (strings.TrimSpace l)).1 else 50 := by
  unfold listUsersQuery
  dsimp only
  by_cases h1 : strings.TrimSpace l = "" <;> by_cases h2 : (strconv.Atoi (strings.TrimSpace l)).2 = none <;>
    simp [h1, h2]

theorem listUsersQuery_snd (l o : String) :
    (listUsersQuery l o).2 =
      if strings.TrimSpace o ≠ "" ∧ (strconv.Atoi (strings.TrimSpace o)).2 = none
      then (strconv.Atoi (strings.TrimSpace o)).1 else 0 := by
  unfold listUsersQuery
  dsimp only
  by_cases h1 : strings.TrimSpace o = "" <;> by_cases h2 : (strconv.Atoi (strings.TrimSpace o)).2 = none <;>
    simp [h1, h2]

end httpapi

/-- C25: when its statement does not fail, `ListUsers` returns the rows of the user
table in the order of `created_at`, newest first, without the first `offset` rows and
cut to `limit` rows, where a limit of zero or less counts as 50 and a negative offset
as 0, and any other limit and offset are used as given. So `ListUsers` with a limit
of zero or less is `ListUsers` with limit 50, and with a negative offset it is
`ListUsers` with offset 0. The handler asks for limit 50 when the trimmed `limit`
parameter is empty or `strconv.Atoi` refuses it, and for offset 0 likewise; otherwise
it asks for the number parsed. `strconv.Atoi` accepts a text only when it is an
optional sign followed by decimal digits. -/
theorem listUsers_paging_defaults (table : Char → Char) (limit offset : Int) (db : DB) :
    (db.next.1 = none →
      (ListUsers table limit offset db).1 =
        ((((db.user_models.insertionSort (fun a b => a.CreatedAt ≥ b.CreatedAt)).drop
            (if offset < 0 then 0 else offset).toNat).take
              (if limit ≤ 0 then 50 else limit).toNat).map
          (fun r => ListUsers.convert table r (db.findLoginInfo r.ID)), none)) ∧
    (limit ≤ 0 → ListUsers table limit offset db = ListUsers table 50 offset db) ∧
    (offset < 0 → ListUsers table limit offset db = ListUsers table limit 0 db) ∧
    (∀ limitParam offsetParam : String,
      (strings.TrimSpace limitParam = "" ∨
          (strconv.Atoi (strings.TrimSpace limitParam)).2 ≠ none →
        (httpapi.listUsersQuery limitParam offsetParam).1 = 50) ∧
      (strings.TrimSpace offsetParam = "" ∨
          (strconv.Atoi (strings.TrimSpace offsetParam)).2 ≠ none →
        (httpapi.listUsersQuery limitParam offsetParam).2 = 0) ∧
      (strings.TrimSpace limitParam ≠ "" →
          (strconv.Atoi (strings.TrimSpace limitParam)).2 = none →
        (httpapi.listUsersQuery limitParam offsetParam).1
          = (strconv.Atoi (strings.TrimSpace limitParam)).1) ∧
      (strings.TrimSpace offsetParam ≠ "" →
          (strconv.Atoi (strings.TrimSpace offsetParam)).2 = none →
        (httpapi.listUsersQuery limitParam offsetParam).2
          = (strconv.Atoi (strings.TrimSpace offsetParam)).1)) ∧
    (∀ v : String,
      (¬ ∃ ds : List Char, ds ≠ [] ∧ ds.all strconv.isDigit = true ∧
        (v.data = ds ∨ v.data = '-' :: ds ∨ v.data = '+' :: ds)) →
      (strconv.Atoi v).2 ≠ none) := by
  refine ⟨(listUsers_page table limit offset db).2.1, ?_, ?_, ?_, ?_⟩
  · intro h
    unfold ListUsers
    simp only [h, if_true]
    rfl
  · intro h
    unfold ListUsers
    simp only [h, if_true]
    rfl
  · intro l o
    refine ⟨?_, ?_, ?_, ?_⟩
    · intro h
      rw [httpapi.listUsersQuery_fst, if_neg]
      rintro ⟨h1, h2⟩
      rcases h with h | h
      · exact h1 h
      · exact h h2
    · intro h
      rw [httpapi.listUsersQuery_snd, if_neg]
      rintro ⟨h1, h2⟩
      rcases h with h | h
      · exact h1 h
      · exact h h2
    · intro h1 h2
      rw [httpapi.listUsersQuery_fst, if_pos ⟨h1, h2⟩]
    · intro h1 h2
      rw [httpapi.listUsersQuery_snd, if_pos ⟨h1, h2⟩]
  · intro v h hv
    exact h (strconv.atoi_ok_shape v hv)

/-- C25 at concrete inputs: a page of two after the first row; of sixty users a
limit of 0 with offset -5 gives the newest fifty, and a limit of -1 with offset 55
the oldest five; the handler with an absent limit and a malformed offset, and with
both given. -/
theorem listUsers_paging_defaults_witness :
    (ListUsers id 2 1 fixture.db0).1
      = ([⟨"ann", "admin", "", none, false, 3, 3⟩,
          ⟨"boss", "super_admin", "", none, false, 2, 2⟩], none) ∧
    ((ListUsers id 0 (-5) fixture.dbMany).1.1.map (fun a => a.CreatedAt))
      = (List.range 50).map (fun i => ((59 - i : Nat) : Int)) ∧
    ((ListUsers id (-1) 55 fixture.dbMany).1.1.map (fun a => a.CreatedAt)) = [4, 3, 2, 1, 0] ∧
    (httpapi.listUsersQuery "" " x1 ") = (50, 0) ∧
    (httpapi.listUsersQuery "7" "-2") = (7, -2) :=
  ⟨((listUsers_paging_defaults id 2 1 fixture.db0).1 (by decide)).trans (by decide),
   (congrArg (fun p => p.1.map (fun a => a.CreatedAt))
      ((listUsers_paging_defaults id 0 (-5) fixture.dbMany).1 (by decide))).trans (by decide),
   (congrArg (fun p => p.1.map (fun a => a.CreatedAt))
      ((listUsers_paging_defaults id (-1) 55 fixture.dbMany).1 (by decide))).trans (by decide),
   Prod.ext (((listUsers_paging_defaults id 0 0 fixture.db0).2.2.2.1 "" " x1 ").1
      (Or.inl (by decide)))
     (((listUsers_paging_defaults id 0 0 fixture.db0).2.2.2.1 "" " x1 ").2.1
      (Or.inr (by decide))),
   by decide⟩

/-! ### Session identifiers -/

namespace base64

theorem undigit_digit (v : Nat) : undigit (digit v) = v % 64 := by
  have h : ∀ k, k < 64 → undigit (encodeURL.getD k 'A') = k := by decide
  exact h (v % 64) (Nat.mod_lt _ (by decide))

theorem digit_mem (v : Nat) : digit v ∈ encodeURL := by
  have h : ∀ k, k < 64 → encodeURL.getD k 'A' ∈ encodeURL := by decide
  exact h (v % 64) (Nat.mod_lt _ (by decide))

theorem encodeRaw_length (b : List Nat) : (encodeRaw b).length = (b.length * 4 + 2) / 3 := by
  induction b using encodeRaw.induct with
  | case1 a b c rest ih => simp only [encodeRaw, List.length_cons, ih]; omega
  | case2 a b => simp [encodeRaw]
  | case3 a => simp [encodeRaw]
  | case4 => simp [encodeRaw]

theorem encodeRaw_mem (b : List Nat) : ∀ c ∈ encodeRaw b, c ∈ encodeURL := by
  induction b using encodeRaw.induct with
  | case1 a b c rest ih =>
    intro x hx
    simp only [encodeRaw, List.mem_cons] at hx
    rcases hx with h | h | h | h | h
    · rw [h]; exact digit_mem _
    · rw [h]; exact digit_mem _
    · rw [h]; exact digit_mem _
    · rw [h]; exact digit_mem _
    · exact ih x h
  | case2 a b =>
    intro x hx
    simp only [encodeRaw, List.mem_cons, List.mem_singleton, List.not_mem_nil, or_false] at hx
    rcases hx with h | h | h
    · rw [h]; exact digit_mem _
    · rw [h]; exact digit_mem _
    · rw [h]; exact digit_mem _
  | case3 a =>
    intro x hx
    simp only [encodeRaw, List.mem_cons, List.mem_singleton, List.not_mem_nil, or_false] at hx
    rcases hx with h | h
    · rw [h]; exact digit_mem _
    · rw [h]; exact digit_mem _
  | case4 => intro x hx; simp [encodeRaw] at hx

theorem decodeRaw_encodeRaw (b : List Nat) (hb : ∀ x ∈ b, x < 256) :
    decodeRaw (encodeRaw b) = b := by
  induction b using encodeRaw.induct with
  | case1 a b c rest ih =>
    have ha : a < 256 := hb a (by simp)
    have hb2 : b < 256 := hb b (by simp)
    have hc : c < 256 := hb c (by simp)
    have ih2 := ih (fun x hx => hb x (by simp [hx]))
    simp only [encodeRaw, decodeRaw, undigit_digit, ih2]
    have e1 : a % 256 = a := Nat.mod_eq_of_lt ha
    have e2 : b % 256 = b := Nat.mod_eq_of_lt hb2
    have e3 : c % 256 = c := Nat.mod_eq_of_lt hc
    rw [e1, e2, e3]
    refine congrArg₂ _ ?_ (congrArg₂ _ ?_ (congrArg₂ _ ?_ rfl)) <;> omega
  | case2 a b =>
    have ha : a < 256 := hb a (by simp)
    have hb2 : b < 256 := hb b (by simp)
    simp only [encodeRaw, decodeRaw, undigit_digit]
    have e1 : a % 256 = a := Nat.mod_eq_of_lt ha
    have e2 : b % 256 = b := Nat.mod_eq_of_lt hb2
    rw [e1, e2]
    refine congrArg₂ _ ?_ (congrArg₂ _ ?_ rfl) <;> omega
  | case3 a =>
    have ha : a < 256 := hb a (by simp)
    simp only [encodeRaw, decodeRaw, undigit_digit]
    have e1 : a % 256 = a := Nat.mod_eq_of_lt ha
    rw [e1]
    refine congrArg₂ _ ?_ rfl
    omega
  | case4 => simp [encodeRaw, decodeRaw]

theorem alphabet_classes : ∀ c ∈ encodeURL,
    (('A' ≤ c ∧ c ≤ 'Z') ∨ ('a' ≤ c ∧ c ≤ 'z') ∨ ('0' ≤ c ∧ c ≤ '9') ∨ c = '-' ∨ c = '_') ∧
    c ≠ '=' ∧ c ≠ '+' ∧ c ≠ '/' := by
  decide

end base64

theorem fillBuffer_length (n : Nat) (written : List Nat) : (fillBuffer n written).length = n := by
  simp [fillBuffer]

theorem fillBuffer_lt (n : Nat) (written : List Nat) : ∀ x ∈ fillBuffer n written, x < 256 := by
  intro x hx
  have hx2 := List.mem_of_mem_take hx
  rcases List.mem_append.mp hx2 with h | h
  · obtain ⟨y, _, rfl⟩ := List.mem_map.mp h
    exact Nat.mod_lt _ (by decide)
  · rw [(List.mem_replicate.mp h).2]; decide

/-- A read of exactly `n` bytes fills the buffer of `n` bytes with them. -/
theorem fillBuffer_full (n : Nat) (b : List Nat) (hlen : b.length = n)
    (hb : ∀ x ∈ b, x < 256) : fillBuffer n b = b := by
  unfold fillBuffer
  have hm : b.map (· % 256) = b := by
    conv_rhs => rw [← List.map_id b]
    apply List.map_congr_left
    intro x hx
    exact Nat.mod_eq_of_lt (hb x hx)
  rw [hm, List.take_append_of_le_length (by omega), ← hlen, List.take_length]

/-- C26: for every 32 bytes the unpadded base64url encoding has 43 characters, each
one of `A-Z`, `a-z`, `0-9`, `-` or `_` and none of `=`, `+` or `/`, and two different
values of 32 bytes have different encodings. Whenever the random source hands
`newSessionID` these 32 bytes without error, the identifier returned is their
encoding, with no error; and a run that is handed 32 other bytes returns another
identifier. -/
theorem sessionID_is_base64url (b : List Nat) (hlen : b.length = 32)
    (hb : ∀ x ∈ b, x < 256) :
    (base64.RawURLEncoding.EncodeToString b).length = 43 ∧
    (∀ c ∈ (base64.RawURLEncoding.EncodeToString b).data,
      (('A' ≤ c ∧ c ≤ 'Z') ∨ ('a' ≤ c ∧ c ≤ 'z') ∨ ('0' ≤ c ∧ c ≤ '9') ∨ c = '-' ∨ c = '_') ∧
      c ≠ '=' ∧ c ≠ '+' ∧ c ≠ '/') ∧
    (∀ b2 : List Nat, b2.length = 32 → (∀ x ∈ b2, x < 256) →
      base64.RawURLEncoding.EncodeToString b2 = base64.RawURLEncoding.EncodeToString b →
      b2 = b) ∧
    (∀ (σ : Type) (rand : RandReader σ) (w : World σ), (rand.Read 32 w.state).1 = (b, none) →
      (auth.newSessionID rand w).1 = (base64.RawURLEncoding.EncodeToString b, none) ∧
      (∀ (τ : Type) (rand2 : RandReader τ) (w2 : World τ) (b2 : List Nat),
        b2.length = 32 → (∀ x ∈ b2, x < 256) → (rand2.Read 32 w2.state).1 = (b2, none) →
        b2 ≠ b → (auth.newSessionID rand2 w2).1.1 ≠ (auth.newSessionID rand w).1.1)) := by
  have hinj : ∀ b2 : List Nat, b2.length = 32 → (∀ x ∈ b2, x < 256) →
      base64.RawURLEncoding.EncodeToString b2 = base64.RawURLEncoding.EncodeToString b →
      b2 = b := by
    intro b2 _ hb2 heq
    have h : base64.encodeRaw b2 = base64.encodeRaw b := congrArg String.data heq
    rw [← base64.decodeRaw_encodeRaw b2 hb2, h, base64.decodeRaw_encodeRaw b hb]
  have hid : ∀ (τ : Type) (rand2 : RandReader τ) (w2 : World τ) (b2 : List Nat),
      b2.length = 32 → (∀ x ∈ b2, x < 256) → (rand2.Read 32 w2.state).1 = (b2, none) →
      (auth.newSessionID rand2 w2).1 = (base64.RawURLEncoding.EncodeToString b2, none) := by
    intro τ rand2 w2 b2 hl2 hb2 hr
    unfold auth.newSessionID
    dsimp only
    have h1 : (w2.call (.randRead 32) (rand2.Read 32)).1 = (b2, none) := hr
    rw [h1]
    dsimp only
    rw [fillBuffer_full 32 b2 hl2 hb2]
  refine ⟨?_, ?_, hinj, ?_⟩
  · show (base64.encodeRaw b).length = 43
    rw [base64.encodeRaw_length, hlen]
  · intro c hc
    exact base64.alphabet_classes c (base64.encodeRaw_mem b c hc)
  · intro σ rand w h
    refine ⟨hid σ rand w b hlen hb h, ?_⟩
    intro τ rand2 w2 b2 hl2 hb2 h2 hne heq
    rw [hid τ rand2 w2 b2 hl2 hb2 h2, hid σ rand w b hlen hb h] at heq
    exact hne (hinj b2 hl2 hb2 heq)

/-- C26 at concrete inputs: `newSessionID` run on a source of 32 bytes 7, and on a
source of the bytes 0 to 31. -/
theorem sessionID_is_base64url_witness :
    (auth.newSessionID fixture.rand ⟨(), []⟩).1
      = ("BwcHBwcHBwcHBwcHBwcHBwcHBwcHBwcHBwcHBwcHBwc", none) ∧
    (auth.newSessionID fixture.randCount ⟨(), []⟩).1
      = ("AAECAwQFBgcICQoLDA0ODxAREhMUFRYXGBkaGxwdHh8", none) :=
  ⟨(((sessionID_is_base64url (List.replicate 32 7) (by decide) (by decide)).2.2.2
      Unit fixture.rand ⟨(), []⟩ (by decide)).1).trans (by decide),
   (((sessionID_is_base64url (List.range 32) (by decide) (by decide)).2.2.2
      Unit fixture.randCount ⟨(), []⟩ (by decide)).1).trans (by decide)⟩

/-! ### Listings of the admin client -/

namespace strings

theorem lessRunes_iff (a b : List Char) : lessRunes a b = true ↔ a < b := by
  induction a generalizing b with
  | nil =>
    cases b with
    | nil => simp [lessRunes]
    | cons b bs => simp only [lessRunes, true_iff]; exact List.Lex.nil
  | cons x xs ih =>
    cases b with
    | nil => simp [lessRunes]
    | cons y ys =>
      have hxy : x < y ↔ x.toNat < y.toNat := Iff.rfl
      have hyx : y < x ↔ y.toNat < x.toNat := Iff.rfl
      simp only [lessRunes]
      by_cases h1 : x.toNat < y.toNat
      · simp only [h1, if_true, true_iff]
        exact List.Lex.rel (hxy.mpr h1)
      · by_cases h2 : y.toNat < x.toNat
        · simp only [h1, h2, if_true, if_false, Bool.false_eq_true, false_iff]
          intro h
          cases h with
          | rel h => exact h1 (hxy.mp h)
          | cons h => exact absurd h2 (lt_irrefl _)
        · have hEq : x = y := by
            apply Char.ext
            apply UInt32.ext
            show x.toNat = y.toNat
            omega
          subst hEq
          simp only [h1, if_false, ih]
          constructor
          · intro h; exact List.Lex.cons h
          · intro h
            cases h with
            | rel h => exact absurd h (lt_irrefl _)
            | cons h => exact h

theorem less_iff_lt (a b : String) : Less a b = true ↔ a < b := by
  rw [String.lt_iff_toList_lt]
  exact lessRunes_iff a.data b.data

theorem less_false_iff_le (a b : String) : Less b a = false ↔ a ≤ b := by
  rw [← not_lt, ← less_iff_lt]
  simp

end strings

namespace sort

theorem insertion_perm (α : Type) (less : α → α → Bool) (l : List α) :
    (insertion.Slice less l).Perm l :=
  List.perm_insertionSort _ l

theorem insertion_sorted (α : Type) (key : α → String) (l : List α) :
    (insertion.Slice (fun a b => strings.Less (key a) (key b)) l).Pairwise
      (fun a b => key a ≤ key b) := by
  have hr : (fun a b : α => strings.Less (key b) (key a) = false)
      = (fun a b : α => key a ≤ key b) := by
    funext a b
    exact propext (strings.less_false_iff_le _ _)
  show (l.insertionSort (fun a b => strings.Less (key b) (key a) = false)).Pairwise _
  haveI : IsTotal α (fun a b : α => key a ≤ key b) := ⟨fun a b => le_total (key a) (key b)⟩
  haveI : IsTrans α (fun a b : α => key a ≤ key b) := ⟨fun a b c h1 h2 => le_trans h1 h2⟩
  have := List.sorted_insertionSort (fun a b : α => key a ≤ key b) l
  simp only [hr]
  convert this using 2

end sort

/-- C24: for every sorter that meets the contract of `sort.Slice` (the result is a
permutation of the slice, and it is ordered when `less` compares string keys), when
the downstream call succeeds `ListProviderConfigs` returns a permutation of the
converted provider configs in non-decreasing order of provider, and `ListModels` a
permutation of the converted model specs in non-decreasing order of id; and the
result is determined by the downstream response: clients whose responses are equal
return equal results. -/
theorem admin_listings_sorted {σ : Type} (sorter : sort.Sorter)
    (hperm : ∀ (α : Type) (less : α → α → Bool) (l : List α), (sorter.Slice less l).Perm l)
    (hsorted : ∀ (α : Type) (key : α → String) (l : List α),
      (sorter.Slice (fun a b => strings.Less (key a) (key b)) l).Pairwise
        (fun a b => key a ≤ key b))
    (c : llmgatewayadmin.Client σ) (s : σ) :
    ((c.pb.ListProviderConfigs s).1.2 = none →
      (llmgatewayadmin.Client.ListProviderConfigs sorter c s).1.2 = none ∧
      ((llmgatewayadmin.Client.ListProviderConfigs sorter c s).1.1).Perm
        ((c.pb.ListProviderConfigs s).1.1.map llmgatewayadmin.ListProviderConfigs.convert) ∧
      ((llmgatewayadmin.Client.ListProviderConfigs sorter c s).1.1).Pairwise
        (fun a b => a.Provider ≤ b.Provider)) ∧
    ((c.pb.ListModels s).1.2 = none →
      (llmgatewayadmin.Client.ListModels sorter c s).1.2 = none ∧
      ((llmgatewayadmin.Client.ListModels sorter c s).1.1).Perm
        ((c.pb.ListModels s).1.1.map llmgatewayadmin.ListModels.convert) ∧
      ((llmgatewayadmin.Client.ListModels sorter c s).1.1).Pairwise
        (fun a b => a.ID ≤ b.ID)) ∧
    (∀ (τ : Type) (c2 : llmgatewayadmin.Client τ) (s2 : τ),
      ((c2.pb.ListProviderConfigs s2).1 = (c.pb.ListProviderConfigs s).1 →
        (llmgatewayadmin.Client.ListProviderConfigs sorter c2 s2).1
          = (llmgatewayadmin.Client.ListProviderConfigs sorter c s).1) ∧
      ((c2.pb.ListModels s2).1 = (c.pb.ListModels s).1 →
        (llmgatewayadmin.Client.ListModels sorter c2 s2).1
          = (llmgatewayadmin.Client.ListModels sorter c s).1)) := by
  refine ⟨?_, ?_, ?_⟩
  · intro h
    unfold llmgatewayadmin.Client.ListProviderConfigs
    dsimp only
    rw [h]
    exact ⟨rfl, hperm _ _ _, hsorted _ (fun a : LLMProviderConfigView => a.Provider) _⟩
  · intro h
    unfold llmgatewayadmin.Client.ListModels
    dsimp only
    rw [h]
    exact ⟨rfl, hperm _ _ _, hsorted _ (fun a : LLMModelSpec => a.ID) _⟩
  · intro τ c2 s2
    constructor
    · intro h
      unfold llmgatewayadmin.Client.ListProviderConfigs
      dsimp only
      rw [h]
      cases (c.pb.ListProviderConfigs s).1.2 <;> rfl
    · intro h
      unfold llmgatewayadmin.Client.ListModels
      dsimp only
      rw [h]
      cases (c.pb.ListModels s).1.2 <;> rfl

theorem admin_listings_sorted_witness :
    (llmgatewayadmin.Client.ListProviderConfigs sort.insertion ⟨fixture.pb⟩ ()).1.1.Pairwise
      (fun a b => a.Provider ≤ b.Provider) ∧
    (llmgatewayadmin.Client.ListModels sort.insertion ⟨fixture.pb⟩ ()).1.1.Perm
      ((fixture.pb.ListModels ()).1.1.map llmgatewayadmin.ListModels.convert) :=
  ⟨((admin_listings_sorted sort.insertion sort.insertion_perm sort.insertion_sorted
      ⟨fixture.pb⟩ ()).1 (by decide)).2.2,
   ((admin_listings_sorted sort.insertion sort.insertion_perm sort.insertion_sorted
      ⟨fixture.pb⟩ ()).2.1 (by decide)).2.1⟩

/-! ### The session store -/

namespace json

theorem unquoteBody_u (h1 h2 h3 h4 : Char) (tail : List Char) :
    unquoteBody 0 ('\\' :: 'u' :: h1 :: h2 :: h3 :: h4 :: tail) =
      match getu4 h1 h2 h3 h4 with
      | none => none
      | some rr =>
        if 55296 ≤ rr ∧ rr < 57344 then
          match nextu4 tail with
          | some rr1 =>
            if decodeSurrogates rr rr1 ≠ 65533 then
              (unquoteBody 6 tail).map
                (fun p => (Char.ofNat (decodeSurrogates rr rr1) :: p.1, p.2))
            else (unquoteBody 0 tail).map (fun p => (Char.ofNat 65533 :: p.1, p.2))
          | none => (unquoteBody 0 tail).map (fun p => (Char.ofNat 65533 :: p.1, p.2))
        else (unquoteBody 0 tail).map (fun p => (Char.ofNat rr :: p.1, p.2)) := by
  rfl

theorem unquoteBody_esc (e : Char) (tail : List Char) (he : e ≠ 'u') :
    unquoteBody 0 ('\\' :: e :: tail) =
      match unescape e with
      | none => none
      | some ch => (unquoteBody 0 tail).map (fun p => (ch :: p.1, p.2)) := by
  conv_lhs => unfold unquoteBody
  rw [if_neg (by decide), if_pos rfl]
  dsimp only
  rw [if_neg he]
  try rfl

theorem unquoteBody_plain (c : Char) (tail : List Char) (h1 : c ≠ '"') (h2 : c ≠ '\\')
    (h3 : ¬ c.toNat < 32) :
    unquoteBody 0 (c :: tail) = (unquoteBody 0 tail).map (fun p => (c :: p.1, p.2)) := by
  conv_lhs => unfold unquoteBody
  rw [if_neg h1, if_neg h2, if_neg h3]

theorem getu4_hex : ∀ n, n < 128 → getu4 '0' '0' (hex (n / 16)) (hex n) = some n := by
  decide

theorem unquoteBody_esc_of (e ch : Char) (tail : List Char) (he : e ≠ 'u')
    (hu : unescape e = some ch) :
    unquoteBody 0 (['\\', e] ++ tail) = (unquoteBody 0 tail).map (fun p => (ch :: p.1, p.2)) := by
  show unquoteBody 0 ('\\' :: e :: tail) = _
  rw [unquoteBody_esc e tail he, hu]

theorem unquoteBody_quoteRune (short : Bool) (c : Char) (tail : List Char) :
    unquoteBody 0 (quoteRune short c ++ tail)
      = (unquoteBody 0 tail).map (fun p => (c :: p.1, p.2)) := by
  unfold quoteRune
  split
  · rename_i h
    rcases h with h | h <;> subst h <;> exact unquoteBody_esc_of _ _ tail (by decide) (by decide)
  · split
    · rename_i h; subst h; exact unquoteBody_esc_of _ _ tail (by decide) (by decide)
    · split
      · rename_i h; subst h; exact unquoteBody_esc_of _ _ tail (by decide) (by decide)
      · split
        · rename_i h; subst h; exact unquoteBody_esc_of _ _ tail (by decide) (by decide)
        · split
          · rename_i h
            have hc : c = Char.ofNat 8 := by
              rw [← Char.ofNat_toNat c, h.1]
            subst hc; exact unquoteBody_esc_of _ _ tail (by decide) (by decide)
          · split
            · rename_i h
              have hc : c = Char.ofNat 12 := by
                rw [← Char.ofNat_toNat c, h.1]
              subst hc; exact unquoteBody_esc_of _ _ tail (by decide) (by decide)
            · split
              · rename_i h
                have hn : c.toNat < 128 := by
                  rcases h with h | h | h | h
                  · omega
                  · subst h; decide
                  · subst h; decide
                  · subst h; decide
                show unquoteBody 0 ('\\' :: 'u' :: '0' :: '0' :: hex (c.toNat / 16)
                  :: hex c.toNat :: tail) = _
                rw [unquoteBody_u, getu4_hex _ hn]
                dsimp only
                rw [if_neg (by omega), Char.ofNat_toNat]
              · split
                · rename_i h
                  have hc : c = Char.ofNat 8232 ∨ c = Char.ofNat 8233 := by
                    rcases h with h | h
                    · left; rw [← Char.ofNat_toNat c, h]
                    · right; rw [← Char.ofNat_toNat c, h]
                  rcases hc with hc | hc <;> subst hc
                  · show unquoteBody 0 ('\\' :: 'u' :: '2' :: '0' :: '2' :: '8' :: tail) = _
                    rw [unquoteBody_u]
                    rfl
                  · show unquoteBody 0 ('\\' :: 'u' :: '2' :: '0' :: '2' :: '9' :: tail) = _
                    rw [unquoteBody_u]
                    rfl
                · rename_i h1 h2 h3 h4 h5 h6 h7 h8
                  show unquoteBody 0 (c :: tail) = _
                  exact unquoteBody_plain c tail (fun h => h1 (Or.inr h)) (fun h => h1 (Or.inl h))
                    (fun h => h7 (Or.inl h))

theorem unquoteBody_quote (short : Bool) (cs : List Char) (rest : List Char) :
    unquoteBody 0 (cs.flatMap (quoteRune short) ++ '"' :: rest) = some (cs, rest) := by
  induction cs with
  | nil =>
    show unquoteBody 0 ('"' :: rest) = _
    conv_lhs => unfold unquoteBody
    rw [if_pos rfl]
  | cons c cs ih =>
    rw [List.flatMap_cons, List.append_assoc, unquoteBody_quoteRune, ih]
    rfl

theorem parseString_quote (short : Bool) (s : String) (rest : List Char) :
    parseString (quote short s ++ rest) = some (s, rest) := by
  unfold quote parseString
  simp only [List.cons_append, List.append_assoc, if_true, List.singleton_append]
  rw [unquoteBody_quote]
  rfl

end json

namespace strconv

theorem digitChar_facts : ∀ n, n < 10 →
    (digitChar n).toNat - 48 = n ∧ isDigit (digitChar n) = true ∧
      (1 ≤ n → digitChar n ≠ '0') := by
  decide

theorem digitsValue_append (l : List Char) (d : Char) :
    digitsValue (l ++ [d]) = digitsValue l * 10 + (d.toNat - 48) := by
  simp [digitsValue, List.foldl_append]

theorem formatNat_acc (fuel : Nat) : ∀ (n : Nat) (acc : List Char), n < 10 ^ fuel →
    formatNat fuel n acc = formatNat fuel n [] ++ acc := by
  induction fuel with
  | zero => intro n acc _; simp [formatNat]
  | succ fuel ih =>
    intro n acc h
    by_cases h10 : n < 10
    · simp [formatNat, h10]
    · have hlt : n / 10 < 10 ^ fuel := by
        rw [Nat.div_lt_iff_lt_mul (by decide)]
        rw [pow_succ] at h
        exact h
      simp only [formatNat, h10, if_false]
      rw [ih (n / 10) (digitChar (n % 10) :: acc) hlt, ih (n / 10) [digitChar (n % 10)] hlt]
      simp

theorem formatNat_step (fuel : Nat) (n : Nat) (h : n < 10 ^ (fuel + 1)) (h10 : ¬ n < 10) :
    formatNat (fuel + 1) n [] = formatNat fuel (n / 10) [] ++ [digitChar (n % 10)] := by
  have hlt : n / 10 < 10 ^ fuel := by
    rw [Nat.div_lt_iff_lt_mul (by decide)]
    rw [pow_succ] at h
    exact h
  simp only [formatNat, h10, if_false]
  exact formatNat_acc fuel (n / 10) _ hlt

theorem formatNat_facts (fuel : Nat) : ∀ (n : Nat), n < 10 ^ (fuel + 1) →
    digitsValue (formatNat (fuel + 1) n []) = n ∧
    (∀ c ∈ formatNat (fuel + 1) n [], isDigit c = true) ∧
    (∃ c l, formatNat (fuel + 1) n [] = c :: l ∧ (c = '0' → n = 0 ∧ l = [])) := by
  induction fuel with
  | zero =>
    intro n h
    have h10 : n < 10 := by simpa using h
    obtain ⟨f1, f2, f3⟩ := digitChar_facts n h10
    simp only [formatNat, h10, if_true]
    refine ⟨by simp [digitsValue, f1], by simpa using f2, digitChar n, [], rfl, ?_⟩
    intro h0
    refine ⟨?_, rfl⟩
    by_contra hn
    exact f3 (by omega) h0
  | succ fuel ih =>
    intro n h
    by_cases h10 : n < 10
    · obtain ⟨f1, f2, f3⟩ := digitChar_facts n h10
      simp only [formatNat, h10, if_true]
      refine ⟨by simp [digitsValue, f1], by simpa using f2, digitChar n, [], rfl, ?_⟩
      intro h0
      refine ⟨?_, rfl⟩
      by_contra hn
      exact f3 (by omega) h0
    · have hlt : n / 10 < 10 ^ (fuel + 1) := by
        rw [Nat.div_lt_iff_lt_mul (by decide)]
        rw [pow_succ] at h
        exact h
      obtain ⟨g1, g2, c, l, g3, g4⟩ := ih (n / 10) hlt
      obtain ⟨f1, f2, _⟩ := digitChar_facts (n % 10) (Nat.mod_lt _ (by decide))
      rw [formatNat_step (fuel + 1) n h h10]
      refine ⟨?_, ?_, c, l ++ [digitChar (n % 10)], ?_, ?_⟩
      · rw [digitsValue_append, g1, f1]; omega
      · intro x hx
        rcases List.mem_append.mp hx with hx | hx
        · exact g2 x hx
        · rw [List.mem_singleton.mp hx]; exact f2
      · rw [g3]; rfl
      · intro h0
        have := (g4 h0).1
        omega

end strconv

namespace json

theorem span_digits (ds rest : List Char) (hds : ∀ c ∈ ds, strconv.isDigit c = true)
    (hrest : ∀ c, rest.head? = some c → strconv.isDigit c = false) :
    (ds ++ rest).takeWhile strconv.isDigit = ds ∧
    (ds ++ rest).dropWhile strconv.isDigit = rest := by
  induction ds with
  | nil =>
    cases rest with
    | nil => simp
    | cons r rs =>
      have := hrest r rfl
      simp [List.takeWhile, List.dropWhile, this]
  | cons d ds ih =>
    have hd := hds d (by simp)
    have := ih (fun c hc => hds c (by simp [hc]))
    simp [List.takeWhile, List.dropWhile, hd, this.1, this.2]

theorem parseInt64_digits (n : Nat) (rest : List Char) (hn : n < 10 ^ 20)
    (hrest : ∀ c, rest.head? = some c →
      strconv.isDigit c = false ∧ c ≠ '.' ∧ c ≠ 'e' ∧ c ≠ 'E') :
    parseInt64 ('-' :: (strconv.formatNat 20 n [] ++ rest)) =
        (if n ≤ 2 ^ 63 then some (-(n : Int), rest) else none) ∧
    parseInt64 (strconv.formatNat 20 n [] ++ rest) =
        (if n < 2 ^ 63 then some ((n : Int), rest) else none) := by
  obtain ⟨f1, f2, c, l, f3, f4⟩ := strconv.formatNat_facts 19 n hn
  obtain ⟨s1, s2⟩ := span_digits (strconv.formatNat 20 n []) rest f2
    (fun c hc => (hrest c hc).1)
  have hne : strconv.formatNat 20 n [] ≠ [] := by rw [f3]; simp
  have hlead : ¬ (1 < (strconv.formatNat 20 n []).length ∧
      (strconv.formatNat 20 n []).head? = some '0') := by
    rintro ⟨h1, h2⟩
    rw [f3] at h1 h2
    simp only [List.head?_cons, Option.some.injEq] at h2
    have := (f4 h2).2
    rw [this] at h1
    simp at h1
  have hfrac : ¬ (rest.head? = some '.' ∨ rest.head? = some 'e' ∨ rest.head? = some 'E') := by
    rintro (h | h | h)
    · exact (hrest _ h).2.1 rfl
    · exact (hrest _ h).2.2.1 rfl
    · exact (hrest _ h).2.2.2 rfl
  have hc : strconv.isDigit c = true := f2 c (by rw [f3]; simp)
  have hcm : c ≠ '-' := by
    intro h; rw [h] at hc; exact absurd hc (by decide)
  constructor
  · unfold parseInt64
    have hhead : ('-' :: (strconv.formatNat 20 n [] ++ rest)).head? = some '-' := rfl
    simp only [hhead, if_true, List.drop_succ_cons, List.drop_zero, s1, s2, f1, if_neg hne,
      if_neg hlead, if_neg hfrac]
  · unfold parseInt64
    have hhead : ¬ ((strconv.formatNat 20 n [] ++ rest).head? = some '-') := by
      rw [f3]
      simp only [List.cons_append, List.head?_cons, Option.some.injEq]
      exact hcm
    simp only [if_neg hhead, s1, s2, f1, if_neg hne, if_neg hlead, if_neg hfrac]

theorem parseInt64_format (i : Int) (rest : List Char)
    (hlo : -(2 ^ 63) ≤ i) (hhi : i < 2 ^ 63)
    (hrest : ∀ c, rest.head? = some c →
      strconv.isDigit c = false ∧ c ≠ '.' ∧ c ≠ 'e' ∧ c ≠ 'E') :
    parseInt64 (strconv.FormatInt i ++ rest) = some (i, rest) := by
  unfold strconv.FormatInt
  by_cases hneg : i < 0
  · have hn : i.natAbs < 10 ^ 20 := by omega
    have := (parseInt64_digits i.natAbs rest hn hrest).1
    rw [if_pos hneg, List.cons_append, this]
    have h1 : i.natAbs ≤ 2 ^ 63 := by omega
    rw [if_pos h1]
    congr 2
    omega
  · have hn : i.toNat < 10 ^ 20 := by omega
    have := (parseInt64_digits i.toNat rest hn hrest).2
    rw [if_neg hneg, this]
    have h1 : i.toNat < 2 ^ 63 := by omega
    rw [if_pos h1]
    congr 2
    omega

end json

namespace json

theorem expect_append (lit : String) (rest : List Char) :
    expect lit (lit.data ++ rest) = some rest := by
  unfold expect
  have h : lit.data.isPrefixOf (lit.data ++ rest) = true := by
    rw [List.isPrefixOf_iff_prefix]
    exact List.prefix_append _ _
  rw [if_pos h, List.drop_left]

theorem parseToken_marshal (short : Bool) (t : Token) (rest : List Char)
    (hlo : -(2 ^ 63) ≤ t.ExpiresAt) (hhi : t.ExpiresAt < 2 ^ 63) :
    parseToken (marshalToken short t ++ rest) = some (t, rest) := by
  unfold parseToken marshalToken
  simp only [List.append_assoc]
  rw [expect_append]
  simp only [Option.bind_eq_bind, Option.some_bind]
  rw [parseString_quote]
  simp only [Option.some_bind]
  rw [expect_append]
  simp only [Option.some_bind]
  rw [parseInt64_format t.ExpiresAt _ hlo hhi (by
    intro c hc
    have : c = '\x7d' := by
      simpa using hc.symm
    subst this
    decide)]
  simp only [Option.some_bind]
  rw [expect_append]
  rfl

theorem parseSession_marshal (short : Bool) (s : Session)
    (h1 : -(2 ^ 63) ≤ s.Token.AccessToken.ExpiresAt)
    (h2 : s.Token.AccessToken.ExpiresAt < 2 ^ 63)
    (h3 : -(2 ^ 63) ≤ s.Token.RefreshToken.ExpiresAt)
    (h4 : s.Token.RefreshToken.ExpiresAt < 2 ^ 63) :
    parseSession (Marshal short s).1.data = some s := by
  unfold parseSession Marshal
  simp only [List.append_assoc]
  rw [expect_append]
  simp only [Option.bind_eq_bind, Option.some_bind]
  rw [parseString_quote]
  simp only [Option.some_bind]
  rw [expect_append]
  simp only [Option.some_bind]
  rw [parseToken_marshal short _ _ h1 h2]
  simp only [Option.some_bind]
  rw [expect_append]
  simp only [Option.some_bind]
  rw [parseToken_marshal short _ _ h3 h4]
  simp only [Option.some_bind]
  rw [expect_append]
  simp only [Option.some_bind]
  rw [parseString_quote]
  simp only [Option.some_bind]
  have := expect_append "\x7d\x7d" []
  rw [List.append_nil] at this
  rw [this]
  rfl

theorem unmarshal_marshal (short : Bool) (s : Session)
    (h1 : -(2 ^ 63) ≤ s.Token.AccessToken.ExpiresAt)
    (h2 : s.Token.AccessToken.ExpiresAt < 2 ^ 63)
    (h3 : -(2 ^ 63) ≤ s.Token.RefreshToken.ExpiresAt)
    (h4 : s.Token.RefreshToken.ExpiresAt < 2 ^ 63) :
    Unmarshal (Marshal short s).1 = (s, none) := by
  unfold Unmarshal
  rw [parseSession_marshal short s h1 h2 h3 h4]

end json

namespace redis

theorem expiryMillis_pos (expiration : Int) : 0 < expiryMillis expiration := by
  unfold expiryMillis
  split
  · split
    · decide
    · omega
  · omega

theorem find_filter_ne (key : String) (p : Entry → Bool) (l : List Entry) :
    (l.filter (fun e => decide (e.key ≠ key))).find? (fun e => decide (e.key = key) && p e)
      = none := by
  rw [List.find?_eq_none]
  intro e he
  have := (List.mem_filter.mp he).2
  simp only [ne_eq, decide_not, Bool.not_eq_true', decide_eq_false_iff_not] at this
  simp [this]

theorem expireAt_live (key : String) (expiration : Int) (s : Server) (value : String) :
    s.live ⟨key, value, Set.expireAt key expiration s⟩ = true := by
  unfold Server.live Set.expireAt
  dsimp only
  split
  · rfl
  · rename_i t ht
    split at ht
    · rename_i hpos
      injection ht with ht
      have := expiryMillis_pos expiration
      simp only [decide_eq_true_eq]
      omega
    · split at ht
      · rcases hl : s.lookup key with _ | e
        · rw [hl] at ht; exact absurd ht (by simp)
        · rw [hl] at ht
          dsimp only at ht
          have hp := List.find?_some hl
          simp only [Bool.and_eq_true, decide_eq_true_eq] at hp
          have h2 := hp.2
          unfold Server.live at h2
          rw [ht] at h2
          exact h2
      · exact absurd ht (by simp)

theorem get_set (key value : String) (expiration : Int) (s : Server) :
    (Set key value expiration s).1 = none ∧
    (Get key (Set key value expiration s).2).1 = (value, none) := by
  refine ⟨rfl, ?_⟩
  have hlive := expireAt_live key expiration s value
  unfold Get Set Server.lookup
  dsimp only
  have hl : Server.live ⟨s.entries.filter (fun e => decide (e.key ≠ key)) ++
      [⟨key, value, Set.expireAt key expiration s⟩], s.now⟩
      = s.live := rfl
  rw [hl, List.find?_append, find_filter_ne]
  simp [List.find?, hlive]

theorem get_del (key : String) (s : Server) :
    (Del key s).1 = none ∧ (Get key (Del key s).2).1 = ("", some Nil) := by
  refine ⟨rfl, ?_⟩
  unfold Get Del Server.lookup
  dsimp only
  rw [find_filter_ne]

theorem del_del (key : String) (s : Server) : (Del key (Del key s).2).2 = (Del key s).2 := by
  unfold Del
  simp [List.filter_filter]

end redis

/-- C22, counterexample: a session saved under the empty session id is still
returned by `Get` after `Delete` of that id, because `Delete` returns at once for
the empty id. -/
theorem redisStore_delete_empty_id_counterexample :
    (fixture.redisStore.Delete ""
        (fixture.redisStore.Save "" fixture.oddSession 0 fixture.redis0).2).1 = none ∧
    (fixture.redisStore.Get ""
      (fixture.redisStore.Delete ""
        (fixture.redisStore.Save "" fixture.oddSession 0 fixture.redis0).2).2).1
      = (fixture.oddSession, none) := by
  decide

/-- C22 (amended): for every session id, every session (its expiry times being
64-bit integers) and every ttl, `Save` succeeds and `Get` right after it returns the
session saved, and decoding the JSON encoding of the session gives the session back;
for every non-empty session id, `Delete` succeeds and `Get` after it returns the
error `redis.Nil`, also when the session was saved before. -/
theorem redisStore_round_trip (store : session.RedisStore) (sessionID : String)
    (sess : Session) (ttl : Int) (rdb : redis.Server)
    (h1 : -(2 ^ 63) ≤ sess.Token.AccessToken.ExpiresAt)
    (h2 : sess.Token.AccessToken.ExpiresAt < 2 ^ 63)
    (h3 : -(2 ^ 63) ≤ sess.Token.RefreshToken.ExpiresAt)
    (h4 : sess.Token.RefreshToken.ExpiresAt < 2 ^ 63) :
    (store.Save sessionID sess ttl rdb).1 = none ∧
    (store.Get sessionID (store.Save sessionID sess ttl rdb).2).1 = (sess, none) ∧
    json.Unmarshal (json.Marshal store.short sess).1 = (sess, none) ∧
    (sessionID ≠ "" →
      (store.Delete sessionID rdb).1 = none ∧
      (store.Get sessionID (store.Delete sessionID rdb).2).1
        = (Session.zero, some redis.Nil) ∧
      (store.Get sessionID
        (store.Delete sessionID (store.Save sessionID sess ttl rdb).2).2).1
        = (Session.zero, some redis.Nil)) := by
  have hu := json.unmarshal_marshal store.short sess h1 h2 h3 h4
  have hsave : store.Save sessionID sess ttl rdb
      = redis.Set (store.sessionPrefix ++ sessionID) (json.Marshal store.short sess).1 ttl rdb :=
    rfl
  have hgetdel : ∀ r : redis.Server, sessionID ≠ "" →
      (store.Get sessionID (store.Delete sessionID r).2).1 = (Session.zero, some redis.Nil) := by
    intro r hne
    have hd : store.Delete sessionID r = redis.Del (store.sessionPrefix ++ sessionID) r := by
      unfold session.RedisStore.Delete
      rw [if_neg hne]
    have hg := (redis.get_del (store.sessionPrefix ++ sessionID) r).2
    unfold session.RedisStore.Get
    dsimp only
    rw [hd, hg]
  refine ⟨?_, ?_, hu, ?_⟩
  · rw [hsave]; rfl
  · have hg := (redis.get_set (store.sessionPrefix ++ sessionID)
      (json.Marshal store.short sess).1 ttl rdb).2
    unfold session.RedisStore.Get
    dsimp only
    rw [hsave, hg]
    dsimp only
    rw [hu]
  · intro hne
    refine ⟨?_, hgetdel rdb hne, hgetdel _ hne⟩
    unfold session.RedisStore.Delete
    rw [if_neg hne]
    rfl

theorem redisStore_round_trip_witness :
    (fixture.redisStore.Get "s-1"
      (fixture.redisStore.Save "s-1" fixture.oddSession 1 fixture.redis0).2).1
      = (fixture.oddSession, none) ∧
    (fixture.redisStore.Get "s-1" (fixture.redisStore.Delete "s-1"
      (fixture.redisStore.Save "s-1" fixture.oddSession 1 fixture.redis0).2).2).1
      = (Session.zero, some redis.Nil) :=
  ⟨(redisStore_round_trip fixture.redisStore "s-1" fixture.oddSession 1 fixture.redis0
      (by decide) (by decide) (by decide) (by decide)).2.1,
   ((redisStore_round_trip fixture.redisStore "s-1" fixture.oddSession 1 fixture.redis0
      (by decide) (by decide) (by decide) (by decide)).2.2.2 (by decide)).2.2⟩

/-- C21: `Logout` with the empty session id returns nil and leaves the world, its
trace included, as it was; with a non-empty id and a session store configured it is
one call of `SessionStore.Delete` with that id, whose error it returns, and the trace
gains that one call; over the Redis store, whose `Delete` of an absent key is no
error, `Logout` returns nil for every id and state, a second `Logout` of the same id
returns nil again and leaves the server as the first left it, and the key of a
non-empty id is absent afterwards. -/
theorem logout_deletes_once {σ : Type} (u : auth.Usecase σ) (w : World σ) :
    auth.Logout u "" w = some (none, w) ∧
    (∀ (sessionID : String) (sessions : auth.SessionStore σ),
      sessionID ≠ "" → u.sessions = some sessions →
      auth.Logout u sessionID w
        = some (w.callE (.sessionsDelete sessionID) (sessions.Delete sessionID)) ∧
      (w.callE (.sessionsDelete sessionID) (sessions.Delete sessionID)).1
        = (sessions.Delete sessionID w.state).1 ∧
      World.since w (w.callE (.sessionsDelete sessionID) (sessions.Delete sessionID)).2
        = [⟨.sessionsDelete sessionID, (sessions.Delete sessionID w.state).1⟩]) ∧
    (∀ (store : session.RedisStore) (v : auth.Usecase redis.Server) (sessionID : String)
      (r : World redis.Server), v.sessions = some store.authSessions →
      ∃ r1 r2 : World redis.Server,
        auth.Logout v sessionID r = some (none, r1) ∧
        auth.Logout v sessionID r1 = some (none, r2) ∧
        r2.state = r1.state ∧
        (sessionID ≠ "" → r1.state.lookup (store.sessionPrefix ++ sessionID) = none)) := by
  refine ⟨?_, ?_, ?_⟩
  · unfold auth.Logout
    rw [if_pos rfl]
  · intro sessionID sessions hne hs
    refine ⟨?_, rfl, ?_⟩
    · unfold auth.Logout
      rw [if_neg hne, hs]
    · simp [World.since, World.callE]
  · intro store v sessionID r hs
    by_cases hne : sessionID = ""
    · subst hne
      refine ⟨r, r, ?_, ?_, rfl, fun h => absurd rfl h⟩
      · unfold auth.Logout; rw [if_pos rfl]
      · unfold auth.Logout; rw [if_pos rfl]
    · have hd : ∀ x : redis.Server, store.authSessions.Delete sessionID x
          = redis.Del (store.sessionPrefix ++ sessionID) x := by
        intro x
        show store.Delete sessionID x = _
        unfold session.RedisStore.Delete
        rw [if_neg hne]
      have hlog : ∀ x : World redis.Server, auth.Logout v sessionID x
          = some (x.callE (.sessionsDelete sessionID) (store.authSessions.Delete sessionID)) := by
        intro x
        unfold auth.Logout
        rw [if_neg hne, hs]
      refine ⟨(r.callE (.sessionsDelete sessionID) (store.authSessions.Delete sessionID)).2,
        ((r.callE (.sessionsDelete sessionID) (store.authSessions.Delete sessionID)).2.callE
          (.sessionsDelete sessionID) (store.authSessions.Delete sessionID)).2, ?_, ?_, ?_, ?_⟩
      · rw [hlog]
        simp only [World.callE, hd]
        rfl
      · rw [hlog]
        simp only [World.callE, hd]
        rfl
      · simp only [World.callE, hd]
        exact redis.del_del _ _
      · intro _
        simp only [World.callE, hd]
        have := (redis.get_del (store.sessionPrefix ++ sessionID) r.state).2
        unfold redis.Get at this
        split at this
        · exact absurd this (by simp)
        · rename_i h; exact h

theorem logout_deletes_once_witness :
    (auth.Logout fixture.redisAuthUsecase "s-1"
      ⟨(fixture.redisStore.Save "s-1" fixture.oddSession 0 fixture.redis0).2, []⟩).map
        (fun p => (p.1, p.2.state, p.2.trace))
      = some (none, fixture.redis0, [⟨.sessionsDelete "s-1", none⟩]) :=
  (congrArg (Option.map (fun p => (p.1, p.2.state, p.2.trace)))
    ((logout_deletes_once fixture.redisAuthUsecase
      ⟨(fixture.redisStore.Save "s-1" fixture.oddSession 0 fixture.redis0).2, []⟩).2.1
      "s-1" fixture.redisStore.authSessions (by decide) rfl).1).trans (by decide)
